import Mathlib

/-!
# Conservative advancement (fcl, `src/ccd/conservative_advancement.cpp`)

A shallow embedding of the conservative-advancement loops, of the dispatch handlers that call
them and of the constructor of the dispatch matrix, and the properties of the specification
that concern them.

`FCL_REAL` is embedded as `ℚ`.  Everything the loops call but that is declared elsewhere
(the motions, the static `collide` test, `initialize`, `distanceRecurse`, the default tolerance
of a traversal node) is a field of `World`; the theorems hold for every `World`.
-/

namespace fcl

/-! ## Data model -/

/-- A motion object (`MotionBase`): its internal state, together with the arguments of the
`integrate` calls made on it so far, oldest first. -/
structure MotionBase (M : Type) where
  state : M
  integrated : List ℚ
deriving DecidableEq

/-- The fields of a conservative-advancement traversal node that the loops read or write.
`setup` is whatever `initialize` stored on the node (models, vertices, solver, weight);
`tf1`, `tf2` are the transforms of the shape nodes, `RT` the relative rotation and translation
`(R, T)` of the oriented mesh nodes. -/
structure Node (M Tf Sg : Type) where
  setup : Sg
  tf1 : Option Tf
  tf2 : Option Tf
  RT : Option Tf
  motion1 : MotionBase M
  motion2 : MotionBase M
  min_distance : ℚ
  toc : ℚ
  delta_t : ℚ
  t_err : ℚ

/-- The collaborators of the loops.  `traverse` is what a `distanceRecurse` descent leaves on the
node it is given, as the pair `(min_distance, delta_t)`; `init` is the source's `initialize`
and returns the node setup and the two models as it leaves them; `relative tf1 tf2` is
`tf1.inverse() * tf2`; `t_err` is the tolerance a freshly constructed node carries. -/
structure World (M Tf G1 G2 Sg : Type) where
  getCurrentTransform : M → Tf
  integrate : M → ℚ → M
  collide : G1 → Tf → G2 → Tf → Bool
  relative : Tf → Tf → Tf
  init : Sg → G1 → Tf → G2 → Tf → Sg × G1 × G2
  traverse : Node M Tf Sg → ℚ × ℚ
  setup0 : Sg
  t_err : ℚ

/-- The value of `std::numeric_limits<FCL_REAL>::max()` for a double. -/
def FCL_REAL_MAX : ℚ := 2 ^ 1024 - 2 ^ 971

/-- The machine state of one call: the node, the locals `tf1`, `tf2`, the two models handed to
`initialize` (`*o1_tmp`, `*o2_tmp` where the loop copies a mesh, the caller's `o1`, `o2` where it does
not), whether a copy was made, and the number of `distanceRecurse` calls so far. -/
structure CAState (M Tf G1 G2 Sg : Type) where
  node : Node M Tf Sg
  tf1 : Tf
  tf2 : Tf
  model1 : G1
  model2 : G2
  copied1 : Bool
  copied2 : Bool
  traversals : Nat

/-- What a call of `conservativeAdvancement` leaves behind: the boolean returned, the value
written to `toc`, the two motion objects, and the number of traversals performed. -/
structure CAResult (M : Type) where
  ret : Bool
  toc : ℚ
  motion1 : MotionBase M
  motion2 : MotionBase M
  traversals : Nat
deriving DecidableEq

variable {M Tf G1 G2 Sg : Type}

/-- `motion->integrate(t)`. -/
def MotionBase.integrate (W : World M Tf G1 G2 Sg) (m : MotionBase M) (t : ℚ) : MotionBase M :=
  { state := W.integrate m.state t, integrated := m.integrated ++ [t] }

/-- `motion->getCurrentTransform(tf)`. -/
def MotionBase.getCurrentTransform (W : World M Tf G1 G2 Sg) (m : MotionBase M) : Tf :=
  W.getCurrentTransform m.state

/-- Modelled from the spec: the traversal-node classes and their constructors are declared in
`fcl/traversal/traversal_node_bvhs.h`, which is not among the sources.  §3 gives the fields:
`toc` is the current accumulated time, initially 0; `delta_t` is the proposed next step (1);
`min_distance` is initially +∞; `t_err` is the convergence tolerance.  The assignments
`node.motion1 = motion1; node.motion2 = motion2;` of the loops are folded in. -/
def Node.fresh (W : World M Tf G1 G2 Sg) (motion1 motion2 : MotionBase M) : Node M Tf Sg :=
  { setup := W.setup0, tf1 := none, tf2 := none, RT := none,
    motion1 := motion1, motion2 := motion2,
    min_distance := FCL_REAL_MAX, toc := 0, delta_t := 1, t_err := W.t_err }

/-- `distanceRecurse(&node, 0, 0, NULL)`: the descent updates `min_distance` and `delta_t`. -/
def distanceRecurse (W : World M Tf G1 G2 Sg) (node : Node M Tf Sg) : Node M Tf Sg :=
  { node with min_distance := (W.traverse node).1, delta_t := (W.traverse node).2 }

/-- A `do { ... } while(1)` loop whose body may `break`: the body returns the new state and
whether it broke.  `fuel` bounds the number of iterations; `none` means the loop is still
running when the fuel is used up. -/
def doWhile {S : Type} (body : S → S × Bool) : Nat → S → Option S
  | 0, _ => none
  | fuel + 1, s => if (body s).2 then some (body s).1 else doWhile body fuel (body s).1

/-- The state at the start of iteration `k` (counted from 0) of a `doWhile` loop started in
`s`; `none` when the loop has left before. -/
def stateAt {S : Type} (body : S → S × Bool) : Nat → S → Option S
  | 0, s => some s
  | k + 1, s => if (body s).2 then none else stateAt body k (body s).1

/-! ## The seven loops -/

/-- The statements after the loop, shared by every variant:
`toc = node.toc; if(node.toc < 1) return true; return false;`. -/
def CAState.exit (s : CAState M Tf G1 G2 Sg) : CAResult M :=
  { ret := decide (s.node.toc < 1), toc := s.node.toc,
    motion1 := s.node.motion1, motion2 := s.node.motion2, traversals := s.traversals }

/-- The early return of every variant: `toc = 0; return true;`. -/
def earlyReturn (motion1 motion2 : MotionBase M) : CAResult M :=
  { ret := true, toc := 0, motion1 := motion1, motion2 := motion2, traversals := 0 }

/-- Body of the loop of `conservativeAdvancement<BV>` (mesh against mesh, lines 83-112). -/
def meshBody (W : World M Tf G1 G2 Sg) (s : CAState M Tf G1 G2 Sg) :
    CAState M Tf G1 G2 Sg × Bool :=
  -- initialize(node, *o1_tmp, tf1, *o2_tmp, tf2);
  let i := W.init s.node.setup s.model1 s.tf1 s.model2 s.tf2
  let node : Node M Tf Sg := { s.node with setup := i.1 }
  let node : Node M Tf Sg := { node with delta_t := 1, min_distance := FCL_REAL_MAX }
  let node := distanceRecurse W node
  let s : CAState M Tf G1 G2 Sg :=
    { s with node := node, model1 := i.2.1, model2 := i.2.2, traversals := s.traversals + 1 }
  if node.delta_t ≤ node.t_err then (s, true)
  else
    let node : Node M Tf Sg := { node with toc := node.toc + node.delta_t }
    if node.toc > 1 then ({ s with node := { node with toc := 1 } }, true)
    else
      let node : Node M Tf Sg := { node with motion1 := node.motion1.integrate W node.toc }
      let node : Node M Tf Sg := { node with motion2 := node.motion2.integrate W node.toc }
      ({ s with node := node, tf1 := node.motion1.getCurrentTransform W,
                tf2 := node.motion2.getCurrentTransform W }, false)

/-- State in which `conservativeAdvancement<BV>` enters its loop: both meshes copied, a fresh
node with the two motions. -/
def meshEntry (W : World M Tf G1 G2 Sg) (o1 : G1) (motion1 : MotionBase M) (o2 : G2)
    (motion2 : MotionBase M) : CAState M Tf G1 G2 Sg :=
  { node := Node.fresh W motion1 motion2,
    tf1 := motion1.getCurrentTransform W, tf2 := motion2.getCurrentTransform W,
    model1 := o1, model2 := o2, copied1 := true, copied2 := true, traversals := 0 }

/-- `conservativeAdvancement<BV>(const BVHModel<BV>&, ..., const BVHModel<BV>&, ...)`,
lines 53-123. -/
def conservativeAdvancementMesh (W : World M Tf G1 G2 Sg) (o1 : G1) (motion1 : MotionBase M)
    (o2 : G2) (motion2 : MotionBase M) (fuel : Nat) : Option (CAResult M) :=
  let tf1 := motion1.getCurrentTransform W
  let tf2 := motion2.getCurrentTransform W
  if W.collide o1 tf1 o2 tf2 then some (earlyReturn motion1 motion2)
  else (doWhile (meshBody W) fuel (meshEntry W o1 motion1 o2 motion2)).map CAState.exit

/-- Body of the loop of `details::conservativeAdvancementMeshOriented` (lines 156-187). -/
def meshOrientedBody (W : World M Tf G1 G2 Sg) (s : CAState M Tf G1 G2 Sg) :
    CAState M Tf G1 G2 Sg × Bool :=
  let tf1 := s.node.motion1.getCurrentTransform W
  let tf2 := s.node.motion2.getCurrentTransform W
  -- Transform3d tf = tf1.inverse() * tf2; node.R = tf.linear(); node.T = tf.translation();
  let node : Node M Tf Sg := { s.node with RT := some (W.relative tf1 tf2) }
  let node : Node M Tf Sg := { node with delta_t := 1, min_distance := FCL_REAL_MAX }
  let node := distanceRecurse W node
  let s : CAState M Tf G1 G2 Sg :=
    { s with node := node, tf1 := tf1, tf2 := tf2, traversals := s.traversals + 1 }
  if node.delta_t ≤ node.t_err then (s, true)
  else
    let node : Node M Tf Sg := { node with toc := node.toc + node.delta_t }
    if node.toc > 1 then ({ s with node := { node with toc := 1 } }, true)
    else
      let node : Node M Tf Sg := { node with motion1 := node.motion1.integrate W node.toc }
      let node : Node M Tf Sg := { node with motion2 := node.motion2.integrate W node.toc }
      ({ s with node := node }, false)

/-- State in which the loops that copy nothing enter: a fresh node on which `initialize` was
called once with the caller's objects and the entry transforms. -/
def plainEntry (W : World M Tf G1 G2 Sg) (o1 : G1) (motion1 : MotionBase M) (o2 : G2)
    (motion2 : MotionBase M) : CAState M Tf G1 G2 Sg :=
  let tf1 := motion1.getCurrentTransform W
  let tf2 := motion2.getCurrentTransform W
  { node := { Node.fresh W motion1 motion2 with setup := (W.init W.setup0 o1 tf1 o2 tf2).1 },
    tf1 := tf1, tf2 := tf2,
    model1 := o1, model2 := o2, copied1 := false, copied2 := false, traversals := 0 }

/-- `details::conservativeAdvancementMeshOriented`, lines 128-195. -/
def conservativeAdvancementMeshOriented (W : World M Tf G1 G2 Sg) (o1 : G1)
    (motion1 : MotionBase M) (o2 : G2) (motion2 : MotionBase M) (fuel : Nat) :
    Option (CAResult M) :=
  let tf1 := motion1.getCurrentTransform W
  let tf2 := motion2.getCurrentTransform W
  if W.collide o1 tf1 o2 tf2 then some (earlyReturn motion1 motion2)
  else (doWhile (meshOrientedBody W) fuel (plainEntry W o1 motion1 o2 motion2)).map CAState.exit

/-- Body of the loop of `conservativeAdvancement<S1, S2, NarrowPhaseSolver>` (lines 247-275). -/
def shapeBody (W : World M Tf G1 G2 Sg) (s : CAState M Tf G1 G2 Sg) :
    CAState M Tf G1 G2 Sg × Bool :=
  let tf1 := s.node.motion1.getCurrentTransform W
  let tf2 := s.node.motion2.getCurrentTransform W
  let node : Node M Tf Sg := { s.node with tf1 := some tf1, tf2 := some tf2 }
  let node : Node M Tf Sg := { node with delta_t := 1, min_distance := FCL_REAL_MAX }
  let node := distanceRecurse W node
  let s : CAState M Tf G1 G2 Sg :=
    { s with node := node, tf1 := tf1, tf2 := tf2, traversals := s.traversals + 1 }
  if node.delta_t ≤ node.t_err then (s, true)
  else
    let node : Node M Tf Sg := { node with toc := node.toc + node.delta_t }
    if node.toc > 1 then ({ s with node := { node with toc := 1 } }, true)
    else
      let node : Node M Tf Sg := { node with motion1 := node.motion1.integrate W node.toc }
      let node : Node M Tf Sg := { node with motion2 := node.motion2.integrate W node.toc }
      ({ s with node := node }, false)

/-- `conservativeAdvancement<S1, S2, NarrowPhaseSolver>` (shape against shape),
lines 219-283. -/
def conservativeAdvancementShape (W : World M Tf G1 G2 Sg) (o1 : G1) (motion1 : MotionBase M)
    (o2 : G2) (motion2 : MotionBase M) (fuel : Nat) : Option (CAResult M) :=
  let tf1 := motion1.getCurrentTransform W
  let tf2 := motion2.getCurrentTransform W
  if W.collide o1 tf1 o2 tf2 then some (earlyReturn motion1 motion2)
  else (doWhile (shapeBody W) fuel (plainEntry W o1 motion1 o2 motion2)).map CAState.exit

/-- Body of the loop of `conservativeAdvancement<BV, S, NarrowPhaseSolver>` (mesh against
shape, lines 312-340): only the mesh `*o1_tmp` is rebuilt, `o2` is a const shape. -/
def meshShapeBody (W : World M Tf G1 G2 Sg) (s : CAState M Tf G1 G2 Sg) :
    CAState M Tf G1 G2 Sg × Bool :=
  -- initialize(node, *o1_tmp, tf1, o2, tf2, nsolver);
  let i := W.init s.node.setup s.model1 s.tf1 s.model2 s.tf2
  let node : Node M Tf Sg := { s.node with setup := i.1 }
  let node : Node M Tf Sg := { node with delta_t := 1, min_distance := FCL_REAL_MAX }
  let node := distanceRecurse W node
  let s : CAState M Tf G1 G2 Sg :=
    { s with node := node, model1 := i.2.1, traversals := s.traversals + 1 }
  if node.delta_t ≤ node.t_err then (s, true)
  else
    let node : Node M Tf Sg := { node with toc := node.toc + node.delta_t }
    if node.toc > 1 then ({ s with node := { node with toc := 1 } }, true)
    else
      let node : Node M Tf Sg := { node with motion1 := node.motion1.integrate W node.toc }
      let node : Node M Tf Sg := { node with motion2 := node.motion2.integrate W node.toc }
      ({ s with node := node, tf1 := node.motion1.getCurrentTransform W,
                tf2 := node.motion2.getCurrentTransform W }, false)

/-- State in which the mesh-shape loop enters: the mesh `o1` copied, a fresh node. -/
def meshShapeEntry (W : World M Tf G1 G2 Sg) (o1 : G1) (motion1 : MotionBase M) (o2 : G2)
    (motion2 : MotionBase M) : CAState M Tf G1 G2 Sg :=
  { node := Node.fresh W motion1 motion2,
    tf1 := motion1.getCurrentTransform W, tf2 := motion2.getCurrentTransform W,
    model1 := o1, model2 := o2, copied1 := true, copied2 := false, traversals := 0 }

/-- `conservativeAdvancement<BV, S, NarrowPhaseSolver>(const BVHModel<BV>&, ..., const S&, ...)`,
lines 285-350. -/
def conservativeAdvancementMeshShape (W : World M Tf G1 G2 Sg) (o1 : G1)
    (motion1 : MotionBase M) (o2 : G2) (motion2 : MotionBase M) (fuel : Nat) :
    Option (CAResult M) :=
  let tf1 := motion1.getCurrentTransform W
  let tf2 := motion2.getCurrentTransform W
  if W.collide o1 tf1 o2 tf2 then some (earlyReturn motion1 motion2)
  else (doWhile (meshShapeBody W) fuel (meshShapeEntry W o1 motion1 o2 motion2)).map CAState.exit

/-- Body of the loop of `details::conservativeAdvancementMeshShapeOriented` (lines 382-410). -/
def meshShapeOrientedBody (W : World M Tf G1 G2 Sg) (s : CAState M Tf G1 G2 Sg) :
    CAState M Tf G1 G2 Sg × Bool :=
  let tf1 := s.node.motion1.getCurrentTransform W
  let tf2 := s.node.motion2.getCurrentTransform W
  let node : Node M Tf Sg := { s.node with tf1 := some tf1, tf2 := some tf2 }
  let node : Node M Tf Sg := { node with delta_t := 1, min_distance := FCL_REAL_MAX }
  let node := distanceRecurse W node
  let s : CAState M Tf G1 G2 Sg :=
    { s with node := node, tf1 := tf1, tf2 := tf2, traversals := s.traversals + 1 }
  if node.delta_t ≤ node.t_err then (s, true)
  else
    let node : Node M Tf Sg := { node with toc := node.toc + node.delta_t }
    if node.toc > 1 then ({ s with node := { node with toc := 1 } }, true)
    else
      let node : Node M Tf Sg := { node with motion1 := node.motion1.integrate W node.toc }
      let node : Node M Tf Sg := { node with motion2 := node.motion2.integrate W node.toc }
      ({ s with node := node }, false)

/-- `details::conservativeAdvancementMeshShapeOriented`, lines 355-418. -/
def conservativeAdvancementMeshShapeOriented (W : World M Tf G1 G2 Sg) (o1 : G1)
    (motion1 : MotionBase M) (o2 : G2) (motion2 : MotionBase M) (fuel : Nat) :
    Option (CAResult M) :=
  let tf1 := motion1.getCurrentTransform W
  let tf2 := motion2.getCurrentTransform W
  if W.collide o1 tf1 o2 tf2 then some (earlyReturn motion1 motion2)
  else
    (doWhile (meshShapeOrientedBody W) fuel (plainEntry W o1 motion1 o2 motion2)).map CAState.exit

/-- Body of the loop of `conservativeAdvancement<S, BV, NarrowPhaseSolver>` (shape against
mesh, lines 476-504): only the mesh `*o2_tmp` is rebuilt, `o1` is a const shape. -/
def shapeMeshBody (W : World M Tf G1 G2 Sg) (s : CAState M Tf G1 G2 Sg) :
    CAState M Tf G1 G2 Sg × Bool :=
  -- initialize(node, o1, tf1, *o2_tmp, tf2, nsolver);
  let i := W.init s.node.setup s.model1 s.tf1 s.model2 s.tf2
  let node : Node M Tf Sg := { s.node with setup := i.1 }
  let node : Node M Tf Sg := { node with delta_t := 1, min_distance := FCL_REAL_MAX }
  let node := distanceRecurse W node
  let s : CAState M Tf G1 G2 Sg :=
    { s with node := node, model2 := i.2.2, traversals := s.traversals + 1 }
  if node.delta_t ≤ node.t_err then (s, true)
  else
    let node : Node M Tf Sg := { node with toc := node.toc + node.delta_t }
    if node.toc > 1 then ({ s with node := { node with toc := 1 } }, true)
    else
      let node : Node M Tf Sg := { node with motion1 := node.motion1.integrate W node.toc }
      let node : Node M Tf Sg := { node with motion2 := node.motion2.integrate W node.toc }
      ({ s with node := node, tf1 := node.motion1.getCurrentTransform W,
                tf2 := node.motion2.getCurrentTransform W }, false)

/-- State in which the shape-mesh loop enters: the mesh `o2` copied, a fresh node. -/
def shapeMeshEntry (W : World M Tf G1 G2 Sg) (o1 : G1) (motion1 : MotionBase M) (o2 : G2)
    (motion2 : MotionBase M) : CAState M Tf G1 G2 Sg :=
  { node := Node.fresh W motion1 motion2,
    tf1 := motion1.getCurrentTransform W, tf2 := motion2.getCurrentTransform W,
    model1 := o1, model2 := o2, copied1 := false, copied2 := true, traversals := 0 }

/-- `conservativeAdvancement<S, BV, NarrowPhaseSolver>(const S&, ..., const BVHModel<BV>&, ...)`,
lines 449-514. -/
def conservativeAdvancementShapeMesh (W : World M Tf G1 G2 Sg) (o1 : G1)
    (motion1 : MotionBase M) (o2 : G2) (motion2 : MotionBase M) (fuel : Nat) :
    Option (CAResult M) :=
  let tf1 := motion1.getCurrentTransform W
  let tf2 := motion2.getCurrentTransform W
  if W.collide o1 tf1 o2 tf2 then some (earlyReturn motion1 motion2)
  else (doWhile (shapeMeshBody W) fuel (shapeMeshEntry W o1 motion1 o2 motion2)).map CAState.exit

/-- Body of the loop of `details::conservativeAdvancementShapeMeshOriented` (lines 546-574). -/
def shapeMeshOrientedBody (W : World M Tf G1 G2 Sg) (s : CAState M Tf G1 G2 Sg) :
    CAState M Tf G1 G2 Sg × Bool :=
  let tf1 := s.node.motion1.getCurrentTransform W
  let tf2 := s.node.motion2.getCurrentTransform W
  let node : Node M Tf Sg := { s.node with tf1 := some tf1, tf2 := some tf2 }
  let node : Node M Tf Sg := { node with delta_t := 1, min_distance := FCL_REAL_MAX }
  let node := distanceRecurse W node
  let s : CAState M Tf G1 G2 Sg :=
    { s with node := node, tf1 := tf1, tf2 := tf2, traversals := s.traversals + 1 }
  if node.delta_t ≤ node.t_err then (s, true)
  else
    let node : Node M Tf Sg := { node with toc := node.toc + node.delta_t }
    if node.toc > 1 then ({ s with node := { node with toc := 1 } }, true)
    else
      let node : Node M Tf Sg := { node with motion1 := node.motion1.integrate W node.toc }
      let node : Node M Tf Sg := { node with motion2 := node.motion2.integrate W node.toc }
      ({ s with node := node }, false)

/-- `details::conservativeAdvancementShapeMeshOriented`, lines 519-582. -/
def conservativeAdvancementShapeMeshOriented (W : World M Tf G1 G2 Sg) (o1 : G1)
    (motion1 : MotionBase M) (o2 : G2) (motion2 : MotionBase M) (fuel : Nat) :
    Option (CAResult M) :=
  let tf1 := motion1.getCurrentTransform W
  let tf2 := motion2.getCurrentTransform W
  if W.collide o1 tf1 o2 tf2 then some (earlyReturn motion1 motion2)
  else
    (doWhile (shapeMeshOrientedBody W) fuel (plainEntry W o1 motion1 o2 motion2)).map CAState.exit

/-! ## The overload set and the dispatch handlers -/

/-- The seven loops of the file. -/
inductive Variant where
  | mesh | meshOriented | shape | meshShape | meshShapeOriented | shapeMesh | shapeMeshOriented
deriving DecidableEq, Repr

/-- The loop body of each variant. -/
def loopBody (v : Variant) (W : World M Tf G1 G2 Sg) :
    CAState M Tf G1 G2 Sg → CAState M Tf G1 G2 Sg × Bool :=
  match v with
  | .mesh => meshBody W
  | .meshOriented => meshOrientedBody W
  | .shape => shapeBody W
  | .meshShape => meshShapeBody W
  | .meshShapeOriented => meshShapeOrientedBody W
  | .shapeMesh => shapeMeshBody W
  | .shapeMeshOriented => shapeMeshOrientedBody W

/-- The state in which each variant enters its loop. -/
def loopEntry (v : Variant) (W : World M Tf G1 G2 Sg) (o1 : G1) (motion1 : MotionBase M)
    (o2 : G2) (motion2 : MotionBase M) : CAState M Tf G1 G2 Sg :=
  match v with
  | .mesh => meshEntry W o1 motion1 o2 motion2
  | .meshShape => meshShapeEntry W o1 motion1 o2 motion2
  | .shapeMesh => shapeMeshEntry W o1 motion1 o2 motion2
  | .meshOriented | .shape | .meshShapeOriented | .shapeMeshOriented =>
      plainEntry W o1 motion1 o2 motion2

/-- The overloaded name `conservativeAdvancement`, with the overload made explicit. -/
def conservativeAdvancement (v : Variant) (W : World M Tf G1 G2 Sg) (o1 : G1)
    (motion1 : MotionBase M) (o2 : G2) (motion2 : MotionBase M) (fuel : Nat) :
    Option (CAResult M) :=
  match v with
  | .mesh => conservativeAdvancementMesh W o1 motion1 o2 motion2 fuel
  | .meshOriented => conservativeAdvancementMeshOriented W o1 motion1 o2 motion2 fuel
  | .shape => conservativeAdvancementShape W o1 motion1 o2 motion2 fuel
  | .meshShape => conservativeAdvancementMeshShape W o1 motion1 o2 motion2 fuel
  | .meshShapeOriented => conservativeAdvancementMeshShapeOriented W o1 motion1 o2 motion2 fuel
  | .shapeMesh => conservativeAdvancementShapeMesh W o1 motion1 o2 motion2 fuel
  | .shapeMeshOriented => conservativeAdvancementShapeMeshOriented W o1 motion1 o2 motion2 fuel

/-- The bounding-volume classes a `BVHModel` is instantiated with. -/
inductive BVKind where
  | AABB | OBB | RSS | kIOS | OBBRSS | KDOP16 | KDOP18 | KDOP24
deriving DecidableEq, Repr, Fintype

/-- Overload chosen for two `BVHModel<BV>`: the explicit specializations for `RSS` and `OBBRSS`
(lines 615-637) forward to the oriented loop, every other kind takes the generic template. -/
def BVKind.meshVariant : BVKind → Variant
  | .RSS | .OBBRSS => .meshOriented
  | _ => .mesh

/-- Overload chosen for a `BVHModel<BV>` against a shape (lines 285, 423-447). -/
def BVKind.meshShapeVariant : BVKind → Variant
  | .RSS | .OBBRSS => .meshShapeOriented
  | _ => .meshShape

/-- Overload chosen for a shape against a `BVHModel<BV>` (lines 449, 586-611). -/
def BVKind.shapeMeshVariant : BVKind → Variant
  | .RSS | .OBBRSS => .shapeMeshOriented
  | _ => .shapeMesh

/-- The `ContinuousCollisionResult` fields. -/
structure ContinuousCollisionResult where
  is_collide : Bool
  time_of_contact : ℚ
deriving DecidableEq

/-- Modelled from the spec: the request of a continuous query, declared in a header that is not
among the sources.  §6 gives its fields: the tolerances `t_err`, `abs_err`, `rel_err` (and an
optional solver choice, which plays no part here). -/
structure ContinuousCollisionRequest where
  t_err : ℚ
  abs_err : ℚ
  rel_err : ℚ

/-- What a dispatch handler leaves behind: the `FCL_REAL` it returns, the `result` it was
given by reference, and the outcome of the loop it ran. -/
structure HandlerOut (M : Type) where
  ret : ℚ
  result : ContinuousCollisionResult
  ca : CAResult M

/-- `BVHConservativeAdvancement<BV, NarrowPhaseSolver>`, lines 640-655. -/
def BVHConservativeAdvancement {Rq : Type} (bv : BVKind) (W : World M Tf G1 G2 Sg) (o1 : G1)
    (motion1 : MotionBase M) (o2 : G2) (motion2 : MotionBase M) (_request : Rq)
    (result : ContinuousCollisionResult) (fuel : Nat) : Option (HandlerOut M) :=
  match conservativeAdvancement bv.meshVariant W o1 motion1 o2 motion2 fuel with
  | none => none
  | some r =>
    let is_collide := r.ret
    let toc := r.toc
    let result := { result with is_collide := is_collide }
    let result := { result with time_of_contact := toc }
    some { ret := toc, result := result, ca := r }

/-- `ShapeConservativeAdvancement<S1, S2, NarrowPhaseSolver>`, lines 657-672. -/
def ShapeConservativeAdvancement {Rq : Type} (W : World M Tf G1 G2 Sg) (o1 : G1)
    (motion1 : MotionBase M) (o2 : G2) (motion2 : MotionBase M) (_request : Rq)
    (result : ContinuousCollisionResult) (fuel : Nat) : Option (HandlerOut M) :=
  match conservativeAdvancement .shape W o1 motion1 o2 motion2 fuel with
  | none => none
  | some r =>
    let is_collide := r.ret
    let toc := r.toc
    let result := { result with is_collide := is_collide }
    let result := { result with time_of_contact := toc }
    some { ret := toc, result := result, ca := r }

/-- `ShapeBVHConservativeAdvancement<S, BV, NarrowPhaseSolver>`, lines 674-690. -/
def ShapeBVHConservativeAdvancement {Rq : Type} (bv : BVKind) (W : World M Tf G1 G2 Sg)
    (o1 : G1) (motion1 : MotionBase M) (o2 : G2) (motion2 : MotionBase M) (_request : Rq)
    (result : ContinuousCollisionResult) (fuel : Nat) : Option (HandlerOut M) :=
  match conservativeAdvancement bv.shapeMeshVariant W o1 motion1 o2 motion2 fuel with
  | none => none
  | some r =>
    let is_collide := r.ret
    let toc := r.toc
    let result := { result with is_collide := is_collide }
    let result := { result with time_of_contact := toc }
    some { ret := toc, result := result, ca := r }

/-- `BVHShapeConservativeAdvancement<BV, S, NarrowPhaseSolver>`, lines 692-708. -/
def BVHShapeConservativeAdvancement {Rq : Type} (bv : BVKind) (W : World M Tf G1 G2 Sg)
    (o1 : G1) (motion1 : MotionBase M) (o2 : G2) (motion2 : MotionBase M) (_request : Rq)
    (result : ContinuousCollisionResult) (fuel : Nat) : Option (HandlerOut M) :=
  match conservativeAdvancement bv.meshShapeVariant W o1 motion1 o2 motion2 fuel with
  | none => none
  | some r =>
    let is_collide := r.ret
    let toc := r.toc
    let result := { result with is_collide := is_collide }
    let result := { result with time_of_contact := toc }
    some { ret := toc, result := result, ca := r }

/-! ## The dispatch matrix -/

/-- The node types of `enum NODE_TYPE` (collision_geometry.h, lines 54-55).  The last
enumerator of the source, `NODE_COUNT`, is the number of node types and the size of the matrix,
not a node type. -/
inductive NODE_TYPE where
  | BV_UNKNOWN | BV_AABB | BV_OBB | BV_RSS | BV_kIOS | BV_OBBRSS | BV_KDOP16 | BV_KDOP18
  | BV_KDOP24 | GEOM_BOX | GEOM_SPHERE | GEOM_ELLIPSOID | GEOM_CAPSULE | GEOM_CONE
  | GEOM_CYLINDER | GEOM_CONVEX | GEOM_PLANE | GEOM_HALFSPACE | GEOM_TRIANGLE | GEOM_OCTREE
deriving DecidableEq, Repr, Fintype

/-- The value of each enumerator, which is the index it stands for in the matrix. -/
def NODE_TYPE.val : NODE_TYPE → Nat
  | .BV_UNKNOWN => 0 | .BV_AABB => 1 | .BV_OBB => 2 | .BV_RSS => 3 | .BV_kIOS => 4
  | .BV_OBBRSS => 5 | .BV_KDOP16 => 6 | .BV_KDOP18 => 7 | .BV_KDOP24 => 8 | .GEOM_BOX => 9
  | .GEOM_SPHERE => 10 | .GEOM_ELLIPSOID => 11 | .GEOM_CAPSULE => 12 | .GEOM_CONE => 13
  | .GEOM_CYLINDER => 14 | .GEOM_CONVEX => 15 | .GEOM_PLANE => 16 | .GEOM_HALFSPACE => 17
  | .GEOM_TRIANGLE => 18 | .GEOM_OCTREE => 19

/-- The enumerator `NODE_COUNT`. -/
def NODE_COUNT : Nat := 20

/-- The shape classes the handlers are instantiated with. -/
inductive Shape where
  | Boxd | Sphere | Capsuled | Coned | Cylinder | Convex | Plane | Halfspace
deriving DecidableEq, Repr, Fintype

/-- Modelled from the spec: the tag `getNodeType()` of each shape class.  Only the one of
`Convex` is among the sources (convex.h, line 99: `GEOM_CONVEX`); the other classes are declared
in headers that are not, and §1 and §3 name them after their tags. -/
def Shape.nodeType : Shape → NODE_TYPE
  | .Boxd => .GEOM_BOX | .Sphere => .GEOM_SPHERE | .Capsuled => .GEOM_CAPSULE
  | .Coned => .GEOM_CONE | .Cylinder => .GEOM_CYLINDER | .Convex => .GEOM_CONVEX
  | .Plane => .GEOM_PLANE | .Halfspace => .GEOM_HALFSPACE

/-- Modelled from the spec: the tag `getNodeType()` of a `BVHModel<BV>`, declared in a header
that is not among the sources; §3 has one BV kind per BVH and the tags are named after the
kinds. -/
def BVKind.nodeType : BVKind → NODE_TYPE
  | .AABB => .BV_AABB | .OBB => .BV_OBB | .RSS => .BV_RSS | .kIOS => .BV_kIOS
  | .OBBRSS => .BV_OBBRSS | .KDOP16 => .BV_KDOP16 | .KDOP18 => .BV_KDOP18
  | .KDOP24 => .BV_KDOP24

/-- The two solvers the matrix is instantiated for (lines 949-950). -/
inductive Solver where
  | GJKSolver_libccd | GJKSolver_indep
deriving DecidableEq, Repr, Fintype

/-- A function pointer stored in the matrix: the handler template and its template arguments,
in the order of the source. -/
inductive HandlerRef where
  | ShapeConservativeAdvancement (s1 s2 : Shape) (ns : Solver)
  | BVHShapeConservativeAdvancement (bv : BVKind) (s : Shape) (ns : Solver)
  | ShapeBVHConservativeAdvancement (s : Shape) (bv : BVKind) (ns : Solver)
  | BVHConservativeAdvancement (bv : BVKind) (ns : Solver)
deriving DecidableEq, Repr

/-- The array `conservative_advancement_matrix[NODE_COUNT][NODE_COUNT]`, indexed by the values
of the enumerators; `none` is the null pointer. -/
abbrev FunctionMatrix := Nat → Nat → Option HandlerRef

/-- The assignment `m[i][j] = h`. -/
def FunctionMatrix.set (m : FunctionMatrix) (i j : Nat) (h : Option HandlerRef) :
    FunctionMatrix :=
  fun a b => if a = i ∧ b = j then h else m a b

/-- The two nested `for` loops of lines 713-717, which store `NULL` in every entry. -/
def FunctionMatrix.clear (m : FunctionMatrix) : FunctionMatrix :=
  (List.range NODE_COUNT).foldl
    (fun m i => (List.range NODE_COUNT).foldl (fun m j => m.set i j none) m) m

/-- One assignment `conservative_advancement_matrix[i][j] = &h;`. -/
def assign (i j : NODE_TYPE) (h : HandlerRef) : NODE_TYPE × NODE_TYPE × HandlerRef := (i, j, h)

/-- The assignments of lines 720-790, in the order of the source. -/
def shapeAssignments (ns : Solver) : List (NODE_TYPE × NODE_TYPE × HandlerRef) :=
  [assign .GEOM_BOX .GEOM_BOX (.ShapeConservativeAdvancement .Boxd .Boxd ns),
   assign .GEOM_BOX .GEOM_SPHERE (.ShapeConservativeAdvancement .Boxd .Sphere ns),
   assign .GEOM_BOX .GEOM_CAPSULE (.ShapeConservativeAdvancement .Boxd .Capsuled ns),
   assign .GEOM_BOX .GEOM_CONE (.ShapeConservativeAdvancement .Boxd .Coned ns),
   assign .GEOM_BOX .GEOM_CYLINDER (.ShapeConservativeAdvancement .Boxd .Cylinder ns),
   assign .GEOM_BOX .GEOM_CONVEX (.ShapeConservativeAdvancement .Boxd .Convex ns),
   assign .GEOM_BOX .GEOM_PLANE (.ShapeConservativeAdvancement .Boxd .Plane ns),
   assign .GEOM_BOX .GEOM_HALFSPACE (.ShapeConservativeAdvancement .Boxd .Halfspace ns),
   assign .GEOM_SPHERE .GEOM_BOX (.ShapeConservativeAdvancement .Sphere .Boxd ns),
   assign .GEOM_SPHERE .GEOM_SPHERE (.ShapeConservativeAdvancement .Sphere .Sphere ns),
   assign .GEOM_SPHERE .GEOM_CAPSULE (.ShapeConservativeAdvancement .Sphere .Capsuled ns),
   assign .GEOM_SPHERE .GEOM_CONE (.ShapeConservativeAdvancement .Sphere .Coned ns),
   assign .GEOM_SPHERE .GEOM_CYLINDER (.ShapeConservativeAdvancement .Sphere .Cylinder ns),
   assign .GEOM_SPHERE .GEOM_CONVEX (.ShapeConservativeAdvancement .Sphere .Convex ns),
   assign .GEOM_SPHERE .GEOM_PLANE (.ShapeConservativeAdvancement .Sphere .Plane ns),
   assign .GEOM_SPHERE .GEOM_HALFSPACE (.ShapeConservativeAdvancement .Sphere .Halfspace ns),
   assign .GEOM_CAPSULE .GEOM_BOX (.ShapeConservativeAdvancement .Capsuled .Boxd ns),
   assign .GEOM_CAPSULE .GEOM_SPHERE (.ShapeConservativeAdvancement .Capsuled .Sphere ns),
   assign .GEOM_CAPSULE .GEOM_CAPSULE (.ShapeConservativeAdvancement .Capsuled .Capsuled ns),
   assign .GEOM_CAPSULE .GEOM_CONE (.ShapeConservativeAdvancement .Capsuled .Coned ns),
   assign .GEOM_CAPSULE .GEOM_CYLINDER (.ShapeConservativeAdvancement .Capsuled .Cylinder ns),
   assign .GEOM_CAPSULE .GEOM_CONVEX (.ShapeConservativeAdvancement .Capsuled .Convex ns),
   assign .GEOM_CAPSULE .GEOM_PLANE (.ShapeConservativeAdvancement .Capsuled .Plane ns),
   assign .GEOM_CAPSULE .GEOM_HALFSPACE (.ShapeConservativeAdvancement .Capsuled .Halfspace ns),
   assign .GEOM_CONE .GEOM_BOX (.ShapeConservativeAdvancement .Coned .Boxd ns),
   assign .GEOM_CONE .GEOM_SPHERE (.ShapeConservativeAdvancement .Coned .Sphere ns),
   assign .GEOM_CONE .GEOM_CAPSULE (.ShapeConservativeAdvancement .Coned .Capsuled ns),
   assign .GEOM_CONE .GEOM_CONE (.ShapeConservativeAdvancement .Coned .Coned ns),
   assign .GEOM_CONE .GEOM_CYLINDER (.ShapeConservativeAdvancement .Coned .Cylinder ns),
   assign .GEOM_CONE .GEOM_CONVEX (.ShapeConservativeAdvancement .Coned .Convex ns),
   assign .GEOM_CONE .GEOM_PLANE (.ShapeConservativeAdvancement .Coned .Plane ns),
   assign .GEOM_CONE .GEOM_HALFSPACE (.ShapeConservativeAdvancement .Coned .Halfspace ns),
   assign .GEOM_CYLINDER .GEOM_BOX (.ShapeConservativeAdvancement .Cylinder .Boxd ns),
   assign .GEOM_CYLINDER .GEOM_SPHERE (.ShapeConservativeAdvancement .Cylinder .Sphere ns),
   assign .GEOM_CYLINDER .GEOM_CAPSULE (.ShapeConservativeAdvancement .Cylinder .Capsuled ns),
   assign .GEOM_CYLINDER .GEOM_CONE (.ShapeConservativeAdvancement .Cylinder .Coned ns),
   assign .GEOM_CYLINDER .GEOM_CYLINDER (.ShapeConservativeAdvancement .Cylinder .Cylinder ns),
   assign .GEOM_CYLINDER .GEOM_CONVEX (.ShapeConservativeAdvancement .Cylinder .Convex ns),
   assign .GEOM_CYLINDER .GEOM_PLANE (.ShapeConservativeAdvancement .Cylinder .Plane ns),
   assign .GEOM_CYLINDER .GEOM_HALFSPACE (.ShapeConservativeAdvancement .Cylinder .Halfspace ns),
   assign .GEOM_CONVEX .GEOM_BOX (.ShapeConservativeAdvancement .Convex .Boxd ns),
   assign .GEOM_CONVEX .GEOM_SPHERE (.ShapeConservativeAdvancement .Convex .Sphere ns),
   assign .GEOM_CONVEX .GEOM_CAPSULE (.ShapeConservativeAdvancement .Convex .Capsuled ns),
   assign .GEOM_CONVEX .GEOM_CONE (.ShapeConservativeAdvancement .Convex .Coned ns),
   assign .GEOM_CONVEX .GEOM_CYLINDER (.ShapeConservativeAdvancement .Convex .Cylinder ns),
   assign .GEOM_CONVEX .GEOM_CONVEX (.ShapeConservativeAdvancement .Convex .Convex ns),
   assign .GEOM_CONVEX .GEOM_PLANE (.ShapeConservativeAdvancement .Convex .Plane ns),
   assign .GEOM_CONVEX .GEOM_HALFSPACE (.ShapeConservativeAdvancement .Convex .Halfspace ns),
   assign .GEOM_PLANE .GEOM_BOX (.ShapeConservativeAdvancement .Plane .Boxd ns),
   assign .GEOM_PLANE .GEOM_SPHERE (.ShapeConservativeAdvancement .Plane .Sphere ns),
   assign .GEOM_PLANE .GEOM_CAPSULE (.ShapeConservativeAdvancement .Plane .Capsuled ns),
   assign .GEOM_PLANE .GEOM_CONE (.ShapeConservativeAdvancement .Plane .Coned ns),
   assign .GEOM_PLANE .GEOM_CYLINDER (.ShapeConservativeAdvancement .Plane .Cylinder ns),
   assign .GEOM_PLANE .GEOM_CONVEX (.ShapeConservativeAdvancement .Plane .Convex ns),
   assign .GEOM_PLANE .GEOM_PLANE (.ShapeConservativeAdvancement .Plane .Plane ns),
   assign .GEOM_PLANE .GEOM_HALFSPACE (.ShapeConservativeAdvancement .Plane .Halfspace ns),
   assign .GEOM_HALFSPACE .GEOM_BOX (.ShapeConservativeAdvancement .Halfspace .Boxd ns),
   assign .GEOM_HALFSPACE .GEOM_SPHERE (.ShapeConservativeAdvancement .Halfspace .Sphere ns),
   assign .GEOM_HALFSPACE .GEOM_CAPSULE (.ShapeConservativeAdvancement .Halfspace .Capsuled ns),
   assign .GEOM_HALFSPACE .GEOM_CONE (.ShapeConservativeAdvancement .Halfspace .Coned ns),
   assign .GEOM_HALFSPACE .GEOM_CYLINDER (.ShapeConservativeAdvancement .Halfspace .Cylinder ns),
   assign .GEOM_HALFSPACE .GEOM_CONVEX (.ShapeConservativeAdvancement .Halfspace .Convex ns),
   assign .GEOM_HALFSPACE .GEOM_PLANE (.ShapeConservativeAdvancement .Halfspace .Plane ns),
   assign .GEOM_HALFSPACE .GEOM_HALFSPACE (.ShapeConservativeAdvancement .Halfspace .Halfspace ns)]

/-- The assignments of lines 792-862, in the order of the source. -/
def bvhShapeAssignments (ns : Solver) : List (NODE_TYPE × NODE_TYPE × HandlerRef) :=
  [assign .BV_AABB .GEOM_BOX (.BVHShapeConservativeAdvancement .AABB .Boxd ns),
   assign .BV_AABB .GEOM_SPHERE (.BVHShapeConservativeAdvancement .AABB .Sphere ns),
   assign .BV_AABB .GEOM_CAPSULE (.BVHShapeConservativeAdvancement .AABB .Capsuled ns),
   assign .BV_AABB .GEOM_CONE (.BVHShapeConservativeAdvancement .AABB .Coned ns),
   assign .BV_AABB .GEOM_CYLINDER (.BVHShapeConservativeAdvancement .AABB .Cylinder ns),
   assign .BV_AABB .GEOM_CONVEX (.BVHShapeConservativeAdvancement .AABB .Convex ns),
   assign .BV_AABB .GEOM_PLANE (.BVHShapeConservativeAdvancement .AABB .Plane ns),
   assign .BV_AABB .GEOM_HALFSPACE (.BVHShapeConservativeAdvancement .AABB .Halfspace ns),
   assign .BV_OBB .GEOM_BOX (.BVHShapeConservativeAdvancement .OBB .Boxd ns),
   assign .BV_OBB .GEOM_SPHERE (.BVHShapeConservativeAdvancement .OBB .Sphere ns),
   assign .BV_OBB .GEOM_CAPSULE (.BVHShapeConservativeAdvancement .OBB .Capsuled ns),
   assign .BV_OBB .GEOM_CONE (.BVHShapeConservativeAdvancement .OBB .Coned ns),
   assign .BV_OBB .GEOM_CYLINDER (.BVHShapeConservativeAdvancement .OBB .Cylinder ns),
   assign .BV_OBB .GEOM_CONVEX (.BVHShapeConservativeAdvancement .OBB .Convex ns),
   assign .BV_OBB .GEOM_PLANE (.BVHShapeConservativeAdvancement .OBB .Plane ns),
   assign .BV_OBB .GEOM_HALFSPACE (.BVHShapeConservativeAdvancement .OBB .Halfspace ns),
   assign .BV_OBBRSS .GEOM_BOX (.BVHShapeConservativeAdvancement .OBBRSS .Boxd ns),
   assign .BV_OBBRSS .GEOM_SPHERE (.BVHShapeConservativeAdvancement .OBBRSS .Sphere ns),
   assign .BV_OBBRSS .GEOM_CAPSULE (.BVHShapeConservativeAdvancement .OBBRSS .Capsuled ns),
   assign .BV_OBBRSS .GEOM_CONE (.BVHShapeConservativeAdvancement .OBBRSS .Coned ns),
   assign .BV_OBBRSS .GEOM_CYLINDER (.BVHShapeConservativeAdvancement .OBBRSS .Cylinder ns),
   assign .BV_OBBRSS .GEOM_CONVEX (.BVHShapeConservativeAdvancement .OBBRSS .Convex ns),
   assign .BV_OBBRSS .GEOM_PLANE (.BVHShapeConservativeAdvancement .OBBRSS .Plane ns),
   assign .BV_OBBRSS .GEOM_HALFSPACE (.BVHShapeConservativeAdvancement .OBBRSS .Halfspace ns),
   assign .BV_RSS .GEOM_BOX (.BVHShapeConservativeAdvancement .RSS .Boxd ns),
   assign .BV_RSS .GEOM_SPHERE (.BVHShapeConservativeAdvancement .RSS .Sphere ns),
   assign .BV_RSS .GEOM_CAPSULE (.BVHShapeConservativeAdvancement .RSS .Capsuled ns),
   assign .BV_RSS .GEOM_CONE (.BVHShapeConservativeAdvancement .RSS .Coned ns),
   assign .BV_RSS .GEOM_CYLINDER (.BVHShapeConservativeAdvancement .RSS .Cylinder ns),
   assign .BV_RSS .GEOM_CONVEX (.BVHShapeConservativeAdvancement .RSS .Convex ns),
   assign .BV_RSS .GEOM_PLANE (.BVHShapeConservativeAdvancement .RSS .Plane ns),
   assign .BV_RSS .GEOM_HALFSPACE (.BVHShapeConservativeAdvancement .RSS .Halfspace ns),
   assign .BV_KDOP16 .GEOM_BOX (.BVHShapeConservativeAdvancement .KDOP16 .Boxd ns),
   assign .BV_KDOP16 .GEOM_SPHERE (.BVHShapeConservativeAdvancement .KDOP16 .Sphere ns),
   assign .BV_KDOP16 .GEOM_CAPSULE (.BVHShapeConservativeAdvancement .KDOP16 .Capsuled ns),
   assign .BV_KDOP16 .GEOM_CONE (.BVHShapeConservativeAdvancement .KDOP16 .Coned ns),
   assign .BV_KDOP16 .GEOM_CYLINDER (.BVHShapeConservativeAdvancement .KDOP16 .Cylinder ns),
   assign .BV_KDOP16 .GEOM_CONVEX (.BVHShapeConservativeAdvancement .KDOP16 .Convex ns),
   assign .BV_KDOP16 .GEOM_PLANE (.BVHShapeConservativeAdvancement .KDOP16 .Plane ns),
   assign .BV_KDOP16 .GEOM_HALFSPACE (.BVHShapeConservativeAdvancement .KDOP16 .Halfspace ns),
   assign .BV_KDOP18 .GEOM_BOX (.BVHShapeConservativeAdvancement .KDOP18 .Boxd ns),
   assign .BV_KDOP18 .GEOM_SPHERE (.BVHShapeConservativeAdvancement .KDOP18 .Sphere ns),
   assign .BV_KDOP18 .GEOM_CAPSULE (.BVHShapeConservativeAdvancement .KDOP18 .Capsuled ns),
   assign .BV_KDOP18 .GEOM_CONE (.BVHShapeConservativeAdvancement .KDOP18 .Coned ns),
   assign .BV_KDOP18 .GEOM_CYLINDER (.BVHShapeConservativeAdvancement .KDOP18 .Cylinder ns),
   assign .BV_KDOP18 .GEOM_CONVEX (.BVHShapeConservativeAdvancement .KDOP18 .Convex ns),
   assign .BV_KDOP18 .GEOM_PLANE (.BVHShapeConservativeAdvancement .KDOP18 .Plane ns),
   assign .BV_KDOP18 .GEOM_HALFSPACE (.BVHShapeConservativeAdvancement .KDOP18 .Halfspace ns),
   assign .BV_KDOP24 .GEOM_BOX (.BVHShapeConservativeAdvancement .KDOP24 .Boxd ns),
   assign .BV_KDOP24 .GEOM_SPHERE (.BVHShapeConservativeAdvancement .KDOP24 .Sphere ns),
   assign .BV_KDOP24 .GEOM_CAPSULE (.BVHShapeConservativeAdvancement .KDOP24 .Capsuled ns),
   assign .BV_KDOP24 .GEOM_CONE (.BVHShapeConservativeAdvancement .KDOP24 .Coned ns),
   assign .BV_KDOP24 .GEOM_CYLINDER (.BVHShapeConservativeAdvancement .KDOP24 .Cylinder ns),
   assign .BV_KDOP24 .GEOM_CONVEX (.BVHShapeConservativeAdvancement .KDOP24 .Convex ns),
   assign .BV_KDOP24 .GEOM_PLANE (.BVHShapeConservativeAdvancement .KDOP24 .Plane ns),
   assign .BV_KDOP24 .GEOM_HALFSPACE (.BVHShapeConservativeAdvancement .KDOP24 .Halfspace ns),
   assign .BV_kIOS .GEOM_BOX (.BVHShapeConservativeAdvancement .kIOS .Boxd ns),
   assign .BV_kIOS .GEOM_SPHERE (.BVHShapeConservativeAdvancement .kIOS .Sphere ns),
   assign .BV_kIOS .GEOM_CAPSULE (.BVHShapeConservativeAdvancement .kIOS .Capsuled ns),
   assign .BV_kIOS .GEOM_CONE (.BVHShapeConservativeAdvancement .kIOS .Coned ns),
   assign .BV_kIOS .GEOM_CYLINDER (.BVHShapeConservativeAdvancement .kIOS .Cylinder ns),
   assign .BV_kIOS .GEOM_CONVEX (.BVHShapeConservativeAdvancement .kIOS .Convex ns),
   assign .BV_kIOS .GEOM_PLANE (.BVHShapeConservativeAdvancement .kIOS .Plane ns),
   assign .BV_kIOS .GEOM_HALFSPACE (.BVHShapeConservativeAdvancement .kIOS .Halfspace ns)]

/-- The assignments of lines 865-935, in the order of the source. -/
def shapeBVHAssignments (ns : Solver) : List (NODE_TYPE × NODE_TYPE × HandlerRef) :=
  [assign .GEOM_BOX .BV_AABB (.ShapeBVHConservativeAdvancement .Boxd .AABB ns),
   assign .GEOM_SPHERE .BV_AABB (.ShapeBVHConservativeAdvancement .Sphere .AABB ns),
   assign .GEOM_CAPSULE .BV_AABB (.ShapeBVHConservativeAdvancement .Capsuled .AABB ns),
   assign .GEOM_CONE .BV_AABB (.ShapeBVHConservativeAdvancement .Coned .AABB ns),
   assign .GEOM_CYLINDER .BV_AABB (.ShapeBVHConservativeAdvancement .Cylinder .AABB ns),
   assign .GEOM_CONVEX .BV_AABB (.ShapeBVHConservativeAdvancement .Convex .AABB ns),
   assign .GEOM_PLANE .BV_AABB (.ShapeBVHConservativeAdvancement .Plane .AABB ns),
   assign .GEOM_HALFSPACE .BV_AABB (.ShapeBVHConservativeAdvancement .Halfspace .AABB ns),
   assign .GEOM_BOX .BV_OBB (.ShapeBVHConservativeAdvancement .Boxd .OBB ns),
   assign .GEOM_SPHERE .BV_OBB (.ShapeBVHConservativeAdvancement .Sphere .OBB ns),
   assign .GEOM_CAPSULE .BV_OBB (.ShapeBVHConservativeAdvancement .Capsuled .OBB ns),
   assign .GEOM_CONE .BV_OBB (.ShapeBVHConservativeAdvancement .Coned .OBB ns),
   assign .GEOM_CYLINDER .BV_OBB (.ShapeBVHConservativeAdvancement .Cylinder .OBB ns),
   assign .GEOM_CONVEX .BV_OBB (.ShapeBVHConservativeAdvancement .Convex .OBB ns),
   assign .GEOM_PLANE .BV_OBB (.ShapeBVHConservativeAdvancement .Plane .OBB ns),
   assign .GEOM_HALFSPACE .BV_OBB (.ShapeBVHConservativeAdvancement .Halfspace .OBB ns),
   assign .GEOM_BOX .BV_RSS (.ShapeBVHConservativeAdvancement .Boxd .RSS ns),
   assign .GEOM_SPHERE .BV_RSS (.ShapeBVHConservativeAdvancement .Sphere .RSS ns),
   assign .GEOM_CAPSULE .BV_RSS (.ShapeBVHConservativeAdvancement .Capsuled .RSS ns),
   assign .GEOM_CONE .BV_RSS (.ShapeBVHConservativeAdvancement .Coned .RSS ns),
   assign .GEOM_CYLINDER .BV_RSS (.ShapeBVHConservativeAdvancement .Cylinder .RSS ns),
   assign .GEOM_CONVEX .BV_RSS (.ShapeBVHConservativeAdvancement .Convex .RSS ns),
   assign .GEOM_PLANE .BV_RSS (.ShapeBVHConservativeAdvancement .Plane .RSS ns),
   assign .GEOM_HALFSPACE .BV_RSS (.ShapeBVHConservativeAdvancement .Halfspace .RSS ns),
   assign .GEOM_BOX .BV_OBBRSS (.ShapeBVHConservativeAdvancement .Boxd .OBBRSS ns),
   assign .GEOM_SPHERE .BV_OBBRSS (.ShapeBVHConservativeAdvancement .Sphere .OBBRSS ns),
   assign .GEOM_CAPSULE .BV_OBBRSS (.ShapeBVHConservativeAdvancement .Capsuled .OBBRSS ns),
   assign .GEOM_CONE .BV_OBBRSS (.ShapeBVHConservativeAdvancement .Coned .OBBRSS ns),
   assign .GEOM_CYLINDER .BV_OBBRSS (.ShapeBVHConservativeAdvancement .Cylinder .OBBRSS ns),
   assign .GEOM_CONVEX .BV_OBBRSS (.ShapeBVHConservativeAdvancement .Convex .OBBRSS ns),
   assign .GEOM_PLANE .BV_OBBRSS (.ShapeBVHConservativeAdvancement .Plane .OBBRSS ns),
   assign .GEOM_HALFSPACE .BV_OBBRSS (.ShapeBVHConservativeAdvancement .Halfspace .OBBRSS ns),
   assign .GEOM_BOX .BV_KDOP16 (.ShapeBVHConservativeAdvancement .Boxd .KDOP16 ns),
   assign .GEOM_SPHERE .BV_KDOP16 (.ShapeBVHConservativeAdvancement .Sphere .KDOP16 ns),
   assign .GEOM_CAPSULE .BV_KDOP16 (.ShapeBVHConservativeAdvancement .Capsuled .KDOP16 ns),
   assign .GEOM_CONE .BV_KDOP16 (.ShapeBVHConservativeAdvancement .Coned .KDOP16 ns),
   assign .GEOM_CYLINDER .BV_KDOP16 (.ShapeBVHConservativeAdvancement .Cylinder .KDOP16 ns),
   assign .GEOM_CONVEX .BV_KDOP16 (.ShapeBVHConservativeAdvancement .Convex .KDOP16 ns),
   assign .GEOM_PLANE .BV_KDOP16 (.ShapeBVHConservativeAdvancement .Plane .KDOP16 ns),
   assign .GEOM_HALFSPACE .BV_KDOP16 (.ShapeBVHConservativeAdvancement .Halfspace .KDOP16 ns),
   assign .GEOM_BOX .BV_KDOP18 (.ShapeBVHConservativeAdvancement .Boxd .KDOP18 ns),
   assign .GEOM_SPHERE .BV_KDOP18 (.ShapeBVHConservativeAdvancement .Sphere .KDOP18 ns),
   assign .GEOM_CAPSULE .BV_KDOP18 (.ShapeBVHConservativeAdvancement .Capsuled .KDOP18 ns),
   assign .GEOM_CONE .BV_KDOP18 (.ShapeBVHConservativeAdvancement .Coned .KDOP18 ns),
   assign .GEOM_CYLINDER .BV_KDOP18 (.ShapeBVHConservativeAdvancement .Cylinder .KDOP18 ns),
   assign .GEOM_CONVEX .BV_KDOP18 (.ShapeBVHConservativeAdvancement .Convex .KDOP18 ns),
   assign .GEOM_PLANE .BV_KDOP18 (.ShapeBVHConservativeAdvancement .Plane .KDOP18 ns),
   assign .GEOM_HALFSPACE .BV_KDOP18 (.ShapeBVHConservativeAdvancement .Halfspace .KDOP18 ns),
   assign .GEOM_BOX .BV_KDOP24 (.ShapeBVHConservativeAdvancement .Boxd .KDOP24 ns),
   assign .GEOM_SPHERE .BV_KDOP24 (.ShapeBVHConservativeAdvancement .Sphere .KDOP24 ns),
   assign .GEOM_CAPSULE .BV_KDOP24 (.ShapeBVHConservativeAdvancement .Capsuled .KDOP24 ns),
   assign .GEOM_CONE .BV_KDOP24 (.ShapeBVHConservativeAdvancement .Coned .KDOP24 ns),
   assign .GEOM_CYLINDER .BV_KDOP24 (.ShapeBVHConservativeAdvancement .Cylinder .KDOP24 ns),
   assign .GEOM_CONVEX .BV_KDOP24 (.ShapeBVHConservativeAdvancement .Convex .KDOP24 ns),
   assign .GEOM_PLANE .BV_KDOP24 (.ShapeBVHConservativeAdvancement .Plane .KDOP24 ns),
   assign .GEOM_HALFSPACE .BV_KDOP24 (.ShapeBVHConservativeAdvancement .Halfspace .KDOP24 ns),
   assign .GEOM_BOX .BV_kIOS (.ShapeBVHConservativeAdvancement .Boxd .kIOS ns),
   assign .GEOM_SPHERE .BV_kIOS (.ShapeBVHConservativeAdvancement .Sphere .kIOS ns),
   assign .GEOM_CAPSULE .BV_kIOS (.ShapeBVHConservativeAdvancement .Capsuled .kIOS ns),
   assign .GEOM_CONE .BV_kIOS (.ShapeBVHConservativeAdvancement .Coned .kIOS ns),
   assign .GEOM_CYLINDER .BV_kIOS (.ShapeBVHConservativeAdvancement .Cylinder .kIOS ns),
   assign .GEOM_CONVEX .BV_kIOS (.ShapeBVHConservativeAdvancement .Convex .kIOS ns),
   assign .GEOM_PLANE .BV_kIOS (.ShapeBVHConservativeAdvancement .Plane .kIOS ns),
   assign .GEOM_HALFSPACE .BV_kIOS (.ShapeBVHConservativeAdvancement .Halfspace .kIOS ns)]

/-- The assignments of lines 937-944, in the order of the source. -/
def bvhAssignments (ns : Solver) : List (NODE_TYPE × NODE_TYPE × HandlerRef) :=
  [assign .BV_AABB .BV_AABB (.BVHConservativeAdvancement .AABB ns),
   assign .BV_OBB .BV_OBB (.BVHConservativeAdvancement .OBB ns),
   assign .BV_RSS .BV_RSS (.BVHConservativeAdvancement .RSS ns),
   assign .BV_OBBRSS .BV_OBBRSS (.BVHConservativeAdvancement .OBBRSS ns),
   assign .BV_KDOP16 .BV_KDOP16 (.BVHConservativeAdvancement .KDOP16 ns),
   assign .BV_KDOP18 .BV_KDOP18 (.BVHConservativeAdvancement .KDOP18 ns),
   assign .BV_KDOP24 .BV_KDOP24 (.BVHConservativeAdvancement .KDOP24 ns),
   assign .BV_kIOS .BV_kIOS (.BVHConservativeAdvancement .kIOS ns)]

/-- The assignments of lines 720-944, in the order of the source. -/
def matrixAssignments (ns : Solver) : List (NODE_TYPE × NODE_TYPE × HandlerRef) :=
  shapeAssignments ns ++ bvhShapeAssignments ns ++ shapeBVHAssignments ns ++ bvhAssignments ns

/-- The constructor `ConservativeAdvancementFunctionMatrix<NarrowPhaseSolver>()`, lines
710-946, run on the memory `m` the array occupies. -/
def ConservativeAdvancementFunctionMatrix (ns : Solver) (m : FunctionMatrix) : FunctionMatrix :=
  (matrixAssignments ns).foldl (fun m a => m.set a.1.val a.2.1.val (some a.2.2)) m.clear

/-- The lookup `conservative_advancement_matrix[i][j]` in a constructed matrix. -/
def lookup (ns : Solver) (m : FunctionMatrix) (i j : NODE_TYPE) : Option HandlerRef :=
  ConservativeAdvancementFunctionMatrix ns m i.val j.val

/-- The loop a handler runs. -/
def HandlerRef.variant : HandlerRef → Variant
  | .ShapeConservativeAdvancement _ _ _ => .shape
  | .BVHShapeConservativeAdvancement bv _ _ => bv.meshShapeVariant
  | .ShapeBVHConservativeAdvancement _ bv _ => bv.shapeMeshVariant
  | .BVHConservativeAdvancement bv _ => bv.meshVariant

/-- A call through a function pointer of the matrix. -/
def HandlerRef.call {Rq : Type} (h : HandlerRef) (W : World M Tf G1 G2 Sg) (o1 : G1)
    (motion1 : MotionBase M) (o2 : G2) (motion2 : MotionBase M) (request : Rq)
    (result : ContinuousCollisionResult) (fuel : Nat) : Option (HandlerOut M) :=
  match h with
  | .ShapeConservativeAdvancement _ _ _ =>
      fcl.ShapeConservativeAdvancement W o1 motion1 o2 motion2 request result fuel
  | .BVHShapeConservativeAdvancement bv _ _ =>
      fcl.BVHShapeConservativeAdvancement bv W o1 motion1 o2 motion2 request result fuel
  | .ShapeBVHConservativeAdvancement _ bv _ =>
      fcl.ShapeBVHConservativeAdvancement bv W o1 motion1 o2 motion2 request result fuel
  | .BVHConservativeAdvancement bv _ =>
      fcl.BVHConservativeAdvancement bv W o1 motion1 o2 motion2 request result fuel

/-! ## Concrete worlds used to exercise the loops -/

/-- A motion object on which `integrate` has not been called yet. -/
def MotionBase.start (m : M) : MotionBase M := { state := m, integrated := [] }

/-- A scripted world: the motion state counts the `integrate` calls, which is the index of the
current outer iteration, and the traversal of iteration `k` leaves `delta_t = δ k`.  The entry
test answers `hit`. -/
def scriptWorld (δ : Nat → ℚ) (hit : Bool) (t_err : ℚ) : World Nat Unit Unit Unit Unit :=
  { getCurrentTransform := fun _ => ()
    integrate := fun k _ => k + 1
    collide := fun _ _ _ _ => hit
    relative := fun _ _ => ()
    init := fun _ _ _ _ _ => ((), (), ())
    traverse := fun node => (0, δ node.motion1.state)
    setup0 := ()
    t_err := t_err }

/-- A one-dimensional scenario: the motion state is the time the motion was integrated to, the
objects are `gap - speed * t` apart at time `t` (in contact when that is not positive), and a
traversal tightens `delta_t` to distance over closing speed when the objects approach. -/
def linearWorld (gap speed t_err : ℚ) : World ℚ ℚ Unit Unit Unit :=
  { getCurrentTransform := fun t => gap - speed * t
    integrate := fun _ t => t
    collide := fun _ d _ _ => decide (d ≤ 0)
    relative := fun d _ => d
    init := fun _ _ _ _ _ => ((), (), ())
    traverse := fun node =>
      let d := gap - speed * node.motion1.state
      (d, if 0 < speed ∧ d / speed < node.delta_t then d / speed else node.delta_t)
    setup0 := ()
    t_err := t_err }

/-- Sphere grazing a plane: gap `1 - t`, closing speed 1, tolerance `1e-4`. -/
def grazingWorld : World ℚ ℚ Unit Unit Unit := linearWorld 1 1 (1 / 10000)

/-- Two unit spheres head-on: gap `1 - 2 t`, closing speed 2, tolerance `1e-4`. -/
def headOnWorld : World ℚ ℚ Unit Unit Unit := linearWorld 1 2 (1 / 10000)

/-- Two objects one unit apart that do not move: the motion bound is zero. -/
def staticWorld : World ℚ ℚ Unit Unit Unit := linearWorld 1 0 (1 / 10000)

/-- Steps that halve forever, `delta_t = 2^-(k+1)` on iteration `k`, with tolerance 0. -/
def zenoWorld : World Nat Unit Unit Unit Unit := scriptWorld (fun k => 1 / 2 ^ (k + 1)) false 0

/-- Objects already in contact at the entry pose. -/
def overlapWorld : World ℚ ℚ Unit Unit Unit := linearWorld 0 1 (1 / 10000)

/-- Tolerance `1/2`, a first step of `3/5` and steps of `2/5` after it. -/
def halfTolWorld : World Nat Unit Unit Unit Unit :=
  scriptWorld (fun k => if k = 0 then 3 / 5 else 2 / 5) false (1 / 2)

/-! ## The mesh copies of the generic loops, and two more scenarios -/

/-- Which of `o1_tmp`, `o2_tmp` the statements after the loop release: `delete o1_tmp;
delete o2_tmp;` (lines 114-115), `delete o1_tmp;` (line 342), `delete o2_tmp;` (line 506); the
oriented loops and the shape loop have no such statement. -/
def Variant.released : Variant → Bool × Bool
  | .mesh => (true, true)
  | .meshShape => (true, false)
  | .shapeMesh => (false, true)
  | .meshOriented | .shape | .meshShapeOriented | .shapeMeshOriented => (false, false)

/-- Modelled from the spec: `initialize` is declared in `fcl/traversal/traversal_node_setup.h`,
which is not among the sources.  §4.5 and §4.6 (step 4a) have it rebuild the leaf bounding
volumes of the models it is given using the world transforms it is given, in place.  Here a model is a mesh of one vertex
on a line, a transform is a translation, and `initialize` moves the vertex of each model by the
transform and hands the two placed vertices to the node.  The pose of either motion at time `t`
is the translation by `1 + t`; every traversal leaves the step `1 / 4`. -/
def placingWorld : World ℚ ℚ ℚ ℚ (ℚ × ℚ) :=
  { getCurrentTransform := fun t => 1 + t
    integrate := fun _ t => t
    collide := fun _ _ _ _ => false
    relative := fun tf1 tf2 => tf2 - tf1
    init := fun _ model1 tf1 model2 tf2 => ((model1 + tf1, model2 + tf2), model1 + tf1, model2 + tf2)
    traverse := fun _ => (1, 1 / 4)
    setup0 := (0, 0)
    t_err := 1 / 10000 }

/-- Two cubes of side 1, one at the origin and one centred at `(2, 0, 0)` translating by
`(-1.5, 0, 0)` over `[0, 1]`: gap `1 - 1.5 t`, closing speed 1.5, tolerance `1e-4`. -/
def cubesWorld : World ℚ ℚ Unit Unit Unit := linearWorld 1 (3 / 2) (1 / 10000)

/-! ## Collision geometry and the convex polytope -/

/-- `Vector3<Scalar>`, `Vector3d`. -/
abbrev Vector3d := Fin 3 → ℚ

/-- `Matrix3<Scalar>`, `Matrix3d`. -/
abbrev Matrix3d := Matrix (Fin 3) (Fin 3) ℚ

/-- The object types of `enum OBJECT_TYPE` (collision_geometry.h, line 51); the last enumerator
of the source, `OT_COUNT`, is their number. -/
inductive OBJECT_TYPE where
  | OT_UNKNOWN | OT_BVH | OT_GEOM | OT_OCTREE
deriving DecidableEq, Repr, Fintype

/-- A `CollisionGeometry<Scalar>` object: the three scalar members the occupancy tests read, and
what its virtual member functions return for the class of the object.  The members the default
constructor leaves unset (`aabb_center`, `aabb_radius`, `aabb_local`, `user_data`) are left
out. -/
structure CollisionGeometry where
  cost_density : ℚ
  threshold_occupied : ℚ
  threshold_free : ℚ
  getObjectType : OBJECT_TYPE
  getNodeType : NODE_TYPE
  computeCOM : Vector3d
  computeMomentofInertia : Matrix3d
  computeVolume : ℚ

/-- The default constructor (lines 135-142) on an object of the base class, whose virtual
member functions are the ones of lines 153-219. -/
def CollisionGeometry.new : CollisionGeometry :=
  { cost_density := 1, threshold_occupied := 1, threshold_free := 0,
    getObjectType := .OT_UNKNOWN, getNodeType := .BV_UNKNOWN,
    computeCOM := 0, computeMomentofInertia := 0, computeVolume := 0 }

/-- `CollisionGeometry::isOccupied`, lines 179-183. -/
def CollisionGeometry.isOccupied (g : CollisionGeometry) : Bool :=
  decide (g.cost_density ≥ g.threshold_occupied)

/-- `CollisionGeometry::isFree`, lines 186-190. -/
def CollisionGeometry.isFree (g : CollisionGeometry) : Bool :=
  decide (g.cost_density ≤ g.threshold_free)

/-- `CollisionGeometry::isUncertain`, lines 193-197. -/
def CollisionGeometry.isUncertain (g : CollisionGeometry) : Bool :=
  !g.isOccupied && !g.isFree

/-- `CollisionGeometry::computeMomentofInertiaRelatedToCOM`, lines 221-241. -/
def CollisionGeometry.computeMomentofInertiaRelatedToCOM (g : CollisionGeometry) : Matrix3d :=
  let C := g.computeMomentofInertia
  let com := g.computeCOM
  let V := g.computeVolume
  !![C 0 0 - V * (com 1 * com 1 + com 2 * com 2),
     C 0 1 + V * com 0 * com 1,
     C 0 2 + V * com 0 * com 2;
     C 1 0 + V * com 1 * com 0,
     C 1 1 - V * (com 0 * com 0 + com 2 * com 2),
     C 1 2 + V * com 1 * com 2;
     C 2 0 + V * com 2 * com 0,
     C 2 1 + V * com 2 * com 1,
     C 2 2 - V * (com 0 * com 0 + com 1 * com 1)]

/-- `Convex::Edge` (convex.h, lines 111-114). -/
structure Edge where
  first : Int
  second : Int
deriving DecidableEq, Repr

/-- The data members of `Convex` (convex.h, lines 102-122).  A pointer to an array is the
function from the index to the element; `edges` is `none` when the pointer is `NULL`.
`polygons` holds, polygon after polygon, the number of vertices followed by that many indices
into `points`. -/
structure Convex where
  plane_normals : Nat → Vector3d
  plane_dis : Nat → ℚ
  polygons : Nat → Int
  points : Nat → Vector3d
  num_points : Int
  num_edges : Int
  num_planes : Int
  edges : Option (Nat → Edge)
  center : Vector3d

/-- The constructor `Convex::Convex` of lines 52-76.  `raw` is the storage of the new object as
the constructor body finds it: the members have no initialiser, so a member the body does not
assign keeps what `raw` holds.  `fillEdges()` is declared in the class (line 247, "Get edge
information") and defined outside the sources; it is the parameter `fillEdges`, which gives the
edge array and the number of edges for the object built so far. -/
def Convex.construct (raw : Convex) (fillEdges : Convex → Option (Nat → Edge) × Int)
    (plane_normals_ : Nat → Vector3d) (plane_dis_ : Nat → ℚ) (num_planes_ : Int)
    (points_ : Nat → Vector3d) (num_points_ : Int) (polygons_ : Nat → Int) : Convex :=
  let c : Convex :=
    { raw with
      plane_normals := plane_normals_, plane_dis := plane_dis_, num_planes := num_planes_,
      points := points_, num_points := num_points_, polygons := polygons_, edges := none }
  -- for(int i = 0; i < num_points; ++i) sum += points[i];
  let sum : Vector3d := (List.range c.num_points.toNat).foldl (fun sum i => sum + c.points i) 0
  -- center = sum * (FCL_REAL)(1.0 / num_points);
  let c : Convex := { c with center := (1 / (c.num_points : ℚ)) • sum }
  let e := fillEdges c
  { c with edges := e.1, num_edges := e.2 }

/-- The copy constructor `Convex::Convex(const Convex&)` of lines 78-88.  `raw` is the storage
of the new object as the constructor body finds it, `fresh` the content of the array that
`new Edge[other.num_edges]` returns.  The count of the `memcpy` is the member `num_edges` of the
new object, which the body has not assigned; the result is `none` when the allocation or the
`memcpy` has no defined outcome (a negative length, or more edges than were allocated). -/
def Convex.copy (raw : Convex) (fresh : Nat → Edge) (other : Convex) : Option Convex :=
  let c : Convex :=
    { raw with
      plane_normals := other.plane_normals, plane_dis := other.plane_dis,
      num_planes := other.num_planes, points := other.points, polygons := other.polygons }
  -- edges = new Edge[other.num_edges];
  if other.num_edges < 0 then none
  else
    -- memcpy(edges, other.edges, sizeof(Edge) * num_edges);
    if c.num_edges < 0 ∨ other.num_edges < c.num_edges then none
    else
      match other.edges with
      | none => if c.num_edges = 0 then some { c with edges := some fresh } else none
      | some src =>
          some { c with edges := some (fun i => if (i : Int) < c.num_edges then src i else fresh i) }

/-- `Convex::getNodeType`, line 100. -/
def Convex.getNodeType (_c : Convex) : NODE_TYPE := .GEOM_CONVEX

/-- Storage filled with zeros. -/
def zeroStorage : Convex :=
  { plane_normals := fun _ => 0, plane_dis := fun _ => 0, polygons := fun _ => 0,
    points := fun _ => 0, num_points := 0, num_edges := 0, num_planes := 0, edges := none,
    center := 0 }

/-- The four vertices of the tetrahedron with corners at the origin and on the three axes at
distance 4. -/
def tetraPoints : Nat → Vector3d :=
  fun i => [![0, 0, 0], ![4, 0, 0], ![0, 4, 0], ![0, 0, 4]].getD i 0

/-- Its four faces, wound counter-clockwise seen from outside. -/
def tetraPolygons : Nat → Int :=
  fun i => [3, 0, 2, 1, 3, 0, 1, 3, 3, 0, 3, 2, 3, 1, 2, 3].getD i 0

/-- The outward normals of the faces, and their offsets. -/
def tetraNormals : Nat → Vector3d :=
  fun i => [![0, 0, -1], ![0, -1, 0], ![-1, 0, 0], ![1, 1, 1]].getD i 0

/-- The offsets of the four face planes. -/
def tetraDis : Nat → ℚ := fun i => [0, 0, 0, 4].getD i 0

/-- The six edges of the tetrahedron. -/
def tetraEdges : Nat → Edge :=
  fun i => [⟨0, 1⟩, ⟨0, 2⟩, ⟨0, 3⟩, ⟨1, 2⟩, ⟨1, 3⟩, ⟨2, 3⟩].getD i ⟨0, 0⟩

/-- The tetrahedron, built by the constructor on zeroed storage. -/
def tetra : Convex :=
  Convex.construct zeroStorage (fun _ => (some tetraEdges, 6)) tetraNormals tetraDis 4
    tetraPoints 4 tetraPolygons

/-! ## Proof vocabulary -/

/-- What one pass through a loop body does, told from the `delta_t` the traversal left on the
node: the convergence exit, the clamp exit, or an advance with both motions integrated. -/
def StepSpec (W : World M Tf G1 G2 Sg) (s : CAState M Tf G1 G2 Sg)
    (r : CAState M Tf G1 G2 Sg × Bool) : Prop :=
  r.1.node.t_err = s.node.t_err ∧ r.1.traversals = s.traversals + 1 ∧
  if r.1.node.delta_t ≤ s.node.t_err then
    r.2 = true ∧ r.1.node.toc = s.node.toc ∧
      r.1.node.motion1 = s.node.motion1 ∧ r.1.node.motion2 = s.node.motion2
  else if s.node.toc + r.1.node.delta_t > 1 then
    r.2 = true ∧ r.1.node.toc = 1 ∧
      r.1.node.motion1 = s.node.motion1 ∧ r.1.node.motion2 = s.node.motion2
  else
    r.2 = false ∧ r.1.node.toc = s.node.toc + r.1.node.delta_t ∧
      r.1.node.motion1 = s.node.motion1.integrate W (s.node.toc + r.1.node.delta_t) ∧
      r.1.node.motion2 = s.node.motion2.integrate W (s.node.toc + r.1.node.delta_t)

/-- The shape class whose tag a node type is, if any. -/
def NODE_TYPE.toShape : NODE_TYPE → Option Shape
  | .GEOM_BOX => some .Boxd | .GEOM_SPHERE => some .Sphere | .GEOM_CAPSULE => some .Capsuled
  | .GEOM_CONE => some .Coned | .GEOM_CYLINDER => some .Cylinder | .GEOM_CONVEX => some .Convex
  | .GEOM_PLANE => some .Plane | .GEOM_HALFSPACE => some .Halfspace
  | _ => none

/-- The bounding-volume kind whose tag a node type is, if any. -/
def NODE_TYPE.toBV : NODE_TYPE → Option BVKind
  | .BV_AABB => some .AABB | .BV_OBB => some .OBB | .BV_RSS => some .RSS | .BV_kIOS => some .kIOS
  | .BV_OBBRSS => some .OBBRSS | .BV_KDOP16 => some .KDOP16 | .BV_KDOP18 => some .KDOP18
  | .BV_KDOP24 => some .KDOP24
  | _ => none

/-- The content of the constructed matrix in closed form, against which the constructor is
checked entry by entry (`lookup_eq`). -/
def tableEntry (ns : Solver) (i j : NODE_TYPE) : Option HandlerRef :=
  match i.toShape, i.toBV, j.toShape, j.toBV with
  | some s1, _, some s2, _ => some (.ShapeConservativeAdvancement s1 s2 ns)
  | _, some b, some s, _ => some (.BVHShapeConservativeAdvancement b s ns)
  | some s, _, _, some b => some (.ShapeBVHConservativeAdvancement s b ns)
  | _, some b1, _, some b2 => if b1 = b2 then some (.BVHConservativeAdvancement b1 ns) else none
  | _, _, _, _ => none

variable {M' Tf' G1' G2' Sg' : Type}

/-- The arguments of the `integrate` calls made on a motion between two of its states. -/
def calls (entry final : MotionBase M) : List ℚ :=
  final.integrated.drop entry.integrated.length

/-- Both motions of a state carry, after the logs they entered with, the same list `l` of
`integrate` arguments. -/
def Logged (motion1 motion2 : MotionBase M) (s : CAState M Tf G1 G2 Sg) (l : List ℚ) : Prop :=
  s.node.motion1.integrated = motion1.integrated ++ l ∧
  s.node.motion2.integrated = motion2.integrated ++ l

/-- What the states of two runs in lockstep share: `toc`, the tolerance, the number of
traversals, and the arguments `integrate` was called with. -/
def InStep (motion1 motion2 : MotionBase M) (motion1' motion2' : MotionBase M')
    (s : CAState M Tf G1 G2 Sg) (s' : CAState M' Tf' G1' G2' Sg') : Prop :=
  s.node.toc = s'.node.toc ∧ s.node.t_err = s'.node.t_err ∧ s.traversals = s'.traversals ∧
  ∃ l, Logged motion1 motion2 s l ∧ Logged motion1' motion2' s' l

/-- The invariant behind C20: the `integrate` arguments so far are the same on both motions,
strictly increasing, positive and at most `toc`, which stays in `[0, 1]`. -/
def MonotoneLog (W : World M Tf G1 G2 Sg) (motion1 motion2 : MotionBase M)
    (s : CAState M Tf G1 G2 Sg) : Prop :=
  ∃ l, Logged motion1 motion2 s l ∧ l.Pairwise (· < ·) ∧ (∀ t ∈ l, 0 < t ∧ t ≤ s.node.toc) ∧
    0 ≤ s.node.toc ∧ s.node.toc ≤ 1 ∧ s.node.t_err = W.t_err

/-- The handler the matrix holds for the operands in the other order. -/
def HandlerRef.swap : HandlerRef → HandlerRef
  | .ShapeConservativeAdvancement s1 s2 ns => .ShapeConservativeAdvancement s2 s1 ns
  | .BVHShapeConservativeAdvancement bv s ns => .ShapeBVHConservativeAdvancement s bv ns
  | .ShapeBVHConservativeAdvancement s bv ns => .BVHShapeConservativeAdvancement bv s ns
  | .BVHConservativeAdvancement bv ns => .BVHConservativeAdvancement bv ns

/-! ## The member functions of the convex polytope -/

/-- `index[j]` while `points_in_poly` points to `polygons[pos]`: `index` is
`points_in_poly + 1`. -/
def Convex.index (c : Convex) (pos j : Nat) : Int := c.polygons (pos + 1 + j)

/-- `points[i]` for an `int` index.  A negative index has no defined outcome in the source;
the polygons arrays the theorems are about hold none. -/
def Convex.point (c : Convex) (i : Int) : Vector3d := c.points i.toNat

/-- The centre of the polygon `points_in_poly` points to, the first inner loop of the three
member functions (lines 142-145, 187-190, 222-225):
`for(j < *points_in_poly) plane_center += points[index[j]];` and
`plane_center = plane_center * (1.0 / *points_in_poly);`. -/
def Convex.plane_center (c : Convex) (pos : Nat) : Vector3d :=
  let points_in_poly := c.polygons pos
  let plane_center : Vector3d :=
    (List.range points_in_poly.toNat).foldl
      (fun plane_center j => plane_center + c.point (c.index pos j)) 0
  (1 / (points_in_poly : ℚ)) • plane_center

/-- `(v1.cross(v2)).dot(v3)` for the `j`-th edge of the polygon at `pos`: `v1`, `v2` are
`points[index[j]]` and `points[index[(j+1) % *points_in_poly]]`, `v3` is the polygon centre. -/
def Convex.d_six_vol (c : Convex) (pos j : Nat) : ℚ :=
  let points_in_poly := c.polygons pos
  let e_first := c.index pos j
  let e_second := c.index pos ((j + 1) % points_in_poly.toNat)
  let v1 := c.point e_first
  let v2 := c.point e_second
  let v3 := c.plane_center pos
  Matrix.dotProduct (crossProduct v1 v2) v3

/-- `Convex::computeVolume`, lines 211-242.  The state of the outer loop is the accumulated
`vol` and the offset of `points_in_poly` in `polygons`. -/
def Convex.computeVolume (c : Convex) : ℚ :=
  let r := (List.range c.num_planes.toNat).foldl
    (fun (st : ℚ × Nat) _i =>
      let pos := st.2
      let points_in_poly := c.polygons pos
      let vol := (List.range points_in_poly.toNat).foldl
        (fun vol j => vol + c.d_six_vol pos j) st.1
      -- points_in_poly += (*points_in_poly + 1); index = points_in_poly + 1;
      (vol, pos + (points_in_poly + 1).toNat))
    (0, 0)
  r.1 / 6

/-- The two accumulators `com` and `vol` of `Convex::computeCOM` after its loops
(lines 178-206). -/
def Convex.comAccumulators (c : Convex) : Vector3d × ℚ :=
  let r := (List.range c.num_planes.toNat).foldl
    (fun (st : (Vector3d × ℚ) × Nat) _i =>
      let pos := st.2
      let points_in_poly := c.polygons pos
      let plane_center := c.plane_center pos
      let acc := (List.range points_in_poly.toNat).foldl
        (fun (acc : Vector3d × ℚ) j =>
          let e_first := c.index pos j
          let e_second := c.index pos ((j + 1) % points_in_poly.toNat)
          let d_six_vol := c.d_six_vol pos j
          -- vol += d_six_vol; com += (points[e_first] + points[e_second] + plane_center) * d_six_vol;
          (acc.1 + d_six_vol • (c.point e_first + c.point e_second + plane_center),
           acc.2 + d_six_vol))
        st.1
      (acc, pos + (points_in_poly + 1).toNat))
    ((0, 0), 0)
  r.1

/-- `Convex::computeCOM`, lines 176-209: `return com / (vol * 4);`.  The quotient is `none`
when the divisor is zero, where the source divides by zero. -/
def Convex.computeCOM (c : Convex) : Option Vector3d :=
  let com := c.comAccumulators.1
  let vol := c.comAccumulators.2
  if vol * 4 = 0 then none else some ((1 / (vol * 4)) • com)

/-- The matrix `C_canonical` of `Convex::computeMomentofInertia` (lines 130-133). -/
def C_canonical : Matrix3d :=
  !![1 / 60, 1 / 120, 1 / 120;
     1 / 120, 1 / 60, 1 / 120;
     1 / 120, 1 / 120, 1 / 60]

/-- The accumulator `C` of `Convex::computeMomentofInertia` after its loops (lines 135-163). -/
def Convex.inertiaAccumulator (c : Convex) : Matrix3d :=
  let r := (List.range c.num_planes.toNat).foldl
    (fun (st : Matrix3d × Nat) _i =>
      let pos := st.2
      let points_in_poly := c.polygons pos
      let v3 := c.plane_center pos
      let C := (List.range points_in_poly.toNat).foldl
        (fun (C : Matrix3d) j =>
          let e_first := c.index pos j
          let e_second := c.index pos ((j + 1) % points_in_poly.toNat)
          let v1 := c.point e_first
          let v2 := c.point e_second
          let d_six_vol := c.d_six_vol pos j
          -- A.row(0) = v1; A.row(1) = v2; A.row(2) = v3;
          let A : Matrix3d := Matrix.of ![v1, v2, v3]
          -- C += A.transpose() * C_canonical * A * d_six_vol;
          C + d_six_vol • (A.transpose * C_canonical * A))
        st.1
      (C, pos + (points_in_poly + 1).toNat))
    (0, 0)
  r.1

/-- `Convex::computeMomentofInertia`, lines 124-174. -/
def Convex.computeMomentofInertia (c : Convex) : Matrix3d :=
  let C := c.inertiaAccumulator
  let trace_C := C 0 0 + C 1 1 + C 2 2
  !![trace_C - C 0 0, -C 0 1, -C 0 2;
     -C 1 0, trace_C - C 1 1, -C 1 2;
     -C 2 0, -C 2 1, trace_C - C 2 2]

/-! ## Proof vocabulary for the motions on return -/

/-- How a call that returned `r` left the motions, told from the iteration `k` whose pass left
the loop and the state `s` that iteration started in: the motions are the ones of `s`, each
has had `k` `integrate` calls, the last of them (when there is one) to the `toc` of `s`, and
the returned `toc` is the `toc` of `s` after the convergence exit and 1 after the clamp
exit. -/
def LeftAt (v : Variant) (W : World M Tf G1 G2 Sg) (o1 : G1) (motion1 : MotionBase M) (o2 : G2)
    (motion2 : MotionBase M) (r : CAResult M) (k : Nat) (s : CAState M Tf G1 G2 Sg) : Prop :=
  stateAt (loopBody v W) k (loopEntry v W o1 motion1 o2 motion2) = some s ∧
  (loopBody v W s).2 = true ∧ r = (loopBody v W s).1.exit ∧
  r.motion1 = s.node.motion1 ∧ r.motion2 = s.node.motion2 ∧
  (calls motion1 r.motion1).length = k ∧ calls motion2 r.motion2 = calls motion1 r.motion1 ∧
  (k ≠ 0 → (calls motion1 r.motion1).getLast? = some s.node.toc) ∧
  ((loopBody v W s).1.node.delta_t ≤ W.t_err → r.toc = s.node.toc) ∧
  (¬ (loopBody v W s).1.node.delta_t ≤ W.t_err →
    r.toc = 1 ∧ 1 < s.node.toc + (loopBody v W s).1.node.delta_t)

/-! ## Proof vocabulary for the polygons of a convex polytope -/

/-- The polygons array holds, from the offset `pos` on, the polygons `ps` one after the other:
for each the number of its vertices, followed by that many indices. -/
def Convex.listsFrom (c : Convex) : Nat → List (List Nat) → Prop
  | _, [] => True
  | pos, p :: ps =>
      c.polygons pos = (p.length : Int) ∧
      (∀ j, j < p.length → c.polygons (pos + 1 + j) = ((p.getD j 0 : Nat) : Int)) ∧
      c.listsFrom (pos + (p.length + 1)) ps

/-- A well-formed polytope with the polygons `ps`: `num_planes` is their number, the polygons
array lists them, and every index is the index of one of the `num_points` points. -/
def Convex.WellFormed (c : Convex) (ps : List (List Nat)) : Prop :=
  c.num_planes = (ps.length : Int) ∧ c.listsFrom 0 ps ∧
  ∀ p ∈ ps, ∀ i ∈ p, (i : Int) < c.num_points

/-- The centre of a polygon given by its list of indices: the mean of its vertices. -/
def faceCenter (points : Nat → Vector3d) (p : List Nat) : Vector3d :=
  (1 / (p.length : ℚ)) • (p.map points).sum

/-- Six times the signed volume of the tetrahedron spanned by the origin, the `j`-th edge of
the polygon `p` and the centre of `p`. -/
def fanSixVol (points : Nat → Vector3d) (p : List Nat) (j : Nat) : ℚ :=
  Matrix.dotProduct
    (crossProduct (points (p.getD j 0)) (points (p.getD ((j + 1) % p.length) 0)))
    (faceCenter points p)

/-- The six-fold volume of the fan of tetrahedra over the polygon `p`. -/
def faceSixVol (points : Nat → Vector3d) (p : List Nat) : ℚ :=
  ∑ j in Finset.range p.length, fanSixVol points p j

/-- The sum over the fan of tetrahedra over the polygon `p` of
`(v1 + v2 + face_center) * six_fold_volume`. -/
def faceMoment (points : Nat → Vector3d) (p : List Nat) : Vector3d :=
  ∑ j in Finset.range p.length,
    fanSixVol points p j •
      (points (p.getD j 0) + points (p.getD ((j + 1) % p.length) 0) + faceCenter points p)

/-- The four faces of a tetrahedron with the vertices 0, 1, 2, 3, wound alike. -/
def tetraFaces : List (List Nat) := [[0, 2, 1], [0, 1, 3], [0, 3, 2], [1, 2, 3]]

/-- The polygons array of the tetrahedron with every face in the reverse order. -/
def tetraPolygonsReversed : Nat → Int :=
  fun i => [3, 1, 2, 0, 3, 3, 1, 0, 3, 2, 3, 0, 3, 3, 2, 1].getD i 0

/-! ## Lemmas on the loop combinator -/

theorem doWhile_mono {S : Type} (body : S → S × Bool) :
    ∀ (n m : Nat) (s r : S), doWhile body n s = some r → n ≤ m → doWhile body m s = some r := by
  intro n
  induction n with
  | zero => intro m s r h; simp [doWhile] at h
  | succ n ih =>
    intro m s r h hm
    obtain ⟨m, rfl⟩ : ∃ m', m = m' + 1 := ⟨m - 1, by omega⟩
    simp only [doWhile] at h ⊢
    split_ifs at h ⊢ with hb
    · exact h
    · exact ih m _ r h (by omega)

/-- Hoare rule for the loop: an invariant of the reachable iteration starts that every
breaking pass turns into the postcondition. -/
theorem doWhile_rule {S : Type} (body : S → S × Bool) (Inv Post : S → Prop)
    (hstep : ∀ s, Inv s → if (body s).2 then Post (body s).1 else Inv (body s).1) :
    ∀ (n : Nat) (s r : S), Inv s → doWhile body n s = some r → Post r := by
  intro n
  induction n with
  | zero => intro s r _ h; simp [doWhile] at h
  | succ n ih =>
    intro s r hs h
    have := hstep s hs
    simp only [doWhile] at h
    split_ifs at h this with hb
    · cases h; exact this
    · exact ih _ r this h

theorem stateAt_succ {S : Type} (body : S → S × Bool) :
    ∀ (k : Nat) (s0 s : S), stateAt body k s0 = some s → (body s).2 = false →
      stateAt body (k + 1) s0 = some (body s).1 := by
  intro k
  induction k with
  | zero =>
    intro s0 s h hb
    simp only [stateAt, Option.some.injEq] at h
    subst h
    simp [stateAt, hb]
  | succ k ih =>
    intro s0 s h hb
    rw [stateAt] at h ⊢
    split_ifs at h ⊢ with hb0
    exact ih _ s h hb

/-- Invariants of the iteration starts. -/
theorem stateAt_rule {S : Type} (body : S → S × Bool) (Inv : S → Prop)
    (hstep : ∀ s, Inv s → (body s).2 = false → Inv (body s).1) :
    ∀ (k : Nat) (s0 s : S), Inv s0 → stateAt body k s0 = some s → Inv s := by
  intro k
  induction k with
  | zero => intro s0 s h0 h; simp only [stateAt, Option.some.injEq] at h; exact h ▸ h0
  | succ k ih =>
    intro s0 s h0 h
    rw [stateAt] at h
    split_ifs at h with hb
    exact ih _ s (hstep s0 h0 (by simpa using hb)) h

/-- A loop that reaches an iteration whose pass breaks returns the state that pass leaves. -/
theorem doWhile_of_stateAt {S : Type} (body : S → S × Bool) :
    ∀ (k : Nat) (s0 s : S), stateAt body k s0 = some s → (body s).2 = true →
      ∀ n, k < n → doWhile body n s0 = some (body s).1 := by
  intro k
  induction k with
  | zero =>
    intro s0 s h hb n hn
    simp only [stateAt, Option.some.injEq] at h
    subst h
    obtain ⟨n, rfl⟩ : ∃ n', n = n' + 1 := ⟨n - 1, by omega⟩
    simp [doWhile, hb]
  | succ k ih =>
    intro s0 s h hb n hn
    obtain ⟨n, rfl⟩ : ∃ n', n = n' + 1 := ⟨n - 1, by omega⟩
    rw [stateAt] at h
    split_ifs at h with hb0
    simp only [doWhile, hb0]
    exact ih _ s h hb n (by omega)

/-- A loop that is still running after `k` passes has no result with fuel `k`. -/
theorem doWhile_none_of_stateAt {S : Type} (body : S → S × Bool) :
    ∀ (k : Nat) (s0 s : S), stateAt body k s0 = some s → doWhile body k s0 = none := by
  intro k
  induction k with
  | zero => intro s0 s _; rfl
  | succ k ih =>
    intro s0 s h
    rw [stateAt] at h
    split_ifs at h with hb0
    simp only [doWhile, hb0]
    exact ih _ s h

/-- Termination by a measure that every pass that does not break decreases, under an invariant
of the iteration starts. -/
theorem doWhile_terminates {S : Type} (body : S → S × Bool) (Inv : S → Prop) (μ : S → Nat)
    (hdec : ∀ s, Inv s → (body s).2 = false → Inv (body s).1 ∧ μ (body s).1 < μ s) :
    ∀ (n : Nat) (s : S), Inv s → μ s < n → ∃ r, doWhile body n s = some r := by
  intro n
  induction n with
  | zero => intro s _ h; omega
  | succ n ih =>
    intro s hs h
    simp only [doWhile]
    split_ifs with hb
    · exact ⟨_, rfl⟩
    · have := hdec s hs (by simpa using hb)
      exact ih _ this.1 (by omega)

/-- A loop none of whose passes breaks, by an invariant, never returns. -/
theorem doWhile_none_of_inv {S : Type} (body : S → S × Bool) (Inv : S → Prop)
    (hstep : ∀ s, Inv s → (body s).2 = false ∧ Inv (body s).1) :
    ∀ (n : Nat) (s : S), Inv s → doWhile body n s = none := by
  intro n
  induction n with
  | zero => intro s _; rfl
  | succ n ih =>
    intro s hs
    obtain ⟨hb, hi⟩ := hstep s hs
    simp only [doWhile, hb, Bool.false_eq_true, if_false]
    exact ih _ hi

/-! ## Lemmas on the loop bodies -/

theorem loopBody_spec (v : Variant) (W : World M Tf G1 G2 Sg) (s : CAState M Tf G1 G2 Sg) :
    StepSpec W s (loopBody v W s) := by
  cases v <;>
    simp only [loopBody, meshBody, meshOrientedBody, shapeBody, meshShapeBody,
      meshShapeOrientedBody, shapeMeshBody, shapeMeshOrientedBody, distanceRecurse, StepSpec] <;>
    split_ifs <;> simp_all

/-- The `delta_t` on the node after a pass is the one the traversal of that pass left, the
traversal having been given a node with the same `toc`, tolerance and motions and with `delta_t`
reset to 1. -/
theorem loopBody_delta_t (v : Variant) (W : World M Tf G1 G2 Sg) (s : CAState M Tf G1 G2 Sg) :
    ∃ n : Node M Tf Sg, n.toc = s.node.toc ∧ n.t_err = s.node.t_err ∧ n.delta_t = 1 ∧
      n.min_distance = FCL_REAL_MAX ∧ n.motion1 = s.node.motion1 ∧ n.motion2 = s.node.motion2 ∧
      (loopBody v W s).1.node.delta_t = (W.traverse n).2 := by
  cases v
  case mesh | meshShape | shapeMesh =>
    refine ⟨{ s.node with setup := (W.init s.node.setup s.model1 s.tf1 s.model2 s.tf2).1,
                          delta_t := 1, min_distance := FCL_REAL_MAX },
      rfl, rfl, rfl, rfl, rfl, rfl, ?_⟩
    simp only [loopBody, meshBody, meshShapeBody, shapeMeshBody, distanceRecurse]
    split_ifs <;> rfl
  case meshOriented =>
    refine ⟨{ s.node with RT := some (W.relative (s.node.motion1.getCurrentTransform W)
                            (s.node.motion2.getCurrentTransform W)),
                          delta_t := 1, min_distance := FCL_REAL_MAX },
      rfl, rfl, rfl, rfl, rfl, rfl, ?_⟩
    simp only [loopBody, meshOrientedBody, distanceRecurse]
    split_ifs <;> rfl
  case shape | meshShapeOriented | shapeMeshOriented =>
    refine ⟨{ s.node with tf1 := some (s.node.motion1.getCurrentTransform W),
                          tf2 := some (s.node.motion2.getCurrentTransform W),
                          delta_t := 1, min_distance := FCL_REAL_MAX },
      rfl, rfl, rfl, rfl, rfl, rfl, ?_⟩
    simp only [loopBody, shapeBody, meshShapeOrientedBody, shapeMeshOrientedBody,
      distanceRecurse]
    split_ifs <;> rfl

theorem conservativeAdvancement_eq (v : Variant) (W : World M Tf G1 G2 Sg) (o1 : G1)
    (motion1 : MotionBase M) (o2 : G2) (motion2 : MotionBase M) (fuel : Nat) :
    conservativeAdvancement v W o1 motion1 o2 motion2 fuel =
      if W.collide o1 (motion1.getCurrentTransform W) o2 (motion2.getCurrentTransform W) then
        some (earlyReturn motion1 motion2)
      else (doWhile (loopBody v W) fuel (loopEntry v W o1 motion1 o2 motion2)).map CAState.exit := by
  cases v <;> rfl

theorem loopEntry_node (v : Variant) (W : World M Tf G1 G2 Sg) (o1 : G1)
    (motion1 : MotionBase M) (o2 : G2) (motion2 : MotionBase M) :
    (loopEntry v W o1 motion1 o2 motion2).node.toc = 0 ∧
    (loopEntry v W o1 motion1 o2 motion2).node.t_err = W.t_err ∧
    (loopEntry v W o1 motion1 o2 motion2).node.motion1 = motion1 ∧
    (loopEntry v W o1 motion1 o2 motion2).node.motion2 = motion2 ∧
    (loopEntry v W o1 motion1 o2 motion2).traversals = 0 := by
  cases v <;> simp [loopEntry, meshEntry, meshShapeEntry, shapeMeshEntry, plainEntry, Node.fresh]

/-- Invariant behind C2: with a tolerance that is not negative, `toc` stays in `[0, 1]`. -/
theorem toc_range_step (v : Variant) (W : World M Tf G1 G2 Sg) (ht : 0 ≤ W.t_err)
    (s : CAState M Tf G1 G2 Sg)
    (hs : 0 ≤ s.node.toc ∧ s.node.toc ≤ 1 ∧ s.node.t_err = W.t_err) :
    0 ≤ (loopBody v W s).1.node.toc ∧ (loopBody v W s).1.node.toc ≤ 1 ∧
      (loopBody v W s).1.node.t_err = W.t_err := by
  obtain ⟨h0, h1, he⟩ := hs
  obtain ⟨hte, -, hcase⟩ := loopBody_spec v W s
  refine ⟨?_, ?_, hte.trans he⟩ <;>
  · split_ifs at hcase with hc hk <;> rw [hcase.2.1] <;>
      first | assumption | linarith

/-- The boolean returned is `toc < 1`, on both return paths. -/
theorem ret_iff_aux (v : Variant) (W : World M Tf G1 G2 Sg) (o1 : G1)
    (motion1 : MotionBase M) (o2 : G2) (motion2 : MotionBase M) (fuel : Nat) (r : CAResult M)
    (h : conservativeAdvancement v W o1 motion1 o2 motion2 fuel = some r) :
    r.ret = true ↔ r.toc < 1 := by
  rw [conservativeAdvancement_eq] at h
  split_ifs at h with hc
  · cases h; simp [earlyReturn]
  · obtain ⟨s, -, rfl⟩ := Option.map_eq_some'.mp h
    simp [CAState.exit]

/-- After a pass `toc` is at most what it was, or at most what it was plus the step. -/
theorem toc_step_le (v : Variant) (W : World M Tf G1 G2 Sg) (s : CAState M Tf G1 G2 Sg) :
    (loopBody v W s).1.node.toc ≤ s.node.toc ∨
      (loopBody v W s).1.node.toc ≤ s.node.toc + (loopBody v W s).1.node.delta_t := by
  obtain ⟨-, -, hcase⟩ := loopBody_spec v W s
  split_ifs at hcase with hc hk
  · exact Or.inl (le_of_eq hcase.2.1)
  · exact Or.inr (by rw [hcase.2.1]; exact le_of_lt hk)
  · exact Or.inr (le_of_eq hcase.2.1)

/-- A run performs at most as many traversals as it is given fuel. -/
theorem doWhile_traversals (v : Variant) (W : World M Tf G1 G2 Sg) :
    ∀ (n : Nat) (s r : CAState M Tf G1 G2 Sg), doWhile (loopBody v W) n s = some r →
      r.traversals ≤ s.traversals + n := by
  intro n
  induction n with
  | zero => intro s r h; simp [doWhile] at h
  | succ n ih =>
    intro s r h
    have ht := (loopBody_spec v W s).2.1
    simp only [doWhile] at h
    split_ifs at h with hb
    · cases h; omega
    · have := ih _ r h; omega

/-- A pass that does not break moves `toc` forward by more than the tolerance, and not
beyond 1. -/
theorem advance_gt_t_err (v : Variant) (W : World M Tf G1 G2 Sg) (s : CAState M Tf G1 G2 Sg)
    (hb : (loopBody v W s).2 = false) :
    s.node.toc + s.node.t_err < (loopBody v W s).1.node.toc ∧
      (loopBody v W s).1.node.toc ≤ 1 := by
  obtain ⟨-, -, hcase⟩ := loopBody_spec v W s
  split_ifs at hcase with hc hk
  · rw [hcase.1] at hb; cases hb
  · rw [hcase.1] at hb; cases hb
  · rw [hcase.2.1]; exact ⟨by linarith, not_lt.mp hk⟩

/-- The measure behind C5: `⌈(1 - toc) / t_err⌉ - 1` drops on every pass that does not break. -/
theorem measure_decreases (v : Variant) (W : World M Tf G1 G2 Sg) (ht : 0 < W.t_err)
    (s : CAState M Tf G1 G2 Sg) (hs : s.node.t_err = W.t_err)
    (hb : (loopBody v W s).2 = false) :
    (loopBody v W s).1.node.t_err = W.t_err ∧
      ⌈(1 - (loopBody v W s).1.node.toc) / W.t_err⌉₊ - 1 < ⌈(1 - s.node.toc) / W.t_err⌉₊ - 1 := by
  obtain ⟨hgt, hle⟩ := advance_gt_t_err v W s hb
  rw [hs] at hgt
  refine ⟨(loopBody_spec v W s).1.trans hs, ?_⟩
  have hx0 : 0 ≤ (1 - (loopBody v W s).1.node.toc) / W.t_err :=
    div_nonneg (by linarith) (le_of_lt ht)
  have hlt : (1 - (loopBody v W s).1.node.toc) / W.t_err + 1 < (1 - s.node.toc) / W.t_err := by
    rw [div_add_one (ne_of_gt ht), div_lt_div_iff_of_pos_right ht]; linarith
  have h1 : ⌈(1 - (loopBody v W s).1.node.toc) / W.t_err⌉₊ + 1 ≤ ⌈(1 - s.node.toc) / W.t_err⌉₊ := by
    rw [← Nat.ceil_add_one hx0]; exact Nat.ceil_mono (le_of_lt hlt)
  have h2 : 1 < ⌈(1 - s.node.toc) / W.t_err⌉₊ := by
    rw [Nat.lt_ceil]; push_cast; linarith
  omega

/-- The result of a run that reaches an iteration whose pass breaks. -/
theorem result_of_break (v : Variant) (W : World M Tf G1 G2 Sg) (o1 : G1)
    (motion1 : MotionBase M) (o2 : G2) (motion2 : MotionBase M)
    (hc : W.collide o1 (motion1.getCurrentTransform W) o2 (motion2.getCurrentTransform W) = false)
    (k : Nat) (s : CAState M Tf G1 G2 Sg)
    (hk : stateAt (loopBody v W) k (loopEntry v W o1 motion1 o2 motion2) = some s)
    (hb : (loopBody v W s).2 = true) (fuel : Nat) (hf : k < fuel) :
    conservativeAdvancement v W o1 motion1 o2 motion2 fuel = some (loopBody v W s).1.exit := by
  rw [conservativeAdvancement_eq, hc, doWhile_of_stateAt _ k _ s hk hb fuel hf]
  simp

/-! ## Concrete runs -/

theorem grazing_run :
    conservativeAdvancement .shape grazingWorld () (MotionBase.start 0) () (MotionBase.start 0) 2
      = some { ret := false, toc := 1, motion1 := ⟨1, [1]⟩, motion2 := ⟨1, [1]⟩,
               traversals := 2 } := by
  norm_num [conservativeAdvancement, conservativeAdvancementShape, doWhile, shapeBody, plainEntry,
    grazingWorld, linearWorld, MotionBase.start, MotionBase.getCurrentTransform,
    MotionBase.integrate, distanceRecurse, Node.fresh, CAState.exit, earlyReturn]

theorem headOn_run :
    conservativeAdvancement .mesh headOnWorld () (MotionBase.start 0) () (MotionBase.start 0) 2
      = some { ret := true, toc := 1 / 2, motion1 := ⟨1 / 2, [1 / 2]⟩,
               motion2 := ⟨1 / 2, [1 / 2]⟩, traversals := 2 } := by
  norm_num [conservativeAdvancement, conservativeAdvancementMesh, doWhile, meshBody, meshEntry,
    headOnWorld, linearWorld, MotionBase.start, MotionBase.getCurrentTransform,
    MotionBase.integrate, distanceRecurse, Node.fresh, CAState.exit, earlyReturn]

theorem static_run :
    conservativeAdvancement .meshOriented staticWorld () (MotionBase.start 0) ()
        (MotionBase.start 0) 2
      = some { ret := false, toc := 1, motion1 := ⟨1, [1]⟩, motion2 := ⟨1, [1]⟩,
               traversals := 2 } := by
  norm_num [conservativeAdvancement, conservativeAdvancementMeshOriented, doWhile,
    meshOrientedBody, plainEntry, staticWorld, linearWorld, MotionBase.start,
    MotionBase.getCurrentTransform, MotionBase.integrate, distanceRecurse, Node.fresh,
    CAState.exit, earlyReturn]

/-- In the head-on world the motions of a reachable iteration start sit at time `toc`. -/
theorem headOn_state (k : Nat) (s : CAState ℚ ℚ Unit Unit Unit)
    (h : stateAt (loopBody .mesh headOnWorld) k
      (loopEntry .mesh headOnWorld () (MotionBase.start 0) () (MotionBase.start 0)) = some s) :
    s.node.motion1.state = s.node.toc := by
  refine stateAt_rule (loopBody .mesh headOnWorld) (fun s => s.node.motion1.state = s.node.toc)
    ?_ k _ s ?_ h
  · intro s _ hb
    obtain ⟨-, -, hcase⟩ := loopBody_spec .mesh headOnWorld s
    split_ifs at hcase with hc hk
    · rw [hcase.1] at hb; cases hb
    · rw [hcase.1] at hb; cases hb
    · rw [hcase.2.1, hcase.2.2.1]; rfl
  · rfl

/-- The step a traversal of the head-on world leaves. -/
theorem headOn_delta (s : CAState ℚ ℚ Unit Unit Unit) :
    (loopBody .mesh headOnWorld s).1.node.delta_t
      = if (1 - 2 * s.node.motion1.state) / 2 < 1 then (1 - 2 * s.node.motion1.state) / 2
        else 1 := by
  simp only [loopBody, meshBody, distanceRecurse, headOnWorld, linearWorld]
  split_ifs <;> simp_all

/-- The grazing run does not break on its first pass: the step is 1 and `toc` becomes 1. -/
theorem grazing_first :
    (loopBody .shape grazingWorld
      (loopEntry .shape grazingWorld () (MotionBase.start 0) () (MotionBase.start 0))).2 = false ∧
    (loopBody .shape grazingWorld
      (loopEntry .shape grazingWorld () (MotionBase.start 0) () (MotionBase.start 0))).1.node.toc
        = 1 ∧
    (loopBody .shape grazingWorld (loopBody .shape grazingWorld
      (loopEntry .shape grazingWorld () (MotionBase.start 0) () (MotionBase.start 0))).1
        ).1.node.delta_t = 0 ∧
    (loopBody .shape grazingWorld
      (loopEntry .shape grazingWorld () (MotionBase.start 0) () (MotionBase.start 0))).1.node.t_err
        = 1 / 10000 := by
  norm_num [loopBody, shapeBody, loopEntry, plainEntry, grazingWorld, linearWorld,
    MotionBase.start, MotionBase.getCurrentTransform, MotionBase.integrate, distanceRecurse,
    Node.fresh]

/-- The static run: the first pass leaves the reset step 1 and does not break; `toc` goes from
0 to 1 and both motions are integrated to 1; the second pass leaves the reset step again. -/
theorem static_first :
    (loopEntry .meshOriented staticWorld () (MotionBase.start 0) () (MotionBase.start 0)).node.toc
        = 0 ∧
    (loopBody .meshOriented staticWorld
      (loopEntry .meshOriented staticWorld () (MotionBase.start 0) ()
        (MotionBase.start 0))).1.node.delta_t = 1 ∧
    (loopBody .meshOriented staticWorld
      (loopEntry .meshOriented staticWorld () (MotionBase.start 0) ()
        (MotionBase.start 0))).2 = false ∧
    (loopBody .meshOriented staticWorld
      (loopEntry .meshOriented staticWorld () (MotionBase.start 0) ()
        (MotionBase.start 0))).1.node.toc = 1 ∧
    (loopBody .meshOriented staticWorld
      (loopEntry .meshOriented staticWorld () (MotionBase.start 0) ()
        (MotionBase.start 0))).1.node.t_err = 1 / 10000 ∧
    (loopBody .meshOriented staticWorld (loopBody .meshOriented staticWorld
      (loopEntry .meshOriented staticWorld () (MotionBase.start 0) ()
        (MotionBase.start 0))).1).1.node.delta_t = 1 := by
  norm_num [loopBody, meshOrientedBody, loopEntry, plainEntry, staticWorld, linearWorld,
    MotionBase.start, MotionBase.getCurrentTransform, MotionBase.integrate, distanceRecurse,
    Node.fresh]

theorem static_no_hit :
    staticWorld.collide () ((MotionBase.start (0 : ℚ)).getCurrentTransform staticWorld) ()
      ((MotionBase.start (0 : ℚ)).getCurrentTransform staticWorld) = false := by
  simp [staticWorld, linearWorld, MotionBase.start, MotionBase.getCurrentTransform]

theorem static_second :
    stateAt (loopBody .meshOriented staticWorld) 1
      (loopEntry .meshOriented staticWorld () (MotionBase.start 0) () (MotionBase.start 0))
      = some (loopBody .meshOriented staticWorld
          (loopEntry .meshOriented staticWorld () (MotionBase.start 0) ()
            (MotionBase.start 0))).1 := by
  simp [stateAt, static_first.2.2.1]

/-- The step a traversal of the halving world leaves. -/
theorem zeno_delta (s : CAState Nat Unit Unit Unit Unit) :
    (loopBody .shape zenoWorld s).1.node.delta_t = 1 / 2 ^ (s.node.motion1.state + 1) := by
  simp only [loopBody, shapeBody, distanceRecurse, zenoWorld, scriptWorld]
  split_ifs <;> simp_all

/-- In the halving world every pass advances: after `k` passes `toc = 1 - 2^-k`. -/
theorem zeno_step (s : CAState Nat Unit Unit Unit Unit)
    (hs : s.node.t_err = 0 ∧ s.node.toc = 1 - 1 / 2 ^ s.node.motion1.state) :
    (loopBody .shape zenoWorld s).2 = false ∧
      ((loopBody .shape zenoWorld s).1.node.t_err = 0 ∧
        (loopBody .shape zenoWorld s).1.node.toc
          = 1 - 1 / 2 ^ (loopBody .shape zenoWorld s).1.node.motion1.state) := by
  obtain ⟨he, htoc⟩ := hs
  obtain ⟨hte, -, hcase⟩ := loopBody_spec .shape zenoWorld s
  rw [zeno_delta, he, htoc] at hcase
  have hpos : (0 : ℚ) < 1 / 2 ^ (s.node.motion1.state + 1) := by positivity
  have hhalf : (1 : ℚ) / 2 ^ s.node.motion1.state = 2 * (1 / 2 ^ (s.node.motion1.state + 1)) := by
    rw [pow_succ]; field_simp
  rw [if_neg (not_le.mpr hpos), if_neg (by rw [hhalf]; linarith)] at hcase
  refine ⟨hcase.1, hte.trans he, ?_⟩
  rw [hcase.2.1, hcase.2.2.1]
  simp only [MotionBase.integrate, zenoWorld, scriptWorld]
  rw [hhalf]; ring

/-! ## The claims -/

/-- C1: soundness of conservative advancement.  `contact τ` says that the objects touch at time
`τ`.  If on every outer iteration the step left by the traversal is conservative (no contact at
any time in `[toc, toc + delta_t)`), then for every variant and every run that returns there is
no contact at any time `0 ≤ τ < toc` for the `toc` returned, and when the run returns `false`
there is none in `[0, 1)`.  The assumption on the entry test is not needed for this. -/
theorem conservativeAdvancement_sound (v : Variant) (W : World M Tf G1 G2 Sg) (o1 : G1)
    (motion1 : MotionBase M) (o2 : G2) (motion2 : MotionBase M) (contact : ℚ → Prop)
    (hcons : ∀ k s, stateAt (loopBody v W) k (loopEntry v W o1 motion1 o2 motion2) = some s →
      ∀ τ, s.node.toc ≤ τ → τ < s.node.toc + (loopBody v W s).1.node.delta_t → ¬ contact τ)
    (fuel : Nat) (r : CAResult M)
    (h : conservativeAdvancement v W o1 motion1 o2 motion2 fuel = some r) :
    (∀ τ, 0 ≤ τ → τ < r.toc → ¬ contact τ) ∧
    (r.ret = false → ∀ τ, 0 ≤ τ → τ < 1 → ¬ contact τ) := by
  have key : ∀ τ, 0 ≤ τ → τ < r.toc → ¬ contact τ := by
    rw [conservativeAdvancement_eq] at h
    split_ifs at h with hc
    · cases h
      intro τ h0 h1
      simp only [earlyReturn] at h1
      exact absurd h1 (not_lt.mpr h0)
    · obtain ⟨sf, hsf, rfl⟩ := Option.map_eq_some'.mp h
      have step : ∀ s, ((∃ k, stateAt (loopBody v W) k (loopEntry v W o1 motion1 o2 motion2)
            = some s) ∧ ∀ τ, 0 ≤ τ → τ < s.node.toc → ¬ contact τ) →
          ((loopBody v W s).2 = false →
            ∃ k, stateAt (loopBody v W) k (loopEntry v W o1 motion1 o2 motion2)
              = some (loopBody v W s).1) ∧
          ∀ τ, 0 ≤ τ → τ < (loopBody v W s).1.node.toc → ¬ contact τ := by
        rintro s ⟨⟨k, hk⟩, hsafe⟩
        refine ⟨fun hb => ⟨k + 1, stateAt_succ _ k _ s hk hb⟩, ?_⟩
        intro τ h0 h1
        by_cases hτ : τ < s.node.toc
        · exact hsafe τ h0 hτ
        · rcases toc_step_le v W s with hle | hle
          · exact absurd (lt_of_lt_of_le h1 hle) hτ
          · exact hcons k s hk τ (not_lt.mp hτ) (lt_of_lt_of_le h1 hle)
      have := doWhile_rule (loopBody v W)
        (fun s => (∃ k, stateAt (loopBody v W) k (loopEntry v W o1 motion1 o2 motion2)
            = some s) ∧ ∀ τ, 0 ≤ τ → τ < s.node.toc → ¬ contact τ)
        (fun s => ∀ τ, 0 ≤ τ → τ < s.node.toc → ¬ contact τ)
        (fun s hs => by
          split_ifs with hb
          · exact (step s hs).2
          · exact ⟨(step s hs).1 (by simpa using hb), (step s hs).2⟩)
        fuel _ sf ⟨⟨0, rfl⟩, ?_⟩ hsf
      · exact this
      · intro τ h0 h1
        rw [(loopEntry_node v W o1 motion1 o2 motion2).1] at h1
        exact absurd h1 (not_lt.mpr h0)
  refine ⟨key, fun hret τ h0 h1 => key τ h0 (lt_of_lt_of_le h1 ?_)⟩
  have := (ret_iff_aux v W o1 motion1 o2 motion2 fuel r h).not
  simp only [hret, Bool.false_eq_true, not_false_eq_true, not_lt, true_iff] at this
  exact this

/-- Witness of C1: the head-on spheres touch from time `1/2` on, each traversal leaves the
exact time to contact, and the run returns `toc = 1/2`. -/
theorem conservativeAdvancement_sound_witness :
    (∀ k s, stateAt (loopBody .mesh headOnWorld) k
        (loopEntry .mesh headOnWorld () (MotionBase.start 0) () (MotionBase.start 0)) = some s →
      ∀ τ : ℚ, s.node.toc ≤ τ →
        τ < s.node.toc + (loopBody .mesh headOnWorld s).1.node.delta_t → ¬ (1 / 2 ≤ τ)) ∧
    ((∀ τ : ℚ, 0 ≤ τ → τ < 1 / 2 → ¬ (1 / 2 ≤ τ)) ∧
      (true = false → ∀ τ : ℚ, 0 ≤ τ → τ < 1 → ¬ (1 / 2 ≤ τ))) := by
  have hcons : ∀ k s, stateAt (loopBody .mesh headOnWorld) k
        (loopEntry .mesh headOnWorld () (MotionBase.start 0) () (MotionBase.start 0)) = some s →
      ∀ τ : ℚ, s.node.toc ≤ τ →
        τ < s.node.toc + (loopBody .mesh headOnWorld s).1.node.delta_t → ¬ (1 / 2 ≤ τ) := by
    intro k s hk τ h0 h1
    rw [headOn_delta, headOn_state k s hk] at h1
    split_ifs at h1 with hd <;> linarith
  exact ⟨hcons, conservativeAdvancement_sound .mesh headOnWorld () (MotionBase.start 0) ()
    (MotionBase.start 0) (fun τ => 1 / 2 ≤ τ) hcons 2 _ headOn_run⟩

/-- C2: for every variant, with `t_err ≥ 0` (and the node's `toc` starting at 0) the time of
contact written by `conservativeAdvancement` lies in `[0, 1]`, and so does `node.toc` at the
start of every outer iteration, whatever the traversals leave in `delta_t`. -/
theorem toc_in_unit_interval (v : Variant) (W : World M Tf G1 G2 Sg) (o1 : G1)
    (motion1 : MotionBase M) (o2 : G2) (motion2 : MotionBase M) (ht : 0 ≤ W.t_err) :
    (∀ fuel r, conservativeAdvancement v W o1 motion1 o2 motion2 fuel = some r →
        0 ≤ r.toc ∧ r.toc ≤ 1) ∧
    (∀ k s, stateAt (loopBody v W) k (loopEntry v W o1 motion1 o2 motion2) = some s →
        0 ≤ s.node.toc ∧ s.node.toc ≤ 1) := by
  obtain ⟨e0, e1, -⟩ := loopEntry_node v W o1 motion1 o2 motion2
  have hentry : 0 ≤ (loopEntry v W o1 motion1 o2 motion2).node.toc ∧
      (loopEntry v W o1 motion1 o2 motion2).node.toc ≤ 1 ∧
      (loopEntry v W o1 motion1 o2 motion2).node.t_err = W.t_err := by
    rw [e0]; exact ⟨le_refl 0, zero_le_one, e1⟩
  constructor
  · intro fuel r h
    rw [conservativeAdvancement_eq] at h
    split_ifs at h with hc
    · cases h; simp [earlyReturn]
    · obtain ⟨s, hs, rfl⟩ := Option.map_eq_some'.mp h
      have := doWhile_rule (loopBody v W)
        (fun s => 0 ≤ s.node.toc ∧ s.node.toc ≤ 1 ∧ s.node.t_err = W.t_err)
        (fun s => 0 ≤ s.node.toc ∧ s.node.toc ≤ 1 ∧ s.node.t_err = W.t_err)
        (fun s hs => by split_ifs <;> exact toc_range_step v W ht s hs) fuel _ s hentry hs
      exact ⟨this.1, this.2.1⟩
  · intro k s h
    have := stateAt_rule (loopBody v W)
      (fun s => 0 ≤ s.node.toc ∧ s.node.toc ≤ 1 ∧ s.node.t_err = W.t_err)
      (fun s hs _ => toc_range_step v W ht s hs) k _ s hentry h
    exact ⟨this.1, this.2.1⟩

/-- Witness of C2: the head-on run, tolerance `1e-4`, writes `toc = 1/2`. -/
theorem toc_in_unit_interval_witness :
    (0 : ℚ) ≤ headOnWorld.t_err ∧ (0 : ℚ) ≤ 1 / 2 ∧ (1 / 2 : ℚ) ≤ 1 :=
  ⟨by norm_num [headOnWorld, linearWorld],
   (toc_in_unit_interval .mesh headOnWorld () (MotionBase.start 0) () (MotionBase.start 0)
      (by norm_num [headOnWorld, linearWorld])).1 2 _ headOn_run⟩

/-- C3: on every return path of every variant, the early return included, the boolean returned
is true exactly when the `toc` written is strictly below 1. -/
theorem ret_iff_toc_lt_one (v : Variant) (W : World M Tf G1 G2 Sg) (o1 : G1)
    (motion1 : MotionBase M) (o2 : G2) (motion2 : MotionBase M) (fuel : Nat) (r : CAResult M)
    (h : conservativeAdvancement v W o1 motion1 o2 motion2 fuel = some r) :
    r.ret = true ↔ r.toc < 1 :=
  ret_iff_aux v W o1 motion1 o2 motion2 fuel r h

/-- Witness of C3: the grazing run returns `false` with `toc = 1`. -/
theorem ret_iff_toc_lt_one_witness :
    conservativeAdvancement .shape grazingWorld () (MotionBase.start 0) () (MotionBase.start 0) 2
      = some { ret := false, toc := 1, motion1 := ⟨1, [1]⟩, motion2 := ⟨1, [1]⟩,
               traversals := 2 } ∧
    (false = true ↔ (1 : ℚ) < 1) :=
  ⟨grazing_run, ret_iff_toc_lt_one .shape grazingWorld () (MotionBase.start 0) ()
    (MotionBase.start 0) 2 _ grazing_run⟩

/-- C4: in every variant, when the static test at the entry transforms reports a collision the
call returns `true` with `toc = 0` whatever the fuel (even none), having run no traversal and
leaving both motions as they were, no `integrate` call recorded. -/
theorem initial_overlap (v : Variant) (W : World M Tf G1 G2 Sg) (o1 : G1)
    (motion1 : MotionBase M) (o2 : G2) (motion2 : MotionBase M)
    (h : W.collide o1 (motion1.getCurrentTransform W) o2 (motion2.getCurrentTransform W) = true)
    (fuel : Nat) :
    conservativeAdvancement v W o1 motion1 o2 motion2 fuel
      = some { ret := true, toc := 0, motion1 := motion1, motion2 := motion2,
               traversals := 0 } := by
  rw [conservativeAdvancement_eq, if_pos h]; rfl

/-- Witness of C4: two objects with no gap at the entry pose. -/
theorem initial_overlap_witness :
    overlapWorld.collide () ((MotionBase.start (0 : ℚ)).getCurrentTransform overlapWorld) ()
        ((MotionBase.start (0 : ℚ)).getCurrentTransform overlapWorld) = true ∧
    conservativeAdvancement .meshShape overlapWorld () (MotionBase.start 0) ()
        (MotionBase.start 0) 0
      = some { ret := true, toc := 0, motion1 := MotionBase.start 0,
               motion2 := MotionBase.start 0, traversals := 0 } :=
  ⟨by simp [overlapWorld, linearWorld, MotionBase.start, MotionBase.getCurrentTransform],
   initial_overlap .meshShape overlapWorld () (MotionBase.start 0) () (MotionBase.start 0)
    (by simp [overlapWorld, linearWorld, MotionBase.start, MotionBase.getCurrentTransform]) 0⟩

/-- C5: for every variant and every tolerance `t_err > 0`, whatever the traversals leave in
`delta_t`, the loop terminates: the call returns within `⌈1 / t_err⌉` outer iterations, the
number of traversals it performs is at most `⌈1 / t_err⌉`, and every run that returns returns
that same result; the reason is that every pass that does not break increases `toc` by more
than `t_err`. -/
theorem termination_bound (v : Variant) (W : World M Tf G1 G2 Sg) (o1 : G1)
    (motion1 : MotionBase M) (o2 : G2) (motion2 : MotionBase M) (ht : 0 < W.t_err) :
    (∃ r, conservativeAdvancement v W o1 motion1 o2 motion2 ⌈1 / W.t_err⌉₊ = some r ∧
        r.traversals ≤ ⌈1 / W.t_err⌉₊ ∧
        ∀ fuel r', conservativeAdvancement v W o1 motion1 o2 motion2 fuel = some r' → r' = r) ∧
    (∀ s : CAState M Tf G1 G2 Sg, (loopBody v W s).2 = false →
        s.node.toc + s.node.t_err < (loopBody v W s).1.node.toc) := by
  refine ⟨?_, fun s hb => (advance_gt_t_err v W s hb).1⟩
  obtain ⟨e0, e1, -, -, e4⟩ := loopEntry_node v W o1 motion1 o2 motion2
  have hN : 0 < ⌈1 / W.t_err⌉₊ := Nat.ceil_pos.mpr (one_div_pos.mpr ht)
  obtain ⟨sf, hsf⟩ := doWhile_terminates (loopBody v W) (fun s => s.node.t_err = W.t_err)
    (fun s => ⌈(1 - s.node.toc) / W.t_err⌉₊ - 1) (fun s hs hb => measure_decreases v W ht s hs hb)
    ⌈1 / W.t_err⌉₊ (loopEntry v W o1 motion1 o2 motion2) e1
    (by simp only [e0, sub_zero]; omega)
  have hcount := doWhile_traversals v W _ _ _ hsf
  rw [e4, zero_add] at hcount
  by_cases hc : W.collide o1 (motion1.getCurrentTransform W) o2 (motion2.getCurrentTransform W)
  · refine ⟨earlyReturn motion1 motion2, ?_, Nat.zero_le _, ?_⟩
    · rw [conservativeAdvancement_eq, if_pos hc]
    · intro fuel r' h
      rw [conservativeAdvancement_eq, if_pos hc] at h
      cases h; rfl
  · refine ⟨sf.exit, ?_, hcount, ?_⟩
    · rw [conservativeAdvancement_eq, if_neg hc, hsf]; rfl
    · intro fuel r' h
      rw [conservativeAdvancement_eq, if_neg hc] at h
      obtain ⟨s', hs', rfl⟩ := Option.map_eq_some'.mp h
      rcases le_total fuel ⌈1 / W.t_err⌉₊ with hle | hle
      · have := doWhile_mono _ _ _ _ _ hs' hle
        rw [hsf] at this; cases this; rfl
      · have := doWhile_mono _ _ _ _ _ hsf hle
        rw [hs'] at this; cases this; rfl

/-- Witness of C5: with tolerance `1/2` the bound is two traversals. -/
theorem termination_bound_witness :
    (0 : ℚ) < halfTolWorld.t_err ∧
    ((∃ r, conservativeAdvancement .shape halfTolWorld () (MotionBase.start 0) ()
          (MotionBase.start 0) ⌈1 / halfTolWorld.t_err⌉₊ = some r ∧
        r.traversals ≤ ⌈1 / halfTolWorld.t_err⌉₊ ∧
        ∀ fuel r', conservativeAdvancement .shape halfTolWorld () (MotionBase.start 0) ()
          (MotionBase.start 0) fuel = some r' → r' = r) ∧
     (∀ s : CAState Nat Unit Unit Unit Unit, (loopBody .shape halfTolWorld s).2 = false →
        s.node.toc + s.node.t_err < (loopBody .shape halfTolWorld s).1.node.toc)) :=
  ⟨by norm_num [halfTolWorld, scriptWorld],
   termination_bound .shape halfTolWorld () (MotionBase.start 0) () (MotionBase.start 0)
    (by norm_num [halfTolWorld, scriptWorld])⟩

/-- Counterexample to C6 as stated: in the grazing scenario the second traversal finds
`delta_t = 0 ≤ t_err` with `toc = 1`, the loop leaves through the convergence test, and the
query returns `false`. -/
theorem convergence_exit_counterexample :
    (stateAt (loopBody .shape grazingWorld) 1
        (loopEntry .shape grazingWorld () (MotionBase.start 0) () (MotionBase.start 0))).map
      (fun s => (s.node.toc, (loopBody .shape grazingWorld s).1.node.delta_t,
        decide ((loopBody .shape grazingWorld s).1.node.delta_t ≤ s.node.t_err)))
      = some (1, 0, true) ∧
    conservativeAdvancement .shape grazingWorld () (MotionBase.start 0) () (MotionBase.start 0) 2
      = some { ret := false, toc := 1, motion1 := ⟨1, [1]⟩, motion2 := ⟨1, [1]⟩,
               traversals := 2 } := by
  refine ⟨?_, grazing_run⟩
  obtain ⟨h1, h2, h3, h4⟩ := grazing_first
  simp only [stateAt, h1, Bool.false_eq_true, if_false, Option.map_some', h2, h3, h4]
  norm_num

/-- C6, as the code has it: in every variant, when the loop leaves through the convergence test
(the traversal of iteration `k` left `delta_t ≤ t_err`) the call returns, as soon as the fuel
covers that iteration, the `toc` accumulated before that iteration, with the motions as they
were, and reports a collision exactly when that `toc` is below 1. -/
theorem convergence_exit (v : Variant) (W : World M Tf G1 G2 Sg) (o1 : G1)
    (motion1 : MotionBase M) (o2 : G2) (motion2 : MotionBase M)
    (hc : W.collide o1 (motion1.getCurrentTransform W) o2 (motion2.getCurrentTransform W) = false)
    (k : Nat) (s : CAState M Tf G1 G2 Sg)
    (hk : stateAt (loopBody v W) k (loopEntry v W o1 motion1 o2 motion2) = some s)
    (hconv : (loopBody v W s).1.node.delta_t ≤ s.node.t_err) (fuel : Nat) (hf : k < fuel) :
    conservativeAdvancement v W o1 motion1 o2 motion2 fuel
      = some { ret := decide (s.node.toc < 1), toc := s.node.toc, motion1 := s.node.motion1,
               motion2 := s.node.motion2, traversals := s.traversals + 1 } := by
  obtain ⟨-, htr, hcase⟩ := loopBody_spec v W s
  rw [if_pos hconv] at hcase
  rw [result_of_break v W o1 motion1 o2 motion2 hc k s hk hcase.1 fuel hf]
  simp [CAState.exit, htr, hcase.2.1, hcase.2.2.1, hcase.2.2.2]

/-- Witness of the amended C6: the grazing run leaves through the convergence test on its
second pass and returns `toc < 1` evaluated at `toc = 1`. -/
theorem convergence_exit_witness :
    ∃ s, grazingWorld.collide () ((MotionBase.start (0 : ℚ)).getCurrentTransform grazingWorld) ()
        ((MotionBase.start (0 : ℚ)).getCurrentTransform grazingWorld) = false ∧
      stateAt (loopBody .shape grazingWorld) 1
        (loopEntry .shape grazingWorld () (MotionBase.start 0) () (MotionBase.start 0)) = some s ∧
      (loopBody .shape grazingWorld s).1.node.delta_t ≤ s.node.t_err ∧
      conservativeAdvancement .shape grazingWorld () (MotionBase.start 0) ()
          (MotionBase.start 0) 2
        = some { ret := decide (s.node.toc < 1), toc := s.node.toc, motion1 := s.node.motion1,
                 motion2 := s.node.motion2, traversals := s.traversals + 1 } := by
  obtain ⟨h1, h2, h3, h4⟩ := grazing_first
  have hc : grazingWorld.collide ()
      ((MotionBase.start (0 : ℚ)).getCurrentTransform grazingWorld) ()
      ((MotionBase.start (0 : ℚ)).getCurrentTransform grazingWorld) = false := by
    simp [grazingWorld, linearWorld, MotionBase.start, MotionBase.getCurrentTransform]
  have hk : stateAt (loopBody .shape grazingWorld) 1
      (loopEntry .shape grazingWorld () (MotionBase.start 0) () (MotionBase.start 0))
      = some (loopBody .shape grazingWorld
          (loopEntry .shape grazingWorld () (MotionBase.start 0) () (MotionBase.start 0))).1 := by
    simp [stateAt, h1]
  have hconv : (loopBody .shape grazingWorld (loopBody .shape grazingWorld
      (loopEntry .shape grazingWorld () (MotionBase.start 0) () (MotionBase.start 0))).1
        ).1.node.delta_t ≤ (loopBody .shape grazingWorld
      (loopEntry .shape grazingWorld () (MotionBase.start 0) () (MotionBase.start 0))).1.node.t_err :=
    by rw [h3, h4]; norm_num
  exact ⟨_, hc, hk, hconv, convergence_exit .shape grazingWorld () (MotionBase.start 0) ()
    (MotionBase.start 0) hc 1 _ hk hconv 2 (by norm_num)⟩

/-- C7: in every variant, if on iteration `k` the traversal leaves `delta_t > t_err` and
`toc + delta_t > 1`, the loop stops with that pass: as soon as the fuel covers the iteration the
call returns `false` with `toc` exactly 1, and both motions are as they were at the start of
the iteration, so `integrate` was not called for that step. -/
theorem clamp_exit (v : Variant) (W : World M Tf G1 G2 Sg) (o1 : G1)
    (motion1 : MotionBase M) (o2 : G2) (motion2 : MotionBase M)
    (hc : W.collide o1 (motion1.getCurrentTransform W) o2 (motion2.getCurrentTransform W) = false)
    (k : Nat) (s : CAState M Tf G1 G2 Sg)
    (hk : stateAt (loopBody v W) k (loopEntry v W o1 motion1 o2 motion2) = some s)
    (hgt : s.node.t_err < (loopBody v W s).1.node.delta_t)
    (hover : 1 < s.node.toc + (loopBody v W s).1.node.delta_t) (fuel : Nat) (hf : k < fuel) :
    conservativeAdvancement v W o1 motion1 o2 motion2 fuel
      = some { ret := false, toc := 1, motion1 := s.node.motion1, motion2 := s.node.motion2,
               traversals := s.traversals + 1 } := by
  obtain ⟨-, htr, hcase⟩ := loopBody_spec v W s
  rw [if_neg (not_le.mpr hgt), if_pos hover] at hcase
  rw [result_of_break v W o1 motion1 o2 motion2 hc k s hk hcase.1 fuel hf]
  simp [CAState.exit, htr, hcase.2.1, hcase.2.2.1, hcase.2.2.2]

/-- Witness of C7: the second pass of the static run starts at `toc = 1` with a step of 1. -/
theorem clamp_exit_witness :
    ∃ s, staticWorld.collide () ((MotionBase.start (0 : ℚ)).getCurrentTransform staticWorld) ()
        ((MotionBase.start (0 : ℚ)).getCurrentTransform staticWorld) = false ∧
      stateAt (loopBody .meshOriented staticWorld) 1
        (loopEntry .meshOriented staticWorld () (MotionBase.start 0) () (MotionBase.start 0))
        = some s ∧
      s.node.t_err < (loopBody .meshOriented staticWorld s).1.node.delta_t ∧
      1 < s.node.toc + (loopBody .meshOriented staticWorld s).1.node.delta_t ∧
      conservativeAdvancement .meshOriented staticWorld () (MotionBase.start 0) ()
          (MotionBase.start 0) 2
        = some { ret := false, toc := 1, motion1 := s.node.motion1, motion2 := s.node.motion2,
                 traversals := s.traversals + 1 } := by
  obtain ⟨-, -, -, h4, h5, h6⟩ := static_first
  have hgt : (loopBody .meshOriented staticWorld
      (loopEntry .meshOriented staticWorld () (MotionBase.start 0) ()
        (MotionBase.start 0))).1.node.t_err < (loopBody .meshOriented staticWorld
      (loopBody .meshOriented staticWorld
        (loopEntry .meshOriented staticWorld () (MotionBase.start 0) ()
          (MotionBase.start 0))).1).1.node.delta_t := by rw [h5, h6]; norm_num
  have hover : 1 < (loopBody .meshOriented staticWorld
      (loopEntry .meshOriented staticWorld () (MotionBase.start 0) ()
        (MotionBase.start 0))).1.node.toc + (loopBody .meshOriented staticWorld
      (loopBody .meshOriented staticWorld
        (loopEntry .meshOriented staticWorld () (MotionBase.start 0) ()
          (MotionBase.start 0))).1).1.node.delta_t := by rw [h4, h6]; norm_num
  exact ⟨_, static_no_hit, static_second, hgt, hover,
    clamp_exit .meshOriented staticWorld () (MotionBase.start 0) () (MotionBase.start 0)
      static_no_hit 1 _ static_second hgt hover 2 (by norm_num)⟩

/-- Counterexample to C8 as stated: two objects one unit apart that do not move (distance
positive, motion bound zero).  The first traversal leaves `delta_t` at its reset value 1, yet
the pass does not break and `toc` does not stay at 0: it becomes 1, a second traversal runs,
and the query returns `toc = 1`. -/
theorem degenerate_motion_counterexample :
    (loopEntry .meshOriented staticWorld () (MotionBase.start 0) () (MotionBase.start 0)).node.toc
        = 0 ∧
    (loopBody .meshOriented staticWorld
      (loopEntry .meshOriented staticWorld () (MotionBase.start 0) ()
        (MotionBase.start 0))).1.node.delta_t = 1 ∧
    (loopBody .meshOriented staticWorld
      (loopEntry .meshOriented staticWorld () (MotionBase.start 0) ()
        (MotionBase.start 0))).2 = false ∧
    (loopBody .meshOriented staticWorld
      (loopEntry .meshOriented staticWorld () (MotionBase.start 0) ()
        (MotionBase.start 0))).1.node.toc = 1 ∧
    conservativeAdvancement .meshOriented staticWorld () (MotionBase.start 0) ()
        (MotionBase.start 0) 2
      = some { ret := false, toc := 1, motion1 := ⟨1, [1]⟩, motion2 := ⟨1, [1]⟩,
               traversals := 2 } :=
  ⟨static_first.1, static_first.2.1, static_first.2.2.1, static_first.2.2.2.1, static_run⟩

/-- C8, as the code has it: in every variant, when the traversal of iteration `k` leaves
`delta_t` at its reset value 1 and `0 ≤ t_err < 1`, the query does return `false`, but `toc`
is not kept: it is 1 on return.  From `toc > 0` the loop leaves in that pass through the clamp.
From `toc = 0` the pass does not break: `toc` advances to 1, both motions are integrated to 1,
and the loop leaves in the next pass.  Only with `t_err ≥ 1` does the loop break with `toc`
unchanged, and the call then returns `toc < 1`. -/
theorem reset_step_outcome (v : Variant) (W : World M Tf G1 G2 Sg) (o1 : G1)
    (motion1 : MotionBase M) (o2 : G2) (motion2 : MotionBase M)
    (hc : W.collide o1 (motion1.getCurrentTransform W) o2 (motion2.getCurrentTransform W) = false)
    (k : Nat) (s : CAState M Tf G1 G2 Sg)
    (hk : stateAt (loopBody v W) k (loopEntry v W o1 motion1 o2 motion2) = some s)
    (hd : (loopBody v W s).1.node.delta_t = 1) :
    (s.node.t_err < 1 → 0 < s.node.toc → ∀ fuel, k < fuel →
      conservativeAdvancement v W o1 motion1 o2 motion2 fuel
        = some { ret := false, toc := 1, motion1 := s.node.motion1, motion2 := s.node.motion2,
                 traversals := s.traversals + 1 }) ∧
    (0 ≤ s.node.t_err → s.node.t_err < 1 → s.node.toc = 0 →
      (loopBody v W s).2 = false ∧ (loopBody v W s).1.node.toc = 1 ∧
      (loopBody v W s).1.node.motion1 = s.node.motion1.integrate W 1 ∧
      (loopBody v W s).1.node.motion2 = s.node.motion2.integrate W 1 ∧
      ∀ fuel, k + 1 < fuel →
        ∃ r, conservativeAdvancement v W o1 motion1 o2 motion2 fuel = some r ∧
          r.ret = false ∧ r.toc = 1) ∧
    (1 ≤ s.node.t_err → ∀ fuel, k < fuel →
      conservativeAdvancement v W o1 motion1 o2 motion2 fuel
        = some { ret := decide (s.node.toc < 1), toc := s.node.toc, motion1 := s.node.motion1,
                 motion2 := s.node.motion2, traversals := s.traversals + 1 }) := by
  obtain ⟨hte, htr, hcase⟩ := loopBody_spec v W s
  rw [hd] at hcase
  refine ⟨fun ht hpos fuel hf => ?_, fun ht0 ht h0 => ?_, fun ht fuel hf => ?_⟩
  · rw [if_neg (not_le.mpr ht), if_pos (by linarith)] at hcase
    rw [result_of_break v W o1 motion1 o2 motion2 hc k s hk hcase.1 fuel hf]
    simp [CAState.exit, htr, hcase.2.1, hcase.2.2.1, hcase.2.2.2]
  · rw [if_neg (not_le.mpr ht), if_neg (by linarith), h0, zero_add] at hcase
    refine ⟨hcase.1, hcase.2.1, hcase.2.2.1, hcase.2.2.2, fun fuel hf => ?_⟩
    have hk' := stateAt_succ _ k _ s hk hcase.1
    obtain ⟨-, -, hnext⟩ := loopBody_spec v W (loopBody v W s).1
    rw [hcase.2.1, hte] at hnext
    have hbreak : (loopBody v W (loopBody v W s).1).2 = true ∧
        (loopBody v W (loopBody v W s).1).1.node.toc = 1 := by
      split_ifs at hnext with h1 h2
      · exact ⟨hnext.1, hnext.2.1⟩
      · exact ⟨hnext.1, hnext.2.1⟩
      · exact absurd (by linarith : (loopBody v W (loopBody v W s).1).1.node.delta_t
          ≤ s.node.t_err) h1
    refine ⟨_, result_of_break v W o1 motion1 o2 motion2 hc (k + 1) _ hk' hbreak.1 fuel hf, ?_, ?_⟩
    · simp [CAState.exit, hbreak.2]
    · simp [CAState.exit, hbreak.2]
  · rw [if_pos ht] at hcase
    rw [result_of_break v W o1 motion1 o2 motion2 hc k s hk hcase.1 fuel hf]
    simp [CAState.exit, htr, hcase.2.1, hcase.2.2.1, hcase.2.2.2]

/-- Witness of the amended C8: the static run, whose first traversal leaves the reset step at
`toc = 0`, returns `false` with `toc = 1`. -/
theorem reset_step_outcome_witness :
    staticWorld.collide () ((MotionBase.start (0 : ℚ)).getCurrentTransform staticWorld) ()
        ((MotionBase.start (0 : ℚ)).getCurrentTransform staticWorld) = false ∧
    stateAt (loopBody .meshOriented staticWorld) 0
        (loopEntry .meshOriented staticWorld () (MotionBase.start 0) () (MotionBase.start 0))
      = some (loopEntry .meshOriented staticWorld () (MotionBase.start 0) ()
          (MotionBase.start 0)) ∧
    (loopBody .meshOriented staticWorld
      (loopEntry .meshOriented staticWorld () (MotionBase.start 0) ()
        (MotionBase.start 0))).1.node.delta_t = 1 ∧
    ∃ r, conservativeAdvancement .meshOriented staticWorld () (MotionBase.start 0) ()
        (MotionBase.start 0) 2 = some r ∧ r.ret = false ∧ r.toc = 1 :=
  ⟨static_no_hit, rfl, static_first.2.1,
    ((reset_step_outcome .meshOriented staticWorld () (MotionBase.start 0) ()
      (MotionBase.start 0) static_no_hit 0 _ rfl static_first.2.1).2.1
      (by norm_num [loopEntry, plainEntry, Node.fresh, staticWorld, linearWorld])
      (by norm_num [loopEntry, plainEntry, Node.fresh, staticWorld, linearWorld])
      static_first.1).2.2.2.2 2 (by norm_num)⟩

/-- Counterexample to C9 as stated: with `t_err = 0` and `delta_t = 2^-(k+1)` on iteration
`k`, no amount of fuel makes the call return: the loop is never stopped by an iteration
count. -/
theorem iteration_guard_counterexample :
    ¬ ∃ n, (conservativeAdvancement .shape zenoWorld () (MotionBase.start 0) ()
      (MotionBase.start 0) n).isSome = true := by
  rintro ⟨n, hn⟩
  have hnone := doWhile_none_of_inv (loopBody .shape zenoWorld)
    (fun s => s.node.t_err = 0 ∧ s.node.toc = 1 - 1 / 2 ^ s.node.motion1.state)
    zeno_step n (loopEntry .shape zenoWorld () (MotionBase.start 0) () (MotionBase.start 0))
    (by norm_num [loopEntry, plainEntry, Node.fresh, zenoWorld, scriptWorld, MotionBase.start])
  rw [conservativeAdvancement_eq, hnone] at hn
  simp [zenoWorld, scriptWorld] at hn

/-- C9, as the code has it: the loops keep no iteration count.  In every variant a pass leaves
the loop exactly when the traversal left `delta_t ≤ t_err` or `toc + delta_t > 1`, whatever the
number of traversals so far, and a run none of whose first `n` passes meets either test has not
returned after `n` iterations. -/
theorem no_iteration_guard (v : Variant) (W : World M Tf G1 G2 Sg) (o1 : G1)
    (motion1 : MotionBase M) (o2 : G2) (motion2 : MotionBase M) :
    (∀ s : CAState M Tf G1 G2 Sg, (loopBody v W s).2 = true ↔
      ((loopBody v W s).1.node.delta_t ≤ s.node.t_err ∨
        1 < s.node.toc + (loopBody v W s).1.node.delta_t)) ∧
    (∀ n : Nat,
      W.collide o1 (motion1.getCurrentTransform W) o2 (motion2.getCurrentTransform W) = false →
      (∀ k s, k < n → stateAt (loopBody v W) k (loopEntry v W o1 motion1 o2 motion2) = some s →
        ¬ (loopBody v W s).1.node.delta_t ≤ s.node.t_err ∧
        ¬ 1 < s.node.toc + (loopBody v W s).1.node.delta_t) →
      conservativeAdvancement v W o1 motion1 o2 motion2 n = none) := by
  have hiff : ∀ s : CAState M Tf G1 G2 Sg, (loopBody v W s).2 = true ↔
      ((loopBody v W s).1.node.delta_t ≤ s.node.t_err ∨
        1 < s.node.toc + (loopBody v W s).1.node.delta_t) := by
    intro s
    obtain ⟨-, -, hcase⟩ := loopBody_spec v W s
    split_ifs at hcase with h1 h2
    · exact ⟨fun _ => Or.inl h1, fun _ => hcase.1⟩
    · exact ⟨fun _ => Or.inr h2, fun _ => hcase.1⟩
    · rw [hcase.1]
      exact ⟨fun h => Bool.noConfusion h, fun h => (h.elim h1 h2).elim⟩
  refine ⟨hiff, fun n hc hrun => ?_⟩
  have hreach : ∀ m, m ≤ n →
      ∃ s, stateAt (loopBody v W) m (loopEntry v W o1 motion1 o2 motion2) = some s := by
    intro m
    induction m with
    | zero => exact fun _ => ⟨_, rfl⟩
    | succ m ih =>
      intro hm
      obtain ⟨s, hs⟩ := ih (by omega)
      have hno := hrun m s (by omega) hs
      have hb : (loopBody v W s).2 = false := by
        cases hbs : (loopBody v W s).2
        · rfl
        · exact ((hiff s).mp hbs).elim (fun h => absurd h hno.1) (fun h => absurd h hno.2)
      exact ⟨_, stateAt_succ _ m _ s hs hb⟩
  obtain ⟨s, hs⟩ := hreach n (le_refl n)
  rw [conservativeAdvancement_eq, hc, doWhile_none_of_stateAt _ n _ s hs]
  simp

/-- C10: each of the four dispatch handlers returns exactly when the loop it calls returns, and
then `result.is_collide` is the boolean the loop returned, `result.time_of_contact` is the
`toc` it wrote, the handler's return value equals `result.time_of_contact`, and
`result.is_collide` is true exactly when `result.time_of_contact < 1`. -/
theorem handler_writes_result {Rq : Type} (bv : BVKind) (W : World M Tf G1 G2 Sg) (o1 : G1)
    (motion1 : MotionBase M) (o2 : G2) (motion2 : MotionBase M) (request : Rq)
    (result : ContinuousCollisionResult) (fuel : Nat) :
    (BVHConservativeAdvancement bv W o1 motion1 o2 motion2 request result fuel
        = (conservativeAdvancement bv.meshVariant W o1 motion1 o2 motion2 fuel).map
            (fun r => { ret := r.toc,
                        result := { is_collide := r.ret, time_of_contact := r.toc }, ca := r }) ∧
      ∀ out, BVHConservativeAdvancement bv W o1 motion1 o2 motion2 request result fuel = some out →
        out.ret = out.result.time_of_contact ∧
        (out.result.is_collide = true ↔ out.result.time_of_contact < 1)) ∧
    (ShapeConservativeAdvancement W o1 motion1 o2 motion2 request result fuel
        = (conservativeAdvancement .shape W o1 motion1 o2 motion2 fuel).map
            (fun r => { ret := r.toc,
                        result := { is_collide := r.ret, time_of_contact := r.toc }, ca := r }) ∧
      ∀ out, ShapeConservativeAdvancement W o1 motion1 o2 motion2 request result fuel = some out →
        out.ret = out.result.time_of_contact ∧
        (out.result.is_collide = true ↔ out.result.time_of_contact < 1)) ∧
    (ShapeBVHConservativeAdvancement bv W o1 motion1 o2 motion2 request result fuel
        = (conservativeAdvancement bv.shapeMeshVariant W o1 motion1 o2 motion2 fuel).map
            (fun r => { ret := r.toc,
                        result := { is_collide := r.ret, time_of_contact := r.toc }, ca := r }) ∧
      ∀ out, ShapeBVHConservativeAdvancement bv W o1 motion1 o2 motion2 request result fuel
          = some out →
        out.ret = out.result.time_of_contact ∧
        (out.result.is_collide = true ↔ out.result.time_of_contact < 1)) ∧
    (BVHShapeConservativeAdvancement bv W o1 motion1 o2 motion2 request result fuel
        = (conservativeAdvancement bv.meshShapeVariant W o1 motion1 o2 motion2 fuel).map
            (fun r => { ret := r.toc,
                        result := { is_collide := r.ret, time_of_contact := r.toc }, ca := r }) ∧
      ∀ out, BVHShapeConservativeAdvancement bv W o1 motion1 o2 motion2 request result fuel
          = some out →
        out.ret = out.result.time_of_contact ∧
        (out.result.is_collide = true ↔ out.result.time_of_contact < 1)) := by
  have key : ∀ (v : Variant) (h : Option (HandlerOut M)),
      h = (conservativeAdvancement v W o1 motion1 o2 motion2 fuel).map
            (fun r => { ret := r.toc,
                        result := { is_collide := r.ret, time_of_contact := r.toc }, ca := r }) →
      ∀ out, h = some out → out.ret = out.result.time_of_contact ∧
        (out.result.is_collide = true ↔ out.result.time_of_contact < 1) := by
    intro v h hh out hout
    rw [hh] at hout
    obtain ⟨r, hr, rfl⟩ := Option.map_eq_some'.mp hout
    exact ⟨rfl, ret_iff_aux v W o1 motion1 o2 motion2 fuel r hr⟩
  have e1 : BVHConservativeAdvancement bv W o1 motion1 o2 motion2 request result fuel
      = (conservativeAdvancement bv.meshVariant W o1 motion1 o2 motion2 fuel).map
          (fun r => { ret := r.toc,
                      result := { is_collide := r.ret, time_of_contact := r.toc }, ca := r }) := by
    unfold BVHConservativeAdvancement
    cases conservativeAdvancement bv.meshVariant W o1 motion1 o2 motion2 fuel <;> rfl
  have e2 : ShapeConservativeAdvancement W o1 motion1 o2 motion2 request result fuel
      = (conservativeAdvancement .shape W o1 motion1 o2 motion2 fuel).map
          (fun r => { ret := r.toc,
                      result := { is_collide := r.ret, time_of_contact := r.toc }, ca := r }) := by
    unfold ShapeConservativeAdvancement
    cases conservativeAdvancement .shape W o1 motion1 o2 motion2 fuel <;> rfl
  have e3 : ShapeBVHConservativeAdvancement bv W o1 motion1 o2 motion2 request result fuel
      = (conservativeAdvancement bv.shapeMeshVariant W o1 motion1 o2 motion2 fuel).map
          (fun r => { ret := r.toc,
                      result := { is_collide := r.ret, time_of_contact := r.toc }, ca := r }) := by
    unfold ShapeBVHConservativeAdvancement
    cases conservativeAdvancement bv.shapeMeshVariant W o1 motion1 o2 motion2 fuel <;> rfl
  have e4 : BVHShapeConservativeAdvancement bv W o1 motion1 o2 motion2 request result fuel
      = (conservativeAdvancement bv.meshShapeVariant W o1 motion1 o2 motion2 fuel).map
          (fun r => { ret := r.toc,
                      result := { is_collide := r.ret, time_of_contact := r.toc }, ca := r }) := by
    unfold BVHShapeConservativeAdvancement
    cases conservativeAdvancement bv.meshShapeVariant W o1 motion1 o2 motion2 fuel <;> rfl
  exact ⟨⟨e1, key _ _ e1⟩, ⟨e2, key _ _ e2⟩, ⟨e3, key _ _ e3⟩, ⟨e4, key _ _ e4⟩⟩

/-! ## Lemmas on the dispatch matrix -/

/-- A lookup in a matrix after a run of assignments, entry by entry. -/
theorem set_foldl (l : List (NODE_TYPE × NODE_TYPE × HandlerRef)) :
    ∀ (m0 : FunctionMatrix) (x y : Nat),
      (l.foldl (fun m a => m.set a.1.val a.2.1.val (some a.2.2)) m0) x y
        = l.foldl (fun r a => if x = a.1.val ∧ y = a.2.1.val then some a.2.2 else r)
            (m0 x y) := by
  induction l with
  | nil => intro m0 x y; rfl
  | cons a l ih =>
    intro m0 x y
    simp only [List.foldl_cons]
    rw [ih]
    rfl

/-- The inner `for` loop stores `NULL` in the first `n` entries of row `i`. -/
theorem clear_inner (i : Nat) : ∀ (n : Nat) (m : FunctionMatrix) (a b : Nat),
    ((List.range n).foldl (fun m j => m.set i j none) m) a b
      = if a = i ∧ b < n then none else m a b := by
  intro n
  induction n with
  | zero => intro m a b; simp
  | succ n ih =>
    intro m a b
    rw [List.range_succ, List.foldl_append]
    simp only [List.foldl_cons, List.foldl_nil, FunctionMatrix.set]
    rw [ih]
    split_ifs <;> first | rfl | (exfalso; omega)

/-- The two nested `for` loops store `NULL` in the first `n` entries of the first `k` rows. -/
theorem clear_outer (n : Nat) : ∀ (k : Nat) (m : FunctionMatrix) (a b : Nat),
    ((List.range k).foldl
      (fun m i => (List.range n).foldl (fun m j => m.set i j none) m) m) a b
      = if a < k ∧ b < n then none else m a b := by
  intro k
  induction k with
  | zero => intro m a b; simp
  | succ k ih =>
    intro m a b
    rw [List.range_succ, List.foldl_append]
    simp only [List.foldl_cons, List.foldl_nil]
    rw [clear_inner, ih]
    split_ifs <;> first | rfl | (exfalso; omega)

theorem val_lt (i : NODE_TYPE) : i.val < NODE_COUNT := by
  cases i <;> decide

/-- A lookup in a constructed matrix is the last assignment to that entry, null if there is
none, whatever the memory the matrix was constructed in. -/
theorem lookup_fold (ns : Solver) (m : FunctionMatrix) (i j : NODE_TYPE) :
    lookup ns m i j = (matrixAssignments ns).foldl
      (fun r a => if i.val = a.1.val ∧ j.val = a.2.1.val then some a.2.2 else r) none := by
  unfold lookup ConservativeAdvancementFunctionMatrix
  rw [set_foldl]
  unfold FunctionMatrix.clear
  rw [clear_outer, if_pos ⟨val_lt i, val_lt j⟩]

set_option maxRecDepth 100000 in
/-- The assignments of the source, entry by entry, give the closed form. -/
theorem table_fold (ns : Solver) : ∀ i j : NODE_TYPE, (matrixAssignments ns).foldl
      (fun r a => if i.val = a.1.val ∧ j.val = a.2.1.val then some a.2.2 else r) none
      = tableEntry ns i j := by
  cases ns <;> decide!

/-- Every entry of a constructed matrix, whatever the memory it was constructed in, is the one
of the closed form. -/
theorem lookup_eq (ns : Solver) (m : FunctionMatrix) (i j : NODE_TYPE) :
    lookup ns m i j = tableEntry ns i j := by
  rw [lookup_fold, table_fold]

theorem toShape_nodeType (s : Shape) : s.nodeType.toShape = some s := by
  cases s <;> rfl

theorem toBV_nodeType (b : BVKind) : b.nodeType.toBV = some b := by
  cases b <;> rfl

theorem toBV_shape (s : Shape) : s.nodeType.toBV = none := by
  cases s <;> rfl

theorem toShape_bv (b : BVKind) : b.nodeType.toShape = none := by
  cases b <;> rfl

/-! ## The claims on the dispatch matrix -/

/-- C12: for every pair of shape node types among `GEOM_BOX`, `GEOM_SPHERE`, `GEOM_CAPSULE`,
`GEOM_CONE`, `GEOM_CYLINDER`, `GEOM_CONVEX`, `GEOM_PLANE`, `GEOM_HALFSPACE`, which are the tags
of the eight shape classes, the entry of the constructed matrix is not null and is
`ShapeConservativeAdvancement` instantiated with the class of the row as first type and the
class of the column as second type. -/
theorem shape_dispatch (ns : Solver) (m : FunctionMatrix) :
    (∀ s1 s2 : Shape, lookup ns m s1.nodeType s2.nodeType
        = some (.ShapeConservativeAdvancement s1 s2 ns)) ∧
    (∀ i : NODE_TYPE, i ∈ [NODE_TYPE.GEOM_BOX, .GEOM_SPHERE, .GEOM_CAPSULE, .GEOM_CONE,
        .GEOM_CYLINDER, .GEOM_CONVEX, .GEOM_PLANE, .GEOM_HALFSPACE] ↔
      ∃ s : Shape, s.nodeType = i) := by
  refine ⟨fun s1 s2 => ?_, by decide⟩
  rw [lookup_eq]
  simp [tableEntry, toShape_nodeType]

/-- C13: for every BV node type `b` of the eight kinds and every shape node type `s` of the
eight shapes, `matrix[b][s]` is `BVHShapeConservativeAdvancement` instantiated with (kind of
`b`, class of `s`) and `matrix[s][b]` is `ShapeBVHConservativeAdvancement` instantiated with
(class of `s`, kind of `b`): none of the 128 entries is null, swapped or mismatched. -/
theorem mesh_shape_dispatch (ns : Solver) (m : FunctionMatrix) :
    (∀ (b : BVKind) (s : Shape),
      lookup ns m b.nodeType s.nodeType = some (.BVHShapeConservativeAdvancement b s ns) ∧
      lookup ns m s.nodeType b.nodeType = some (.ShapeBVHConservativeAdvancement s b ns)) ∧
    (∀ i : NODE_TYPE, i ∈ [NODE_TYPE.BV_AABB, .BV_OBB, .BV_RSS, .BV_kIOS, .BV_OBBRSS,
        .BV_KDOP16, .BV_KDOP18, .BV_KDOP24] ↔ ∃ b : BVKind, b.nodeType = i) := by
  refine ⟨fun b s => ?_, by decide⟩
  rw [lookup_eq, lookup_eq]
  simp [tableEntry, toShape_nodeType, toBV_nodeType, toBV_shape, toShape_bv]

/-- Counterexample to C14 as stated: the entry for an AABB mesh against an OBB mesh is null. -/
theorem mesh_dispatch_counterexample :
    lookup .GJKSolver_libccd (fun _ _ => none) .BV_AABB .BV_OBB = none := by
  rw [lookup_eq]; rfl

/-- C14, as the code has it: for every BVH node type `b` the diagonal entry `matrix[b][b]` is
the mesh-mesh handler `BVHConservativeAdvancement` instantiated with the kind of `b`; for two
different BVH node types the entry is null. -/
theorem mesh_dispatch (ns : Solver) (m : FunctionMatrix) (b1 b2 : BVKind) :
    lookup ns m b1.nodeType b2.nodeType
      = if b1 = b2 then some (.BVHConservativeAdvancement b1 ns) else none := by
  rw [lookup_eq]
  simp [tableEntry, toShape_nodeType, toBV_nodeType, toBV_shape, toShape_bv]

/-- C15: after construction every entry whose row or column is `BV_UNKNOWN`, `GEOM_ELLIPSOID`,
`GEOM_TRIANGLE` or `GEOM_OCTREE` is null. -/
theorem unsupported_absent (ns : Solver) (m : FunctionMatrix) (i j : NODE_TYPE)
    (h : i ∈ [NODE_TYPE.BV_UNKNOWN, .GEOM_ELLIPSOID, .GEOM_TRIANGLE, .GEOM_OCTREE] ∨
         j ∈ [NODE_TYPE.BV_UNKNOWN, .GEOM_ELLIPSOID, .GEOM_TRIANGLE, .GEOM_OCTREE]) :
    lookup ns m i j = none := by
  rw [lookup_eq]
  revert h
  cases i <;> cases j <;> simp [tableEntry, NODE_TYPE.toShape, NODE_TYPE.toBV]

/-- Witness of C15: a geometry with tag `GEOM_OCTREE` against a box. -/
theorem unsupported_absent_witness :
    (NODE_TYPE.GEOM_OCTREE ∈ [NODE_TYPE.BV_UNKNOWN, .GEOM_ELLIPSOID, .GEOM_TRIANGLE, .GEOM_OCTREE]
      ∨ NODE_TYPE.GEOM_BOX ∈ [NODE_TYPE.BV_UNKNOWN, .GEOM_ELLIPSOID, .GEOM_TRIANGLE,
          .GEOM_OCTREE]) ∧
    lookup .GJKSolver_indep (fun _ _ => none) .GEOM_OCTREE .GEOM_BOX = none :=
  ⟨by decide, unsupported_absent .GJKSolver_indep (fun _ _ => none) .GEOM_OCTREE .GEOM_BOX
    (by decide)⟩

set_option maxRecDepth 100000 in
/-- C16: dispatch is idempotent.  No entry is assigned twice after the null initialisation, the
constructor fixes every entry whatever the memory it runs on, and so two separately
constructed matrices for the same solver, or the same matrix constructed again, answer every
lookup alike. -/
theorem dispatch_idempotent (ns : Solver) :
    ((matrixAssignments ns).map (fun a => (a.1, a.2.1))).Nodup ∧
    (∀ (m m' : FunctionMatrix) (i j : NODE_TYPE), lookup ns m i j = lookup ns m' i j) ∧
    (∀ (m : FunctionMatrix) (i j : NODE_TYPE),
      lookup ns (ConservativeAdvancementFunctionMatrix ns m) i j = lookup ns m i j) := by
  refine ⟨?_, fun m m' i j => by rw [lookup_eq, lookup_eq], fun m i j => by
    rw [lookup_eq, lookup_eq]⟩
  simp only [matrixAssignments, shapeAssignments, bvhShapeAssignments, shapeBVHAssignments,
    bvhAssignments, assign, List.map, List.append_eq, List.cons_append, List.nil_append]
  decide

/-! ## Lemmas on runs in lockstep and on the integrate log -/

theorem calls_of_append (entry final : MotionBase M) (l : List ℚ)
    (h : final.integrated = entry.integrated ++ l) : calls entry final = l := by
  simp [calls, h]

theorem stateAt_rule_idx {S : Type} (body : S → S × Bool) (Inv : Nat → S → Prop)
    (hstep : ∀ k s, Inv k s → (body s).2 = false → Inv (k + 1) (body s).1) :
    ∀ (k j : Nat) (s0 s : S), Inv j s0 → stateAt body k s0 = some s → Inv (j + k) s := by
  intro k
  induction k with
  | zero => intro j s0 s h0 h; simp only [stateAt, Option.some.injEq] at h; exact h ▸ h0
  | succ k ih =>
    intro j s0 s h0 h
    rw [stateAt] at h
    split_ifs at h with hb
    have := ih (j + 1) _ s (hstep j s0 h0 (by simpa using hb)) h
    rwa [Nat.add_assoc, Nat.add_comm 1 k] at this

/-- Two loops in lockstep. -/
theorem doWhile_lockstep {S S' : Type} (body : S → S × Bool) (body' : S' → S' × Bool)
    (R : Nat → S → S' → Prop) (Post : S → S' → Prop)
    (hstep : ∀ k s s', R k s s' → (body s).2 = (body' s').2 ∧
      if (body s).2 then Post (body s).1 (body' s').1 else R (k + 1) (body s).1 (body' s').1) :
    ∀ (n k : Nat) (s : S) (s' : S'), R k s s' →
      (doWhile body n s = none ∧ doWhile body' n s' = none) ∨
      ∃ r r', doWhile body n s = some r ∧ doWhile body' n s' = some r' ∧ Post r r' := by
  intro n
  induction n with
  | zero => intro k s s' _; exact Or.inl ⟨rfl, rfl⟩
  | succ n ih =>
    intro k s s' hR
    obtain ⟨hb, hnext⟩ := hstep k s s' hR
    simp only [doWhile, ← hb]
    split_ifs at hnext ⊢ with hbs
    · exact Or.inr ⟨_, _, rfl, rfl, hnext⟩
    · exact ih (k + 1) _ _ hnext

theorem logged_step (v : Variant) (W : World M Tf G1 G2 Sg) (motion1 motion2 : MotionBase M)
    (s : CAState M Tf G1 G2 Sg) (l : List ℚ) (h : Logged motion1 motion2 s l) :
    if (loopBody v W s).2 then Logged motion1 motion2 (loopBody v W s).1 l
    else Logged motion1 motion2 (loopBody v W s).1 (l ++ [(loopBody v W s).1.node.toc]) := by
  obtain ⟨-, -, hcase⟩ := loopBody_spec v W s
  unfold Logged at h ⊢
  split_ifs at hcase with h1 h2
  · rw [hcase.1, if_pos rfl, hcase.2.2.1, hcase.2.2.2]; exact h
  · rw [hcase.1, if_pos rfl, hcase.2.2.1, hcase.2.2.2]; exact h
  · rw [hcase.1, if_neg Bool.false_ne_true, hcase.2.2.1, hcase.2.2.2, hcase.2.1]
    simp [MotionBase.integrate, h.1, h.2]

theorem inStep_step (v v' : Variant) (W : World M Tf G1 G2 Sg) (W' : World M' Tf' G1' G2' Sg')
    (motion1 motion2 : MotionBase M) (motion1' motion2' : MotionBase M')
    (s : CAState M Tf G1 G2 Sg) (s' : CAState M' Tf' G1' G2' Sg')
    (h : InStep motion1 motion2 motion1' motion2' s s')
    (hd : (loopBody v W s).1.node.delta_t = (loopBody v' W' s').1.node.delta_t) :
    (loopBody v W s).2 = (loopBody v' W' s').2 ∧
      InStep motion1 motion2 motion1' motion2' (loopBody v W s).1 (loopBody v' W' s').1 := by
  obtain ⟨htoc, hte, htr, l, hl, hl'⟩ := h
  obtain ⟨e1, t1, c1⟩ := loopBody_spec v W s
  obtain ⟨e2, t2, c2⟩ := loopBody_spec v' W' s'
  have g1 := logged_step v W motion1 motion2 s l hl
  have g2 := logged_step v' W' motion1' motion2' s' l hl'
  rw [← hd, ← htoc, ← hte] at c2
  have hb : (loopBody v W s).2 = (loopBody v' W' s').2 := by
    split_ifs at c1 c2 <;> rw [c1.1, c2.1]
  have ht : (loopBody v W s).1.node.toc = (loopBody v' W' s').1.node.toc := by
    split_ifs at c1 c2 <;> rw [c1.2.1, c2.2.1]
  refine ⟨hb, ht, by rw [e1, e2, hte], by rw [t1, t2, htr], ?_⟩
  rw [← hb, ← ht] at g2
  split_ifs at g1 g2
  · exact ⟨_, g1, g2⟩
  · exact ⟨_, g1, g2⟩

/-- Two runs with the same tolerance, the same answer of the entry test and the same `delta_t`
at every iteration return alike: same boolean, same `toc`, same number of traversals, same
arguments of `integrate` on each motion. -/
theorem lockstep_aux (v v' : Variant) (W : World M Tf G1 G2 Sg) (W' : World M' Tf' G1' G2' Sg')
    (o1 : G1) (motion1 : MotionBase M) (o2 : G2) (motion2 : MotionBase M)
    (o1' : G1') (motion1' : MotionBase M') (o2' : G2') (motion2' : MotionBase M')
    (ht : W.t_err = W'.t_err)
    (hentry : W.collide o1 (motion1.getCurrentTransform W) o2 (motion2.getCurrentTransform W)
      = W'.collide o1' (motion1'.getCurrentTransform W') o2' (motion2'.getCurrentTransform W'))
    (hstep : ∀ k s s', stateAt (loopBody v W) k (loopEntry v W o1 motion1 o2 motion2) = some s →
      stateAt (loopBody v' W') k (loopEntry v' W' o1' motion1' o2' motion2') = some s' →
      (loopBody v W s).1.node.delta_t = (loopBody v' W' s').1.node.delta_t)
    (fuel : Nat) :
    (conservativeAdvancement v W o1 motion1 o2 motion2 fuel).map
        (fun r => (r.ret, r.toc, r.traversals, calls motion1 r.motion1, calls motion2 r.motion2))
      = (conservativeAdvancement v' W' o1' motion1' o2' motion2' fuel).map
        (fun r => (r.ret, r.toc, r.traversals, calls motion1' r.motion1,
          calls motion2' r.motion2)) := by
  rw [conservativeAdvancement_eq, conservativeAdvancement_eq, hentry]
  split_ifs with hc
  · simp [earlyReturn, calls]
  · obtain ⟨a0, a1, a2, a3, a4⟩ := loopEntry_node v W o1 motion1 o2 motion2
    obtain ⟨b0, b1, b2, b3, b4⟩ := loopEntry_node v' W' o1' motion1' o2' motion2'
    have h0 : InStep motion1 motion2 motion1' motion2' (loopEntry v W o1 motion1 o2 motion2)
        (loopEntry v' W' o1' motion1' o2' motion2') :=
      ⟨by rw [a0, b0], by rw [a1, b1, ht], by rw [a4, b4], [],
        ⟨by rw [a2, List.append_nil], by rw [a3, List.append_nil]⟩,
        ⟨by rw [b2, List.append_nil], by rw [b3, List.append_nil]⟩⟩
    have := doWhile_lockstep (loopBody v W) (loopBody v' W')
      (fun k s s' => stateAt (loopBody v W) k (loopEntry v W o1 motion1 o2 motion2) = some s ∧
        stateAt (loopBody v' W') k (loopEntry v' W' o1' motion1' o2' motion2') = some s' ∧
        InStep motion1 motion2 motion1' motion2' s s')
      (InStep motion1 motion2 motion1' motion2')
      (fun k s s' hR => by
        obtain ⟨r1, r2, hin⟩ := hR
        obtain ⟨hb, hnext⟩ := inStep_step v v' W W' motion1 motion2 motion1' motion2' s s' hin
          (hstep k s s' r1 r2)
        refine ⟨hb, ?_⟩
        split_ifs with hbs
        · exact hnext
        · exact ⟨stateAt_succ _ k _ s r1 (by simpa using hbs),
            stateAt_succ _ k _ s' r2 (by rw [← hb]; simpa using hbs), hnext⟩)
      fuel 0 _ _ ⟨rfl, rfl, h0⟩
    rcases this with ⟨n1, n2⟩ | ⟨r, r', e1, e2, htoc, -, htr, l, hl, hl'⟩
    · rw [n1, n2]; rfl
    · rw [e1, e2]
      simp only [Option.map_some', CAState.exit, Option.some.injEq, Prod.mk.injEq]
      exact ⟨by rw [htoc], htoc, htr,
        (calls_of_append _ _ l hl.1).trans (calls_of_append _ _ l hl'.1).symm,
        (calls_of_append _ _ l hl.2).trans (calls_of_append _ _ l hl'.2).symm⟩

theorem monotoneLog_step (v : Variant) (W : World M Tf G1 G2 Sg) (ht : 0 ≤ W.t_err)
    (motion1 motion2 : MotionBase M) (s : CAState M Tf G1 G2 Sg)
    (h : MonotoneLog W motion1 motion2 s) :
    MonotoneLog W motion1 motion2 (loopBody v W s).1 := by
  obtain ⟨l, hl, hp, hb, h0, h1, he⟩ := h
  obtain ⟨r0, r1, re⟩ := toc_range_step v W ht s ⟨h0, h1, he⟩
  have hlog := logged_step v W motion1 motion2 s l hl
  obtain ⟨-, -, hcase⟩ := loopBody_spec v W s
  split_ifs at hcase with c1 c2
  · rw [hcase.1, if_pos rfl] at hlog
    exact ⟨l, hlog, hp, fun t htl => ⟨(hb t htl).1, by rw [hcase.2.1]; exact (hb t htl).2⟩,
      r0, r1, re⟩
  · rw [hcase.1, if_pos rfl] at hlog
    exact ⟨l, hlog, hp, fun t htl => ⟨(hb t htl).1, by
      rw [hcase.2.1]; exact le_trans (hb t htl).2 h1⟩, r0, r1, re⟩
  · rw [hcase.1, if_neg Bool.false_ne_true] at hlog
    have hgt : s.node.toc < (loopBody v W s).1.node.toc := by
      rw [hcase.2.1]; linarith
    refine ⟨_, hlog, ?_, ?_, r0, r1, re⟩
    · rw [List.pairwise_append]
      refine ⟨hp, List.pairwise_singleton _ _, fun a ha b hb' => ?_⟩
      rw [List.mem_singleton] at hb'
      rw [hb']; exact lt_of_le_of_lt (hb a ha).2 hgt
    · intro t htl
      rw [List.mem_append, List.mem_singleton] at htl
      rcases htl with htl | rfl
      · exact ⟨(hb t htl).1, le_trans (hb t htl).2 (le_of_lt hgt)⟩
      · exact ⟨lt_of_le_of_lt h0 hgt, le_refl _⟩

theorem monotoneLog_entry (v : Variant) (W : World M Tf G1 G2 Sg) (o1 : G1)
    (motion1 : MotionBase M) (o2 : G2) (motion2 : MotionBase M) :
    MonotoneLog W motion1 motion2 (loopEntry v W o1 motion1 o2 motion2) := by
  obtain ⟨a0, a1, a2, a3, -⟩ := loopEntry_node v W o1 motion1 o2 motion2
  refine ⟨[], ⟨by rw [a2, List.append_nil], by rw [a3, List.append_nil]⟩, List.Pairwise.nil,
    fun t ht => absurd ht (List.not_mem_nil t), by rw [a0], by rw [a0]; exact zero_le_one, a1⟩

theorem call_eq {Rq : Type} (h : HandlerRef) (W : World M Tf G1 G2 Sg) (o1 : G1)
    (motion1 : MotionBase M) (o2 : G2) (motion2 : MotionBase M) (request : Rq)
    (result : ContinuousCollisionResult) (fuel : Nat) :
    h.call W o1 motion1 o2 motion2 request result fuel
      = (conservativeAdvancement h.variant W o1 motion1 o2 motion2 fuel).map
          (fun r => { ret := r.toc,
                      result := { is_collide := r.ret, time_of_contact := r.toc }, ca := r }) := by
  cases h <;>
    simp only [HandlerRef.call, HandlerRef.variant, BVHConservativeAdvancement,
      ShapeConservativeAdvancement, ShapeBVHConservativeAdvancement,
      BVHShapeConservativeAdvancement] <;>
    split <;> simp_all

set_option maxRecDepth 100000 in
theorem table_swap : ∀ (ns : Solver) (i j : NODE_TYPE),
    (tableEntry ns i j).map HandlerRef.swap = tableEntry ns j i := by
  decide!

theorem lookup_swap (ns : Solver) (m : FunctionMatrix) (i j : NODE_TYPE) (h : HandlerRef)
    (hij : lookup ns m i j = some h) : lookup ns m j i = some h.swap := by
  rw [lookup_eq] at hij ⊢
  rw [← table_swap, hij]; rfl

/-- What a pass of the generic mesh loop does to the models and to the node: `initialize`
rebuilds both copies, and `node.R`, `node.T` are not written. -/
theorem meshBody_frame (W : World M Tf G1 G2 Sg) (s : CAState M Tf G1 G2 Sg) :
    (loopBody .mesh W s).1.model1 = (W.init s.node.setup s.model1 s.tf1 s.model2 s.tf2).2.1 ∧
    (loopBody .mesh W s).1.model2 = (W.init s.node.setup s.model1 s.tf1 s.model2 s.tf2).2.2 ∧
    (loopBody .mesh W s).1.node.RT = s.node.RT := by
  simp only [loopBody, meshBody, distanceRecurse]
  split_ifs <;> exact ⟨rfl, rfl, rfl⟩

/-- What a pass of the oriented mesh loop does to the models and to the node. -/
theorem meshOrientedBody_frame (W : World M Tf G1 G2 Sg) (s : CAState M Tf G1 G2 Sg) :
    (loopBody .meshOriented W s).1.model1 = s.model1 ∧
    (loopBody .meshOriented W s).1.model2 = s.model2 ∧
    (loopBody .meshOriented W s).1.node.setup = s.node.setup ∧
    (loopBody .meshOriented W s).1.node.RT
      = some (W.relative (s.node.motion1.getCurrentTransform W)
          (s.node.motion2.getCurrentTransform W)) ∧
    (loopBody .meshOriented W s).1.node.delta_t
      = (W.traverse { s.node with
          RT := some (W.relative (s.node.motion1.getCurrentTransform W)
            (s.node.motion2.getCurrentTransform W)),
          delta_t := 1, min_distance := FCL_REAL_MAX }).2 := by
  simp only [loopBody, meshOrientedBody, distanceRecurse]
  split_ifs <;> exact ⟨rfl, rfl, rfl, rfl, rfl⟩

/-! ## More concrete runs -/

/-- The step a traversal of a scripted world leaves. -/
theorem script_delta (v : Variant) (δ : Nat → ℚ) (hit : Bool) (e : ℚ)
    (s : CAState Nat Unit Unit Unit Unit) :
    (loopBody v (scriptWorld δ hit e) s).1.node.delta_t = δ s.node.motion1.state := by
  obtain ⟨n, -, -, -, -, h1, -, hd⟩ := loopBody_delta_t v (scriptWorld δ hit e) s
  rw [hd]
  simp [scriptWorld, h1]

/-- In a scripted world the first motion counts the iterations. -/
theorem script_state (v : Variant) (δ : Nat → ℚ) (hit : Bool) (e : ℚ) (k : Nat)
    (s : CAState Nat Unit Unit Unit Unit)
    (h : stateAt (loopBody v (scriptWorld δ hit e)) k
      (loopEntry v (scriptWorld δ hit e) () (MotionBase.start 0) () (MotionBase.start 0))
        = some s) :
    s.node.motion1.state = k := by
  have := stateAt_rule_idx (loopBody v (scriptWorld δ hit e))
    (fun k s => s.node.motion1.state = k) ?_ k 0 _ s ?_ h
  · simpa using this
  · intro k s hs hb
    obtain ⟨-, -, hcase⟩ := loopBody_spec v (scriptWorld δ hit e) s
    split_ifs at hcase with h1 h2
    · rw [hcase.1] at hb; cases hb
    · rw [hcase.1] at hb; cases hb
    · rw [hcase.2.2.1]; simp [MotionBase.integrate, scriptWorld, hs]
  · show (loopEntry v _ _ _ _ _).node.motion1.state = 0
    rw [(loopEntry_node v _ _ _ _ _).2.2.1]; rfl

/-- Two scripted runs with the same script leave the same `delta_t` at every iteration. -/
theorem script_lockstep (v v' : Variant) (δ : Nat → ℚ) (hit hit' : Bool) (e e' : ℚ) :
    ∀ k s s', stateAt (loopBody v (scriptWorld δ hit e)) k
        (loopEntry v (scriptWorld δ hit e) () (MotionBase.start 0) () (MotionBase.start 0))
          = some s →
      stateAt (loopBody v' (scriptWorld δ hit' e')) k
        (loopEntry v' (scriptWorld δ hit' e') () (MotionBase.start 0) () (MotionBase.start 0))
          = some s' →
      (loopBody v (scriptWorld δ hit e) s).1.node.delta_t
        = (loopBody v' (scriptWorld δ hit' e') s').1.node.delta_t := by
  intro k s s' h h'
  rw [script_delta, script_delta, script_state v δ hit e k s h, script_state v' δ hit' e' k s' h']

theorem headOn_shape_run :
    conservativeAdvancement .shape headOnWorld () (MotionBase.start 0) () (MotionBase.start 0) 2
      = some { ret := true, toc := 1 / 2, motion1 := ⟨1 / 2, [1 / 2]⟩,
               motion2 := ⟨1 / 2, [1 / 2]⟩, traversals := 2 } := by
  norm_num [conservativeAdvancement, conservativeAdvancementShape, doWhile, shapeBody, plainEntry,
    headOnWorld, linearWorld, MotionBase.start, MotionBase.getCurrentTransform,
    MotionBase.integrate, distanceRecurse, Node.fresh, CAState.exit, earlyReturn]

/-- The first pass of the head-on run of the shape loop: the node carries the tolerance `1e-4`,
the traversal leaves `delta_t = 1/2`, and the pass does not break. -/
theorem headOn_shape_first :
    (loopEntry .shape headOnWorld () (MotionBase.start 0) () (MotionBase.start 0)).node.t_err
        = 1 / 10000 ∧
    (loopBody .shape headOnWorld
      (loopEntry .shape headOnWorld () (MotionBase.start 0) ()
        (MotionBase.start 0))).1.node.delta_t = 1 / 2 ∧
    (loopBody .shape headOnWorld
      (loopEntry .shape headOnWorld () (MotionBase.start 0) ()
        (MotionBase.start 0))).2 = false := by
  norm_num [loopBody, shapeBody, loopEntry, plainEntry, headOnWorld, linearWorld,
    MotionBase.start, MotionBase.getCurrentTransform, MotionBase.integrate, distanceRecurse,
    Node.fresh]

/-! ## The claims on the request, the symmetry and the shape of the loops -/

/-- Counterexample to C11 as stated: a request with `t_err = 1` handed to the shape handler in
the head-on scenario.  The first traversal leaves `delta_t = 1/2 ≤ 1`, yet the pass does not
break: the node compares against its own tolerance `1e-4`, a second traversal runs, and the
handler reports `toc = 1/2`. -/
theorem request_tolerance_counterexample :
    (ShapeConservativeAdvancement headOnWorld () (MotionBase.start 0) () (MotionBase.start 0)
        ({ t_err := 1, abs_err := 0, rel_err := 0 } : ContinuousCollisionRequest)
        ⟨false, 1⟩ 2).map
      (fun o => (o.result.is_collide, o.result.time_of_contact, o.ca.traversals))
      = some (true, 1 / 2, 2) ∧
    (loopEntry .shape headOnWorld () (MotionBase.start 0) () (MotionBase.start 0)).node.t_err
        = 1 / 10000 ∧
    (loopBody .shape headOnWorld
      (loopEntry .shape headOnWorld () (MotionBase.start 0) ()
        (MotionBase.start 0))).1.node.delta_t = 1 / 2 ∧
    (loopBody .shape headOnWorld
      (loopEntry .shape headOnWorld () (MotionBase.start 0) ()
        (MotionBase.start 0))).2 = false := by
  refine ⟨?_, headOn_shape_first⟩
  simp only [ShapeConservativeAdvancement, headOn_shape_run, Option.map_some']

/-- C11, as the code has it: no handler reads the request.  Whatever handler the matrix holds,
two calls that differ only in the request return the same thing for every fuel, and the
`t_err` the convergence test compares `delta_t` with is, at the start of every outer
iteration, the tolerance the node was constructed with. -/
theorem request_ignored {Rq : Type} (h : HandlerRef) (W : World M Tf G1 G2 Sg) (o1 : G1)
    (motion1 : MotionBase M) (o2 : G2) (motion2 : MotionBase M) (request request' : Rq)
    (result : ContinuousCollisionResult) (fuel : Nat) :
    h.call W o1 motion1 o2 motion2 request result fuel
      = h.call W o1 motion1 o2 motion2 request' result fuel ∧
    (∀ k s, stateAt (loopBody h.variant W) k (loopEntry h.variant W o1 motion1 o2 motion2)
        = some s → s.node.t_err = W.t_err) := by
  refine ⟨by rw [call_eq, call_eq], fun k s hk => ?_⟩
  exact stateAt_rule (loopBody h.variant W) (fun s => s.node.t_err = W.t_err)
    (fun s hs _ => (loopBody_spec h.variant W s).1.trans hs) k _ s
    (loopEntry_node h.variant W o1 motion1 o2 motion2).2.1 hk

/-- C17: symmetry under swapping the operands.  If `matrix[i][j]` holds a handler, then
`matrix[j][i]` holds the handler for the operands in the other order, and when the two calls
carry the same tolerance, get the same answer from the entry test and are left the same
`delta_t` by the traversal of every iteration, they yield the same `is_collide` and the same
`time_of_contact` (for every fuel, both are still running or both return). -/
theorem swap_symmetry {Rq Rq' : Type} (ns : Solver) (m : FunctionMatrix) (i j : NODE_TYPE)
    (h : HandlerRef) (W : World M Tf G1 G2 Sg) (W' : World M Tf G2 G1 Sg')
    (g1 : G1) (m1 : MotionBase M) (g2 : G2) (m2 : MotionBase M)
    (request : Rq) (request' : Rq') (result result' : ContinuousCollisionResult)
    (hij : lookup ns m i j = some h)
    (ht : W.t_err = W'.t_err)
    (hentry : W.collide g1 (m1.getCurrentTransform W) g2 (m2.getCurrentTransform W)
      = W'.collide g2 (m2.getCurrentTransform W') g1 (m1.getCurrentTransform W'))
    (hstep : ∀ k s s',
      stateAt (loopBody h.variant W) k (loopEntry h.variant W g1 m1 g2 m2) = some s →
      stateAt (loopBody h.swap.variant W') k (loopEntry h.swap.variant W' g2 m2 g1 m1)
        = some s' →
      (loopBody h.variant W s).1.node.delta_t = (loopBody h.swap.variant W' s').1.node.delta_t) :
    lookup ns m j i = some h.swap ∧
    ∀ fuel, (h.call W g1 m1 g2 m2 request result fuel).map
          (fun o => (o.result.is_collide, o.result.time_of_contact))
        = (h.swap.call W' g2 m2 g1 m1 request' result' fuel).map
          (fun o => (o.result.is_collide, o.result.time_of_contact)) := by
  refine ⟨lookup_swap ns m i j h hij, fun fuel => ?_⟩
  have := congrArg (Option.map (fun t : Bool × ℚ × Nat × List ℚ × List ℚ => (t.1, t.2.1)))
    (lockstep_aux h.variant h.swap.variant W W' g1 m1 g2 m2 g2 m2 g1 m1 ht hentry hstep fuel)
  rw [call_eq, call_eq]
  simpa [Option.map_map, Function.comp_def] using this

/-- Witness of C17: an AABB mesh against a sphere, and the sphere against the mesh, on the
same script. -/
theorem swap_symmetry_witness :
    lookup .GJKSolver_libccd (fun _ _ => none) .BV_AABB .GEOM_SPHERE
      = some (.BVHShapeConservativeAdvancement .AABB .Sphere .GJKSolver_libccd) ∧
    lookup .GJKSolver_libccd (fun _ _ => none) .GEOM_SPHERE .BV_AABB
      = some (.ShapeBVHConservativeAdvancement .Sphere .AABB .GJKSolver_libccd) ∧
    ∀ fuel, ((HandlerRef.BVHShapeConservativeAdvancement .AABB .Sphere .GJKSolver_libccd).call
          halfTolWorld () (MotionBase.start 0) () (MotionBase.start 0) () ⟨false, 1⟩ fuel).map
          (fun o => (o.result.is_collide, o.result.time_of_contact))
        = ((HandlerRef.ShapeBVHConservativeAdvancement .Sphere .AABB .GJKSolver_libccd).call
          halfTolWorld () (MotionBase.start 0) () (MotionBase.start 0) () ⟨false, 1⟩ fuel).map
          (fun o => (o.result.is_collide, o.result.time_of_contact)) :=
  have hij : lookup .GJKSolver_libccd (fun _ _ => none) .BV_AABB .GEOM_SPHERE
      = some (.BVHShapeConservativeAdvancement .AABB .Sphere .GJKSolver_libccd) := by
    rw [lookup_eq]; rfl
  ⟨hij, swap_symmetry .GJKSolver_libccd (fun _ _ => none) .BV_AABB .GEOM_SPHERE _
    halfTolWorld halfTolWorld () (MotionBase.start 0) () (MotionBase.start 0) () ()
    ⟨false, 1⟩ ⟨false, 1⟩ hij rfl rfl
    (script_lockstep .meshShape .shapeMesh _ false false _ _)⟩

/-- C18: the seven loops are the same numeric loop.  Two of them, each in its own world, that
get the same answer from the entry test, carry the same `t_err` and are left the same
`delta_t` by the traversal of every iteration, return alike for every fuel: both are still
running, or both return the same boolean and the same `toc` after the same number of
traversals, having called `integrate` with the same arguments on each motion. -/
theorem loops_agree (v v' : Variant) (W : World M Tf G1 G2 Sg) (W' : World M' Tf' G1' G2' Sg')
    (o1 : G1) (motion1 : MotionBase M) (o2 : G2) (motion2 : MotionBase M)
    (o1' : G1') (motion1' : MotionBase M') (o2' : G2') (motion2' : MotionBase M')
    (ht : W.t_err = W'.t_err)
    (hentry : W.collide o1 (motion1.getCurrentTransform W) o2 (motion2.getCurrentTransform W)
      = W'.collide o1' (motion1'.getCurrentTransform W') o2' (motion2'.getCurrentTransform W'))
    (hstep : ∀ k s s', stateAt (loopBody v W) k (loopEntry v W o1 motion1 o2 motion2) = some s →
      stateAt (loopBody v' W') k (loopEntry v' W' o1' motion1' o2' motion2') = some s' →
      (loopBody v W s).1.node.delta_t = (loopBody v' W' s').1.node.delta_t)
    (fuel : Nat) :
    (conservativeAdvancement v W o1 motion1 o2 motion2 fuel).map
        (fun r => (r.ret, r.toc, r.traversals, calls motion1 r.motion1, calls motion2 r.motion2))
      = (conservativeAdvancement v' W' o1' motion1' o2' motion2' fuel).map
        (fun r => (r.ret, r.toc, r.traversals, calls motion1' r.motion1,
          calls motion2' r.motion2)) :=
  lockstep_aux v v' W W' o1 motion1 o2 motion2 o1' motion1' o2' motion2' ht hentry hstep fuel

/-- Witness of C18: the generic mesh loop and the oriented mesh loop on the same script. -/
theorem loops_agree_witness :
    halfTolWorld.t_err = halfTolWorld.t_err ∧
    (conservativeAdvancement .mesh halfTolWorld () (MotionBase.start 0) ()
        (MotionBase.start 0) 2).map
        (fun r => (r.ret, r.toc, r.traversals, calls (MotionBase.start 0) r.motion1,
          calls (MotionBase.start 0) r.motion2))
      = (conservativeAdvancement .meshOriented halfTolWorld () (MotionBase.start 0) ()
        (MotionBase.start 0) 2).map
        (fun r => (r.ret, r.toc, r.traversals, calls (MotionBase.start 0) r.motion1,
          calls (MotionBase.start 0) r.motion2)) :=
  ⟨rfl, loops_agree .mesh .meshOriented halfTolWorld halfTolWorld () (MotionBase.start 0) ()
    (MotionBase.start 0) () (MotionBase.start 0) () (MotionBase.start 0) rfl rfl
    (script_lockstep .mesh .meshOriented _ false false _ _) 2⟩

/-- Counterexample to C19 as stated: for the kinds OBB and kIOS the matrix holds the mesh-mesh
handler of that kind, and that handler runs the generic loop, which copies both meshes and
leaves `node.R`, `node.T` unset. -/
theorem oriented_kinds_counterexample :
    lookup .GJKSolver_libccd (fun _ _ => none) .BV_OBB .BV_OBB
      = some (.BVHConservativeAdvancement .OBB .GJKSolver_libccd) ∧
    (HandlerRef.BVHConservativeAdvancement .OBB .GJKSolver_libccd).variant = .mesh ∧
    lookup .GJKSolver_libccd (fun _ _ => none) .BV_kIOS .BV_kIOS
      = some (.BVHConservativeAdvancement .kIOS .GJKSolver_libccd) ∧
    (HandlerRef.BVHConservativeAdvancement .kIOS .GJKSolver_libccd).variant = .mesh ∧
    (loopEntry .mesh headOnWorld () (MotionBase.start 0) () (MotionBase.start 0)).copied1
      = true ∧
    (loopEntry .mesh headOnWorld () (MotionBase.start 0) () (MotionBase.start 0)).copied2
      = true ∧
    (loopBody .mesh headOnWorld
      (loopEntry .mesh headOnWorld () (MotionBase.start 0) () (MotionBase.start 0))).1.node.RT
      = none := by
  refine ⟨by rw [lookup_eq]; rfl, rfl, by rw [lookup_eq]; rfl, rfl, rfl, rfl, ?_⟩
  rw [(meshBody_frame _ _).2.2]; rfl

/-- C19, as the code has it: for every BV kind the matrix holds on the diagonal the mesh-mesh
handler of that kind.  For RSS and OBBRSS it runs the oriented loop: neither mesh is copied,
no pass touches the models or the node setup, and every pass stores the relative transform of
the motions' current transforms on the node before the traversal.  For every other kind, OBB
and kIOS included, it runs the generic loop: both meshes are copied, every pass has
`initialize` rebuild the copies, and `node.R`, `node.T` are never written. -/
theorem oriented_mesh_dispatch (ns : Solver) (m : FunctionMatrix) (bv : BVKind)
    (W : World M Tf G1 G2 Sg) (o1 : G1) (motion1 : MotionBase M) (o2 : G2)
    (motion2 : MotionBase M) :
    lookup ns m bv.nodeType bv.nodeType = some (.BVHConservativeAdvancement bv ns) ∧
    ((bv = .RSS ∨ bv = .OBBRSS) →
      (HandlerRef.BVHConservativeAdvancement bv ns).variant = .meshOriented ∧
      (loopEntry .meshOriented W o1 motion1 o2 motion2).copied1 = false ∧
      (loopEntry .meshOriented W o1 motion1 o2 motion2).copied2 = false ∧
      (loopEntry .meshOriented W o1 motion1 o2 motion2).model1 = o1 ∧
      (loopEntry .meshOriented W o1 motion1 o2 motion2).model2 = o2 ∧
      ∀ s : CAState M Tf G1 G2 Sg,
        (loopBody .meshOriented W s).1.model1 = s.model1 ∧
        (loopBody .meshOriented W s).1.model2 = s.model2 ∧
        (loopBody .meshOriented W s).1.node.setup = s.node.setup ∧
        (loopBody .meshOriented W s).1.node.RT
          = some (W.relative (s.node.motion1.getCurrentTransform W)
              (s.node.motion2.getCurrentTransform W)) ∧
        (loopBody .meshOriented W s).1.node.delta_t
          = (W.traverse { s.node with
              RT := some (W.relative (s.node.motion1.getCurrentTransform W)
                (s.node.motion2.getCurrentTransform W)),
              delta_t := 1, min_distance := FCL_REAL_MAX }).2) ∧
    (¬ (bv = .RSS ∨ bv = .OBBRSS) →
      (HandlerRef.BVHConservativeAdvancement bv ns).variant = .mesh ∧
      (loopEntry .mesh W o1 motion1 o2 motion2).copied1 = true ∧
      (loopEntry .mesh W o1 motion1 o2 motion2).copied2 = true ∧
      ∀ s : CAState M Tf G1 G2 Sg,
        (loopBody .mesh W s).1.model1
          = (W.init s.node.setup s.model1 s.tf1 s.model2 s.tf2).2.1 ∧
        (loopBody .mesh W s).1.model2
          = (W.init s.node.setup s.model1 s.tf1 s.model2 s.tf2).2.2 ∧
        (loopBody .mesh W s).1.node.RT = s.node.RT) := by
  refine ⟨?_, fun hbv => ⟨?_, rfl, rfl, rfl, rfl, meshOrientedBody_frame W⟩,
    fun hbv => ⟨?_, rfl, rfl, meshBody_frame W⟩⟩
  · rw [lookup_eq]
    simp [tableEntry, toShape_nodeType, toBV_nodeType, toBV_shape, toShape_bv]
  · rcases hbv with rfl | rfl <;> rfl
  · cases bv <;> first | rfl | exact absurd (Or.inl rfl) hbv | exact absurd (Or.inr rfl) hbv

/-- C20: for every variant and every `t_err ≥ 0`, a pass that does not break integrates both
motions to the same new `toc`; and at the start of every outer iteration, as on return, the
arguments passed to `integrate` so far are the same on both motions, strictly increasing, and
each lies in `(0, 1]`. -/
theorem monotone_integration (v : Variant) (W : World M Tf G1 G2 Sg) (o1 : G1)
    (motion1 : MotionBase M) (o2 : G2) (motion2 : MotionBase M) (ht : 0 ≤ W.t_err) :
    (∀ s : CAState M Tf G1 G2 Sg, (loopBody v W s).2 = false →
      (loopBody v W s).1.node.motion1 = s.node.motion1.integrate W (loopBody v W s).1.node.toc ∧
      (loopBody v W s).1.node.motion2
        = s.node.motion2.integrate W (loopBody v W s).1.node.toc) ∧
    (∀ k s, stateAt (loopBody v W) k (loopEntry v W o1 motion1 o2 motion2) = some s →
      s.node.motion1.integrated = motion1.integrated ++ calls motion1 s.node.motion1 ∧
      s.node.motion2.integrated = motion2.integrated ++ calls motion2 s.node.motion2 ∧
      calls motion1 s.node.motion1 = calls motion2 s.node.motion2 ∧
      (calls motion1 s.node.motion1).Pairwise (· < ·) ∧
      ∀ t ∈ calls motion1 s.node.motion1, 0 < t ∧ t ≤ 1) ∧
    (∀ fuel r, conservativeAdvancement v W o1 motion1 o2 motion2 fuel = some r →
      r.motion1.integrated = motion1.integrated ++ calls motion1 r.motion1 ∧
      r.motion2.integrated = motion2.integrated ++ calls motion2 r.motion2 ∧
      calls motion1 r.motion1 = calls motion2 r.motion2 ∧
      (calls motion1 r.motion1).Pairwise (· < ·) ∧
      ∀ t ∈ calls motion1 r.motion1, 0 < t ∧ t ≤ 1) := by
  have fin : ∀ s : CAState M Tf G1 G2 Sg, MonotoneLog W motion1 motion2 s →
      s.node.motion1.integrated = motion1.integrated ++ calls motion1 s.node.motion1 ∧
      s.node.motion2.integrated = motion2.integrated ++ calls motion2 s.node.motion2 ∧
      calls motion1 s.node.motion1 = calls motion2 s.node.motion2 ∧
      (calls motion1 s.node.motion1).Pairwise (· < ·) ∧
      ∀ t ∈ calls motion1 s.node.motion1, 0 < t ∧ t ≤ 1 := by
    rintro s ⟨l, hl, hp, hb, -, h1, -⟩
    rw [calls_of_append _ _ l hl.1, calls_of_append _ _ l hl.2]
    exact ⟨hl.1, hl.2, rfl, hp, fun t htl => ⟨(hb t htl).1, le_trans (hb t htl).2 h1⟩⟩
  refine ⟨fun s hb => ?_, fun k s hk => ?_, fun fuel r hr => ?_⟩
  · obtain ⟨-, -, hcase⟩ := loopBody_spec v W s
    split_ifs at hcase with c1 c2
    · rw [hcase.1] at hb; cases hb
    · rw [hcase.1] at hb; cases hb
    · rw [hcase.2.1]; exact ⟨hcase.2.2.1, hcase.2.2.2⟩
  · exact fin s (stateAt_rule (loopBody v W) (MonotoneLog W motion1 motion2)
      (fun s hs _ => monotoneLog_step v W ht motion1 motion2 s hs) k _ s
      (monotoneLog_entry v W o1 motion1 o2 motion2) hk)
  · rw [conservativeAdvancement_eq] at hr
    split_ifs at hr with hc
    · cases hr
      simp [earlyReturn, calls]
    · obtain ⟨sf, hsf, rfl⟩ := Option.map_eq_some'.mp hr
      exact fin sf (doWhile_rule (loopBody v W) (MonotoneLog W motion1 motion2)
        (MonotoneLog W motion1 motion2)
        (fun s hs => by split_ifs <;> exact monotoneLog_step v W ht motion1 motion2 s hs)
        fuel _ sf (monotoneLog_entry v W o1 motion1 o2 motion2) hsf)

/-- Witness of C20: the head-on run integrates both motions once, to `1/2`. -/
theorem monotone_integration_witness :
    (0 : ℚ) ≤ headOnWorld.t_err ∧
    calls (MotionBase.start (0 : ℚ)) ⟨1 / 2, [1 / 2]⟩
      = calls (MotionBase.start (0 : ℚ)) ⟨1 / 2, [1 / 2]⟩ ∧
    (calls (MotionBase.start (0 : ℚ)) ⟨1 / 2, [1 / 2]⟩).Pairwise (· < ·) ∧
    ∀ t ∈ calls (MotionBase.start (0 : ℚ)) ⟨1 / 2, [1 / 2]⟩, 0 < t ∧ t ≤ 1 :=
  ⟨by norm_num [headOnWorld, linearWorld],
   ((monotone_integration .mesh headOnWorld () (MotionBase.start 0) () (MotionBase.start 0)
      (by norm_num [headOnWorld, linearWorld])).2.2 2 _ headOn_run).2.2⟩

/-! ## Lemmas on runs of two passes -/

/-- A run whose first pass advances by `d0` and whose second pass breaks: the second state,
the result for every fuel from 2 on, and no result with fuel 1. -/
theorem two_pass_run (v : Variant) (W : World M Tf G1 G2 Sg) (o1 : G1) (motion1 : MotionBase M)
    (o2 : G2) (motion2 : MotionBase M)
    (hc : W.collide o1 (motion1.getCurrentTransform W) o2 (motion2.getCurrentTransform W) = false)
    (d0 d1 : ℚ)
    (h0 : (loopBody v W (loopEntry v W o1 motion1 o2 motion2)).1.node.delta_t = d0)
    (h1 : (loopBody v W (loopBody v W (loopEntry v W o1 motion1 o2 motion2)).1).1.node.delta_t
      = d1)
    (hd0 : W.t_err < d0) (hd0' : d0 ≤ 1) (hx : d1 ≤ W.t_err ∨ 1 < d0 + d1) :
    stateAt (loopBody v W) 1 (loopEntry v W o1 motion1 o2 motion2)
      = some (loopBody v W (loopEntry v W o1 motion1 o2 motion2)).1 ∧
    (∀ fuel, 2 ≤ fuel → conservativeAdvancement v W o1 motion1 o2 motion2 fuel
      = some { ret := decide ((if d1 ≤ W.t_err then d0 else 1) < 1),
               toc := if d1 ≤ W.t_err then d0 else 1,
               motion1 := motion1.integrate W d0, motion2 := motion2.integrate W d0,
               traversals := 2 }) ∧
    conservativeAdvancement v W o1 motion1 o2 motion2 1 = none := by
  obtain ⟨e_toc, e_err, e_m1, e_m2, e_tr⟩ := loopEntry_node v W o1 motion1 o2 motion2
  obtain ⟨hte, htr, hcase⟩ := loopBody_spec v W (loopEntry v W o1 motion1 o2 motion2)
  rw [h0, e_err, e_toc, if_neg (not_le.mpr hd0), if_neg (by linarith), zero_add, e_m1, e_m2]
    at hcase
  obtain ⟨hb, htoc, hm1, hm2⟩ := hcase
  have hs1 : stateAt (loopBody v W) 1 (loopEntry v W o1 motion1 o2 motion2)
      = some (loopBody v W (loopEntry v W o1 motion1 o2 motion2)).1 := by
    simp [stateAt, hb]
  obtain ⟨hte1, htr1, hcase1⟩ :=
    loopBody_spec v W (loopBody v W (loopEntry v W o1 motion1 o2 motion2)).1
  rw [h1, hte, e_err, htoc, hm1, hm2] at hcase1
  rw [htr, e_tr] at htr1
  have hbreak : (loopBody v W (loopBody v W (loopEntry v W o1 motion1 o2 motion2)).1).2 = true ∧
      (loopBody v W (loopBody v W (loopEntry v W o1 motion1 o2 motion2)).1).1.exit
        = { ret := decide ((if d1 ≤ W.t_err then d0 else 1) < 1),
            toc := if d1 ≤ W.t_err then d0 else 1,
            motion1 := motion1.integrate W d0, motion2 := motion2.integrate W d0,
            traversals := 2 } := by
    by_cases hd1 : d1 ≤ W.t_err
    · rw [if_pos hd1] at hcase1
      obtain ⟨hb1, htoc1, hm11, hm21⟩ := hcase1
      refine ⟨hb1, ?_⟩
      simp only [CAState.exit, htoc1, hm11, hm21, htr1, if_pos hd1]
    · have hgt : d0 + d1 > 1 := hx.resolve_left hd1
      rw [if_neg hd1, if_pos hgt] at hcase1
      obtain ⟨hb1, htoc1, hm11, hm21⟩ := hcase1
      refine ⟨hb1, ?_⟩
      simp only [CAState.exit, htoc1, hm11, hm21, htr1, if_neg hd1]
  refine ⟨hs1, fun fuel hf => ?_, ?_⟩
  · rw [result_of_break v W o1 motion1 o2 motion2 hc 1 _ hs1 hbreak.1 fuel (by omega), hbreak.2]
  · rw [conservativeAdvancement_eq, hc, doWhile_none_of_stateAt _ 1 _ _ hs1]
    rfl

/-- In a one-dimensional scenario entered with motions on which `integrate` was not called yet,
the motions of a reachable iteration start sit at time `toc`, which is in `[0, 1]`. -/
theorem linear_reach (gap speed t_err : ℚ) (ht : 0 ≤ t_err) (v : Variant) (k : Nat)
    (s : CAState ℚ ℚ Unit Unit Unit)
    (h : stateAt (loopBody v (linearWorld gap speed t_err)) k
      (loopEntry v (linearWorld gap speed t_err) () (MotionBase.start 0) () (MotionBase.start 0))
        = some s) :
    s.node.motion1.state = s.node.toc ∧ 0 ≤ s.node.toc ∧ s.node.toc ≤ 1 ∧
      s.node.t_err = t_err := by
  refine stateAt_rule (loopBody v (linearWorld gap speed t_err))
    (fun s => s.node.motion1.state = s.node.toc ∧ 0 ≤ s.node.toc ∧ s.node.toc ≤ 1 ∧
      s.node.t_err = t_err) ?_ k _ s ?_ h
  · intro s hs hb
    refine ⟨?_, toc_range_step v (linearWorld gap speed t_err) ht s hs.2⟩
    obtain ⟨-, -, hcase⟩ := loopBody_spec v (linearWorld gap speed t_err) s
    split_ifs at hcase with hc hk
    · rw [hcase.1] at hb; cases hb
    · rw [hcase.1] at hb; cases hb
    · rw [hcase.2.1, hcase.2.2.1]; rfl
  · obtain ⟨e_toc, e_err, e_m1, -, -⟩ :=
      loopEntry_node v (linearWorld gap speed t_err) () (MotionBase.start 0) ()
        (MotionBase.start 0)
    rw [e_toc, e_err, e_m1]
    exact ⟨rfl, le_refl _, zero_le_one, rfl⟩

/-- The step a traversal of a one-dimensional scenario leaves. -/
theorem linear_delta (gap speed t_err : ℚ) (v : Variant) (s : CAState ℚ ℚ Unit Unit Unit) :
    (loopBody v (linearWorld gap speed t_err) s).1.node.delta_t
      = if 0 < speed ∧ (gap - speed * s.node.motion1.state) / speed < 1 then
          (gap - speed * s.node.motion1.state) / speed
        else 1 := by
  obtain ⟨n, -, -, hd, -, hm, -, hn⟩ := loopBody_delta_t v (linearWorld gap speed t_err) s
  rw [hn]
  simp only [linearWorld, hd, hm]

/-- In a one-dimensional scenario whose objects close in less than one unit of time, every
traversal of a run leaves the exact time to contact, gap over closing speed. -/
theorem linear_closing (gap speed t_err : ℚ) (hs : 0 < speed) (hg : gap < speed)
    (ht : 0 ≤ t_err) (v : Variant) (k : Nat) (s : CAState ℚ ℚ Unit Unit Unit)
    (h : stateAt (loopBody v (linearWorld gap speed t_err)) k
      (loopEntry v (linearWorld gap speed t_err) () (MotionBase.start 0) () (MotionBase.start 0))
        = some s) :
    (loopBody v (linearWorld gap speed t_err) s).1.node.delta_t
      = (gap - speed * s.node.toc) / speed := by
  obtain ⟨hst, h0, -, -⟩ := linear_reach gap speed t_err ht v k s h
  rw [linear_delta, hst, if_pos]
  refine ⟨hs, ?_⟩
  rw [div_lt_one hs]
  nlinarith

/-- A first pass whose step is above the tolerance and at most 1 advances: the loop reaches a
second iteration. -/
theorem first_pass_advances (v : Variant) (W : World M Tf G1 G2 Sg) (o1 : G1)
    (motion1 : MotionBase M) (o2 : G2) (motion2 : MotionBase M) (d0 : ℚ)
    (h0 : (loopBody v W (loopEntry v W o1 motion1 o2 motion2)).1.node.delta_t = d0)
    (hd0 : W.t_err < d0) (hd0' : d0 ≤ 1) :
    stateAt (loopBody v W) 1 (loopEntry v W o1 motion1 o2 motion2)
      = some (loopBody v W (loopEntry v W o1 motion1 o2 motion2)).1 ∧
    (loopBody v W (loopEntry v W o1 motion1 o2 motion2)).1.node.toc = d0 := by
  obtain ⟨e_toc, e_err, -, -, -⟩ := loopEntry_node v W o1 motion1 o2 motion2
  obtain ⟨-, -, hcase⟩ := loopBody_spec v W (loopEntry v W o1 motion1 o2 motion2)
  rw [h0, e_err, e_toc, if_neg (not_le.mpr hd0), if_neg (by linarith), zero_add] at hcase
  exact ⟨by simp [stateAt, hcase.1], hcase.2.1⟩

/-- A run in which every traversal leaves the time that remains until `T`, with
`t_err < T ≤ 1`: the first pass advances to `T`, the second leaves the step 0 and breaks. -/
theorem approach_run (v : Variant) (W : World M Tf G1 G2 Sg) (o1 : G1) (motion1 : MotionBase M)
    (o2 : G2) (motion2 : MotionBase M)
    (hc : W.collide o1 (motion1.getCurrentTransform W) o2 (motion2.getCurrentTransform W) = false)
    (T : ℚ) (ht : 0 ≤ W.t_err) (hT : W.t_err < T) (hT1 : T ≤ 1)
    (hstep : ∀ k s, stateAt (loopBody v W) k (loopEntry v W o1 motion1 o2 motion2) = some s →
      (loopBody v W s).1.node.delta_t = T - s.node.toc) :
    (loopBody v W (loopEntry v W o1 motion1 o2 motion2)).1.node.delta_t = T ∧
    (loopBody v W (loopBody v W (loopEntry v W o1 motion1 o2 motion2)).1).1.node.delta_t = 0 ∧
    (∀ fuel, 2 ≤ fuel → conservativeAdvancement v W o1 motion1 o2 motion2 fuel
      = some { ret := decide (T < 1), toc := T,
               motion1 := motion1.integrate W T, motion2 := motion2.integrate W T,
               traversals := 2 }) ∧
    conservativeAdvancement v W o1 motion1 o2 motion2 1 = none := by
  have h0 : (loopBody v W (loopEntry v W o1 motion1 o2 motion2)).1.node.delta_t = T := by
    rw [hstep 0 _ rfl, (loopEntry_node v W o1 motion1 o2 motion2).1, sub_zero]
  obtain ⟨hs1, htoc⟩ := first_pass_advances v W o1 motion1 o2 motion2 T h0 hT hT1
  have h1 : (loopBody v W (loopBody v W (loopEntry v W o1 motion1 o2 motion2)).1).1.node.delta_t
      = 0 := by
    rw [hstep 1 _ hs1, htoc, sub_self]
  obtain ⟨-, hrun, hnone⟩ :=
    two_pass_run v W o1 motion1 o2 motion2 hc T 0 h0 h1 hT hT1 (Or.inl ht)
  refine ⟨h0, h1, fun fuel hf => ?_, hnone⟩
  rw [hrun fuel hf, if_pos ht]

/-! ## The claims on the scenarios -/

/-- C24: two unit spheres head-on.  With no initial collision, `t_err = 1e-4` and a traversal
that leaves at time `t` the gap over the closing speed, `delta_t = (1 - 2t) / 2`, the
shape-shape loop returns true with `toc = 1/2` after exactly two traversals (every fuel from 2
on gives that result, fuel 1 gives none): the first step is `1/2`, the second is `0 <= t_err`;
the handler writes `is_collide = true` and `time_of_contact = 1/2`. -/
theorem head_on_spheres (W : World M Tf G1 G2 Sg) (o1 : G1) (motion1 : MotionBase M) (o2 : G2)
    (motion2 : MotionBase M)
    (hc : W.collide o1 (motion1.getCurrentTransform W) o2 (motion2.getCurrentTransform W) = false)
    (ht : W.t_err = 1 / 10000)
    (hstep : ∀ k s, stateAt (loopBody .shape W) k (loopEntry .shape W o1 motion1 o2 motion2)
        = some s → (loopBody .shape W s).1.node.delta_t = (1 - 2 * s.node.toc) / 2) :
    (loopBody .shape W (loopEntry .shape W o1 motion1 o2 motion2)).1.node.delta_t = 1 / 2 ∧
    (loopBody .shape W (loopBody .shape W (loopEntry .shape W o1 motion1 o2 motion2)).1
      ).1.node.delta_t = 0 ∧
    (0 : ℚ) ≤ W.t_err ∧
    (∀ fuel, 2 ≤ fuel → conservativeAdvancement .shape W o1 motion1 o2 motion2 fuel
      = some { ret := true, toc := 1 / 2,
               motion1 := motion1.integrate W (1 / 2), motion2 := motion2.integrate W (1 / 2),
               traversals := 2 }) ∧
    conservativeAdvancement .shape W o1 motion1 o2 motion2 1 = none ∧
    ∀ (Rq : Type) (request : Rq) (result : ContinuousCollisionResult) (fuel : Nat), 2 ≤ fuel →
      ∃ out, ShapeConservativeAdvancement W o1 motion1 o2 motion2 request result fuel = some out ∧
        out.result.is_collide = true ∧ out.result.time_of_contact = 1 / 2 ∧
        out.ca.traversals = 2 := by
  have hte : (0 : ℚ) ≤ W.t_err := by rw [ht]; norm_num
  obtain ⟨h0, h1, hrun, hnone⟩ := approach_run .shape W o1 motion1 o2 motion2 hc (1 / 2) hte
    (by rw [ht]; norm_num) (by norm_num)
    (fun k s hs => by rw [hstep k s hs]; ring)
  have hrun' : ∀ fuel, 2 ≤ fuel → conservativeAdvancement .shape W o1 motion1 o2 motion2 fuel
      = some { ret := true, toc := 1 / 2,
               motion1 := motion1.integrate W (1 / 2), motion2 := motion2.integrate W (1 / 2),
               traversals := 2 } := by
    intro fuel hf
    rw [hrun fuel hf]
    norm_num
  refine ⟨h0, h1, hte, hrun', hnone, fun Rq request result fuel hf => ?_⟩
  simp only [ShapeConservativeAdvancement, hrun' fuel hf]
  exact ⟨_, rfl, rfl, rfl, rfl⟩

/-- C24 on the head-on world: gap `1 - 2t`, closing speed 2. -/
theorem head_on_spheres_witness :
    ∃ out, ShapeConservativeAdvancement headOnWorld () (MotionBase.start 0) ()
        (MotionBase.start 0) () ⟨false, 0⟩ 2 = some out ∧
      out.result.is_collide = true ∧ out.result.time_of_contact = 1 / 2 ∧
      out.ca.traversals = 2 :=
  (head_on_spheres headOnWorld () (MotionBase.start 0) () (MotionBase.start 0)
    (by norm_num [headOnWorld, linearWorld, MotionBase.start, MotionBase.getCurrentTransform])
    rfl
    (fun k s hs => by
      have h := linear_closing 1 2 (1 / 10000) (by norm_num) (by norm_num) (by norm_num)
        .shape k s hs
      exact h)).2.2.2.2.2 Unit () ⟨false, 0⟩ 2 (le_refl 2)

/-- C25: a miss.  With no initial collision and `t_err < 1` (so also for `0 <= t_err < 1`), if
every traversal leaves `delta_t` at its reset value 1, every variant returns false with
`toc = 1` exactly, after exactly two traversals (every fuel from 2 on gives that result, fuel 1
gives none) and exactly one `integrate` call per motion, to time 1. -/
theorem miss_scenario (v : Variant) (W : World M Tf G1 G2 Sg) (o1 : G1) (motion1 : MotionBase M)
    (o2 : G2) (motion2 : MotionBase M)
    (hc : W.collide o1 (motion1.getCurrentTransform W) o2 (motion2.getCurrentTransform W) = false)
    (ht1 : W.t_err < 1)
    (hstep : ∀ k s, stateAt (loopBody v W) k (loopEntry v W o1 motion1 o2 motion2) = some s →
      (loopBody v W s).1.node.delta_t = 1) :
    (∀ fuel, 2 ≤ fuel → conservativeAdvancement v W o1 motion1 o2 motion2 fuel
      = some { ret := false, toc := 1,
               motion1 := motion1.integrate W 1, motion2 := motion2.integrate W 1,
               traversals := 2 }) ∧
    conservativeAdvancement v W o1 motion1 o2 motion2 1 = none ∧
    calls motion1 (motion1.integrate W 1) = [1] ∧ calls motion2 (motion2.integrate W 1) = [1] := by
  have h0 := hstep 0 _ rfl
  obtain ⟨hs1, -⟩ := first_pass_advances v W o1 motion1 o2 motion2 1 h0 ht1 (le_refl 1)
  have h1 := hstep 1 _ hs1
  obtain ⟨-, hrun, hnone⟩ :=
    two_pass_run v W o1 motion1 o2 motion2 hc 1 1 h0 h1 ht1 (le_refl 1) (Or.inr (by norm_num))
  refine ⟨fun fuel hf => ?_, hnone, calls_of_append _ _ _ rfl, calls_of_append _ _ _ rfl⟩
  rw [hrun fuel hf, if_neg (not_le.mpr ht1)]
  simp

/-- C25 on two objects that do not move, in the shape-shape loop. -/
theorem miss_scenario_witness :
    conservativeAdvancement .shape staticWorld () (MotionBase.start 0) () (MotionBase.start 0) 2
      = some { ret := false, toc := 1, motion1 := (MotionBase.start 0).integrate staticWorld 1,
               motion2 := (MotionBase.start 0).integrate staticWorld 1, traversals := 2 } :=
  (miss_scenario .shape staticWorld () (MotionBase.start 0) () (MotionBase.start 0)
    static_no_hit (by norm_num [staticWorld, linearWorld])
    (fun k s _ => by
      have h := linear_delta 1 0 (1 / 10000) .shape s
      rw [if_neg (fun h => absurd h.1 (lt_irrefl 0))] at h
      exact h)).1 2 (le_refl 2)

/-- C26, refuted as stated: in the cube scenario (no initial collision, `t_err = 1e-4`, every
traversal leaving the exact gap `1 - 1.5 t` over the closing speed 1.5) the mesh handler for
OBB returns `is_collide = true` with time of contact `2/3`, which is not within `t_err` of
`1/3`. -/
theorem cube_meshes_counterexample :
    cubesWorld.t_err = 1 / 10000 ∧
    cubesWorld.collide () ((MotionBase.start (0 : ℚ)).getCurrentTransform cubesWorld) ()
      ((MotionBase.start (0 : ℚ)).getCurrentTransform cubesWorld) = false ∧
    (∀ k s, stateAt (loopBody BVKind.OBB.meshVariant cubesWorld) k
        (loopEntry BVKind.OBB.meshVariant cubesWorld () (MotionBase.start 0) ()
          (MotionBase.start 0)) = some s →
      (loopBody BVKind.OBB.meshVariant cubesWorld s).1.node.delta_t
        = (1 - 3 / 2 * s.node.toc) / (3 / 2)) ∧
    ∃ out, BVHConservativeAdvancement .OBB cubesWorld () (MotionBase.start 0) ()
        (MotionBase.start 0) () ⟨false, 0⟩ 2 = some out ∧
      out.result.is_collide = true ∧ out.result.time_of_contact = 2 / 3 ∧
      ¬ |out.result.time_of_contact - 1 / 3| ≤ cubesWorld.t_err := by
  refine ⟨rfl, by norm_num [cubesWorld, linearWorld, MotionBase.start,
      MotionBase.getCurrentTransform],
    fun k s hs => linear_closing 1 (3 / 2) (1 / 10000) (by norm_num) (by norm_num)
      (by norm_num) _ k s hs, ?_⟩
  refine ⟨{ ret := 2 / 3, result := ⟨true, 2 / 3⟩,
            ca := { ret := true, toc := 2 / 3, motion1 := ⟨2 / 3, [2 / 3]⟩,
                    motion2 := ⟨2 / 3, [2 / 3]⟩, traversals := 2 } }, ?_, rfl, rfl, ?_⟩
  · norm_num [BVHConservativeAdvancement, BVKind.meshVariant, conservativeAdvancement,
      conservativeAdvancementMesh, doWhile, meshBody, meshEntry, cubesWorld, linearWorld,
      MotionBase.start, MotionBase.getCurrentTransform, MotionBase.integrate, distanceRecurse,
      Node.fresh, CAState.exit, earlyReturn]
  · norm_num [cubesWorld, linearWorld, abs_le]

/-- C26, as the code has it: two cube meshes with OBB hierarchies.  With no initial
collision, `t_err = 1e-4` and a traversal that leaves the exact gap over the closing speed
(gap `1 - 1.5 t`, speed 1.5), the mesh handler for OBB, which runs the generic loop, returns
`is_collide = true` with time of contact exactly `2/3`, hence within `t_err` of `2/3`, after
two traversals. -/
theorem cube_meshes (W : World M Tf G1 G2 Sg) (o1 : G1) (motion1 : MotionBase M) (o2 : G2)
    (motion2 : MotionBase M)
    (hc : W.collide o1 (motion1.getCurrentTransform W) o2 (motion2.getCurrentTransform W) = false)
    (ht : W.t_err = 1 / 10000)
    (hstep : ∀ k s, stateAt (loopBody BVKind.OBB.meshVariant W) k
        (loopEntry BVKind.OBB.meshVariant W o1 motion1 o2 motion2) = some s →
      (loopBody BVKind.OBB.meshVariant W s).1.node.delta_t
        = (1 - 3 / 2 * s.node.toc) / (3 / 2)) :
    BVKind.OBB.meshVariant = .mesh ∧
    ∀ (Rq : Type) (request : Rq) (result : ContinuousCollisionResult) (fuel : Nat), 2 ≤ fuel →
      ∃ out, BVHConservativeAdvancement .OBB W o1 motion1 o2 motion2 request result fuel
          = some out ∧
        out.result.is_collide = true ∧ out.result.time_of_contact = 2 / 3 ∧
        |out.result.time_of_contact - 2 / 3| ≤ W.t_err ∧ out.ca.traversals = 2 := by
  have hte : (0 : ℚ) ≤ W.t_err := by rw [ht]; norm_num
  obtain ⟨-, -, hrun, -⟩ := approach_run BVKind.OBB.meshVariant W o1 motion1 o2 motion2 hc
    (2 / 3) hte (by rw [ht]; norm_num) (by norm_num)
    (fun k s hs => by rw [hstep k s hs]; ring)
  refine ⟨rfl, fun Rq request result fuel hf => ?_⟩
  simp only [BVHConservativeAdvancement, hrun fuel hf]
  refine ⟨_, rfl, by norm_num, rfl, ?_, rfl⟩
  simp only [sub_self, abs_zero]
  exact hte

/-- C26 as amended, on the cube world. -/
theorem cube_meshes_witness :
    ∃ out, BVHConservativeAdvancement .OBB cubesWorld () (MotionBase.start 0) ()
        (MotionBase.start 0) () ⟨false, 0⟩ 2 = some out ∧
      out.result.is_collide = true ∧ out.result.time_of_contact = 2 / 3 ∧
      |out.result.time_of_contact - 2 / 3| ≤ cubesWorld.t_err ∧ out.ca.traversals = 2 :=
  (cube_meshes cubesWorld () (MotionBase.start 0) () (MotionBase.start 0)
    (by norm_num [cubesWorld, linearWorld, MotionBase.start, MotionBase.getCurrentTransform])
    rfl
    (fun k s hs => linear_closing 1 (3 / 2) (1 / 10000) (by norm_num) (by norm_num)
      (by norm_num) _ k s hs)).2 Unit () ⟨false, 0⟩ 2 (le_refl 2)

/-! ## The claims on the entry pose and on the mesh copies -/

/-- What is handed to `initialize` for the first traversal, in every variant: the caller's
objects and the transforms read on entry. -/
theorem first_setup (v : Variant) (W : World M Tf G1 G2 Sg) (o1 : G1) (motion1 : MotionBase M)
    (o2 : G2) (motion2 : MotionBase M) :
    (loopBody v W (loopEntry v W o1 motion1 o2 motion2)).1.node.setup
      = (W.init W.setup0 o1 (W.getCurrentTransform motion1.state) o2
          (W.getCurrentTransform motion2.state)).1 := by
  cases v <;>
    simp only [loopBody, loopEntry, meshBody, meshOrientedBody, shapeBody, meshShapeBody,
      meshShapeOrientedBody, shapeMeshBody, shapeMeshOrientedBody, meshEntry, meshShapeEntry,
      shapeMeshEntry, plainEntry, Node.fresh, distanceRecurse,
      MotionBase.getCurrentTransform] <;>
    split_ifs <;> rfl

/-- C21, refuted as stated: in the head-on world (gap `1 - 2t`) with both motions last
integrated to `1/2`, the transform the entry test uses is the gap 0 of time `1/2`, not the
gap 1 of the pose at `t = 0`; the shape loop and the mesh loop report a contact at `toc = 0`
although at the poses of `t = 0` the static test finds none. -/
theorem entry_pose_counterexample :
    (loopEntry .shape headOnWorld () ⟨1 / 2, [1 / 2]⟩ () ⟨1 / 2, [1 / 2]⟩).tf1 = 0 ∧
    headOnWorld.getCurrentTransform (headOnWorld.integrate (1 / 2) 0) = 1 ∧
    conservativeAdvancement .shape headOnWorld () ⟨1 / 2, [1 / 2]⟩ () ⟨1 / 2, [1 / 2]⟩ 0
      = some { ret := true, toc := 0, motion1 := ⟨1 / 2, [1 / 2]⟩, motion2 := ⟨1 / 2, [1 / 2]⟩,
               traversals := 0 } ∧
    conservativeAdvancement .mesh headOnWorld () ⟨1 / 2, [1 / 2]⟩ () ⟨1 / 2, [1 / 2]⟩ 0
      = some { ret := true, toc := 0, motion1 := ⟨1 / 2, [1 / 2]⟩, motion2 := ⟨1 / 2, [1 / 2]⟩,
               traversals := 0 } ∧
    headOnWorld.collide () (headOnWorld.getCurrentTransform (headOnWorld.integrate (1 / 2) 0)) ()
      (headOnWorld.getCurrentTransform (headOnWorld.integrate (1 / 2) 0)) = false := by
  norm_num [loopEntry, plainEntry, conservativeAdvancement, conservativeAdvancementShape,
    conservativeAdvancementMesh, headOnWorld, linearWorld, MotionBase.getCurrentTransform,
    earlyReturn, Node.fresh]

/-- C21, as the code has it: in every variant the transforms of the entry static test and of
the first traversal are the current transforms of the two motions as the caller hands them
over; no `integrate` call precedes the first traversal, which sees the motions as they came in
and `toc = 0`.  When the entry test is positive the call returns `(true, 0)` at once.  The
transforms are the poses of `t = 0` when the motions come in at time 0, that is when
`integrate(0)` would leave them as they are. -/
theorem entry_uses_current_pose (v : Variant) (W : World M Tf G1 G2 Sg) (o1 : G1)
    (motion1 : MotionBase M) (o2 : G2) (motion2 : MotionBase M) :
    (loopEntry v W o1 motion1 o2 motion2).tf1 = W.getCurrentTransform motion1.state ∧
    (loopEntry v W o1 motion1 o2 motion2).tf2 = W.getCurrentTransform motion2.state ∧
    (∀ fuel, conservativeAdvancement v W o1 motion1 o2 motion2 fuel
      = if W.collide o1 (W.getCurrentTransform motion1.state) o2
            (W.getCurrentTransform motion2.state) then
          some { ret := true, toc := 0, motion1 := motion1, motion2 := motion2, traversals := 0 }
        else (doWhile (loopBody v W) fuel (loopEntry v W o1 motion1 o2 motion2)).map
          CAState.exit) ∧
    (loopBody v W (loopEntry v W o1 motion1 o2 motion2)).1.node.setup
      = (W.init W.setup0 o1 (W.getCurrentTransform motion1.state) o2
          (W.getCurrentTransform motion2.state)).1 ∧
    (∃ n : Node M Tf Sg, n.toc = 0 ∧ n.motion1 = motion1 ∧ n.motion2 = motion2 ∧
      (loopBody v W (loopEntry v W o1 motion1 o2 motion2)).1.node.delta_t = (W.traverse n).2) ∧
    (W.integrate motion1.state 0 = motion1.state → W.integrate motion2.state 0 = motion2.state →
      (loopEntry v W o1 motion1 o2 motion2).tf1
        = W.getCurrentTransform (W.integrate motion1.state 0) ∧
      (loopEntry v W o1 motion1 o2 motion2).tf2
        = W.getCurrentTransform (W.integrate motion2.state 0)) := by
  have htf : (loopEntry v W o1 motion1 o2 motion2).tf1 = W.getCurrentTransform motion1.state ∧
      (loopEntry v W o1 motion1 o2 motion2).tf2 = W.getCurrentTransform motion2.state := by
    cases v <;> exact ⟨rfl, rfl⟩
  obtain ⟨e_toc, -, e_m1, e_m2, -⟩ := loopEntry_node v W o1 motion1 o2 motion2
  obtain ⟨n, hn0, -, -, -, hn1, hn2, hnd⟩ :=
    loopBody_delta_t v W (loopEntry v W o1 motion1 o2 motion2)
  refine ⟨htf.1, htf.2, fun fuel => ?_, first_setup v W o1 motion1 o2 motion2,
    ⟨n, hn0.trans e_toc, hn1.trans e_m1, hn2.trans e_m2, hnd⟩, fun h1 h2 => ?_⟩
  · rw [conservativeAdvancement_eq]; rfl
  · rw [h1, h2]; exact htf

/-- C22 at a failing input.  In the generic mesh loop run on two one-vertex meshes at 0 and 5
whose motions translate by `1 + t`, with `initialize` placing the model it is given: the first
pass hands the traversal the originals placed at the pose of `toc = 0`, `(1, 6)`, and advances
to `toc = 1/4`, where the pose is the translation by `5/4`; the second pass hands the
traversal `(9/4, 29/4)`, the pose applied to the vertices the first pass left, and not the
originals placed at that pose, `(5/4, 25/4)`.  The mesh-shape and the shape-mesh loop do the
same to the one mesh they copy. -/
theorem mesh_copy_cumulative :
    (loopBody .mesh placingWorld
      (loopEntry .mesh placingWorld 0 (MotionBase.start 0) 5 (MotionBase.start 0))).1.node.setup
        = (1, 6) ∧
    (loopBody .mesh placingWorld
      (loopEntry .mesh placingWorld 0 (MotionBase.start 0) 5 (MotionBase.start 0))).2 = false ∧
    (loopBody .mesh placingWorld
      (loopEntry .mesh placingWorld 0 (MotionBase.start 0) 5 (MotionBase.start 0))).1.node.toc
        = 1 / 4 ∧
    (loopBody .mesh placingWorld
      (loopEntry .mesh placingWorld 0 (MotionBase.start 0) 5 (MotionBase.start 0))).1.tf1
        = 5 / 4 ∧
    (loopBody .mesh placingWorld (loopBody .mesh placingWorld
      (loopEntry .mesh placingWorld 0 (MotionBase.start 0) 5 (MotionBase.start 0))).1
        ).1.node.setup = (9 / 4, 29 / 4) ∧
    (placingWorld.init (0, 0) 0 (5 / 4) 5 (5 / 4)).1 = (5 / 4, 25 / 4) ∧
    (loopBody .meshShape placingWorld (loopBody .meshShape placingWorld
      (loopEntry .meshShape placingWorld 0 (MotionBase.start 0) 5 (MotionBase.start 0))).1
        ).1.model1 = 9 / 4 ∧
    (loopBody .shapeMesh placingWorld (loopBody .shapeMesh placingWorld
      (loopEntry .shapeMesh placingWorld 0 (MotionBase.start 0) 5 (MotionBase.start 0))).1
        ).1.model2 = 29 / 4 := by
  norm_num [loopBody, loopEntry, meshBody, meshEntry, meshShapeBody, meshShapeEntry,
    shapeMeshBody, shapeMeshEntry, placingWorld, MotionBase.start,
    MotionBase.getCurrentTransform, MotionBase.integrate, distanceRecurse, Node.fresh]

/-- What a pass keeps: which models are copies, and every model that is not a copy. -/
theorem copies_step (v : Variant) (W : World M Tf G1 G2 Sg) (o1 : G1) (o2 : G2)
    (s : CAState M Tf G1 G2 Sg)
    (hs : (s.copied1, s.copied2) = v.released ∧ (s.copied1 = false → s.model1 = o1) ∧
      (s.copied2 = false → s.model2 = o2)) :
    ((loopBody v W s).1.copied1, (loopBody v W s).1.copied2) = v.released ∧
    ((loopBody v W s).1.copied1 = false → (loopBody v W s).1.model1 = o1) ∧
    ((loopBody v W s).1.copied2 = false → (loopBody v W s).1.model2 = o2) := by
  obtain ⟨h1, h2, h3⟩ := hs
  cases v <;>
    simp only [loopBody, meshBody, meshOrientedBody, shapeBody, meshShapeBody,
      meshShapeOrientedBody, shapeMeshBody, shapeMeshOrientedBody, distanceRecurse,
      Variant.released, Prod.mk.injEq] at h1 ⊢ <;>
    split_ifs <;> simp_all

/-- C23: geometries are read-only inputs.  In every variant and every run, at the start of
every outer iteration and after every pass (so also on return) a model that is not a
query-local copy is the caller's object, unchanged: what `initialize` leaves is written only
to the copies.  Which objects are copied does not change during the run; the copies exist
exactly in the generic mesh loops and are the ones the statements after the loop release; a
call whose entry test is positive returns before any copy is made. -/
theorem geometries_read_only (v : Variant) (W : World M Tf G1 G2 Sg) (o1 : G1)
    (motion1 : MotionBase M) (o2 : G2) (motion2 : MotionBase M) :
    (∀ fuel, W.collide o1 (motion1.getCurrentTransform W) o2 (motion2.getCurrentTransform W)
        = true →
      conservativeAdvancement v W o1 motion1 o2 motion2 fuel
        = some (earlyReturn motion1 motion2)) ∧
    ((loopEntry v W o1 motion1 o2 motion2).copied1,
      (loopEntry v W o1 motion1 o2 motion2).copied2) = v.released ∧
    (loopEntry v W o1 motion1 o2 motion2).model1 = o1 ∧
    (loopEntry v W o1 motion1 o2 motion2).model2 = o2 ∧
    (v.released.1 = true ↔ v = .mesh ∨ v = .meshShape) ∧
    (v.released.2 = true ↔ v = .mesh ∨ v = .shapeMesh) ∧
    ∀ k s, stateAt (loopBody v W) k (loopEntry v W o1 motion1 o2 motion2) = some s →
      (s.copied1, s.copied2) = v.released ∧
      ((loopBody v W s).1.copied1, (loopBody v W s).1.copied2) = v.released ∧
      (v.released.1 = false → s.model1 = o1 ∧ (loopBody v W s).1.model1 = o1) ∧
      (v.released.2 = false → s.model2 = o2 ∧ (loopBody v W s).1.model2 = o2) := by
  have he : ((loopEntry v W o1 motion1 o2 motion2).copied1,
      (loopEntry v W o1 motion1 o2 motion2).copied2) = v.released ∧
      (loopEntry v W o1 motion1 o2 motion2).model1 = o1 ∧
      (loopEntry v W o1 motion1 o2 motion2).model2 = o2 := by
    cases v <;> exact ⟨rfl, rfl, rfl⟩
  refine ⟨fun fuel hc => ?_, he.1, he.2.1, he.2.2, by cases v <;> simp [Variant.released],
    by cases v <;> simp [Variant.released], fun k s hs => ?_⟩
  · rw [conservativeAdvancement_eq, hc]; rfl
  · have hinv := stateAt_rule (loopBody v W)
      (fun s => (s.copied1, s.copied2) = v.released ∧ (s.copied1 = false → s.model1 = o1) ∧
        (s.copied2 = false → s.model2 = o2))
      (fun s hs _ => copies_step v W o1 o2 s hs) k _ s
      ⟨he.1, fun _ => he.2.1, fun _ => he.2.2⟩ hs
    have hnext := copies_step v W o1 o2 s hinv
    have e1 : s.copied1 = v.released.1 := congrArg Prod.fst hinv.1
    have e2 : s.copied2 = v.released.2 := congrArg Prod.snd hinv.1
    have f1 : (loopBody v W s).1.copied1 = v.released.1 := congrArg Prod.fst hnext.1
    have f2 : (loopBody v W s).1.copied2 = v.released.2 := congrArg Prod.snd hnext.1
    exact ⟨hinv.1, hnext.1,
      fun h => ⟨hinv.2.1 (e1.trans h), hnext.2.1 (f1.trans h)⟩,
      fun h => ⟨hinv.2.2 (e2.trans h), hnext.2.2 (f2.trans h)⟩⟩

/-! ## The claims on the collision geometry -/

/-- C27: for every geometry `isOccupied()` is true exactly when
`cost_density >= threshold_occupied`, `isFree()` exactly when `cost_density <= threshold_free`,
`isUncertain()` exactly when neither holds; a default-constructed geometry is occupied, not
free and not uncertain. -/
theorem occupancy_thresholds (g : CollisionGeometry) :
    (g.isOccupied = true ↔ g.cost_density ≥ g.threshold_occupied) ∧
    (g.isFree = true ↔ g.cost_density ≤ g.threshold_free) ∧
    (g.isUncertain = true ↔
      ¬ g.cost_density ≥ g.threshold_occupied ∧ ¬ g.cost_density ≤ g.threshold_free) ∧
    CollisionGeometry.new.isOccupied = true ∧ CollisionGeometry.new.isFree = false ∧
    CollisionGeometry.new.isUncertain = false := by
  refine ⟨by simp [CollisionGeometry.isOccupied], by simp [CollisionGeometry.isFree],
    by simp [CollisionGeometry.isUncertain, CollisionGeometry.isOccupied,
      CollisionGeometry.isFree], ?_, ?_, ?_⟩ <;>
  norm_num [CollisionGeometry.isUncertain, CollisionGeometry.isOccupied,
    CollisionGeometry.isFree, CollisionGeometry.new]

/-- C28: the parallel-axis shift.  For every geometry `computeMomentofInertiaRelatedToCOM()`
is `C - V * (|com|^2 * I3 - com * com^T)` with `C`, `com`, `V` what the three virtual member
functions return; for the base class the result is the zero matrix. -/
theorem parallel_axis_shift (g : CollisionGeometry) :
    g.computeMomentofInertiaRelatedToCOM
      = g.computeMomentofInertia - g.computeVolume •
          ((Matrix.dotProduct g.computeCOM g.computeCOM) • (1 : Matrix3d)
            - Matrix.vecMulVec g.computeCOM g.computeCOM) ∧
    CollisionGeometry.new.computeMomentofInertiaRelatedToCOM = 0 := by
  constructor
  · ext i j
    fin_cases i <;> fin_cases j <;>
      simp [CollisionGeometry.computeMomentofInertiaRelatedToCOM, Matrix.dotProduct,
        Fin.sum_univ_three, Matrix.vecMulVec_apply, Matrix.one_apply, Matrix.vecHead,
        Matrix.vecTail, -mul_eq_mul_left_iff, -sub_right_inj] <;>
      ring
  · ext i j
    fin_cases i <;> fin_cases j <;>
      simp [CollisionGeometry.computeMomentofInertiaRelatedToCOM, CollisionGeometry.new,
        Matrix.vecHead, Matrix.vecTail]

/-! ## The claims on the convex polytope -/

/-- The summation loop of the constructor computes the sum of the first `n` points. -/
theorem foldl_points_sum (points : Nat → Vector3d) (n : Nat) :
    (List.range n).foldl (fun sum i => sum + points i) 0 = ∑ i in Finset.range n, points i := by
  induction n with
  | zero => rfl
  | succ n ih => rw [List.range_succ, List.foldl_append, ih, Finset.sum_range_succ]; rfl

/-- The centre the constructor stores. -/
theorem construct_center (raw : Convex) (fillEdges : Convex → Option (Nat → Edge) × Int)
    (plane_normals_ : Nat → Vector3d) (plane_dis_ : Nat → ℚ) (num_planes_ : Int)
    (points_ : Nat → Vector3d) (num_points_ : Int) (polygons_ : Nat → Int) :
    (Convex.construct raw fillEdges plane_normals_ plane_dis_ num_planes_ points_ num_points_
      polygons_).center
      = (1 / (num_points_ : ℚ)) • ∑ i in Finset.range num_points_.toNat, points_ i := by
  simp only [Convex.construct, foldl_points_sum]

theorem dotProduct_sum_range (n : Vector3d) (points : Nat → Vector3d) (m : Nat) :
    Matrix.dotProduct n (∑ i in Finset.range m, points i)
      = ∑ i in Finset.range m, Matrix.dotProduct n (points i) := by
  induction m with
  | zero => simp
  | succ m ih => rw [Finset.sum_range_succ, Finset.sum_range_succ, Matrix.dotProduct_add, ih]

/-- The centre of the tetrahedron. -/
theorem tetra_center : tetra.center = ![1, 1, 1] := by
  rw [tetra, construct_center]
  ext i
  fin_cases i <;>
    norm_num [Finset.sum_range_succ, tetraPoints, Int.toNat]

/-- C29: for every `Convex` constructed from `num_points > 0` points, `center` is the
arithmetic mean of the points: a convex combination of them, with the equal weights
`1 / num_points`, which are not negative and sum to 1; hence it satisfies every plane
inequality `n . x <= d` that all the points satisfy. -/
theorem convex_center_mean (raw : Convex) (fillEdges : Convex → Option (Nat → Edge) × Int)
    (plane_normals_ : Nat → Vector3d) (plane_dis_ : Nat → ℚ) (num_planes_ : Int)
    (points_ : Nat → Vector3d) (num_points_ : Int) (polygons_ : Nat → Int)
    (h : 0 < num_points_) :
    (Convex.construct raw fillEdges plane_normals_ plane_dis_ num_planes_ points_ num_points_
      polygons_).points = points_ ∧
    (Convex.construct raw fillEdges plane_normals_ plane_dis_ num_planes_ points_ num_points_
      polygons_).num_points = num_points_ ∧
    (Convex.construct raw fillEdges plane_normals_ plane_dis_ num_planes_ points_ num_points_
      polygons_).center
      = (1 / (num_points_ : ℚ)) • ∑ i in Finset.range num_points_.toNat, points_ i ∧
    (0 ≤ 1 / (num_points_ : ℚ) ∧
      ∑ _i in Finset.range num_points_.toNat, 1 / (num_points_ : ℚ) = 1 ∧
      (Convex.construct raw fillEdges plane_normals_ plane_dis_ num_planes_ points_ num_points_
        polygons_).center
        = ∑ i in Finset.range num_points_.toNat, (1 / (num_points_ : ℚ)) • points_ i) ∧
    ∀ (n : Vector3d) (d : ℚ), (∀ i, i < num_points_.toNat → Matrix.dotProduct n (points_ i) ≤ d) →
      Matrix.dotProduct n (Convex.construct raw fillEdges plane_normals_ plane_dis_ num_planes_
        points_ num_points_ polygons_).center ≤ d := by
  have hcast : ((num_points_.toNat : ℕ) : ℚ) = (num_points_ : ℚ) := by
    have := Int.toNat_of_nonneg (le_of_lt h)
    exact_mod_cast congrArg (fun z : Int => (z : ℚ)) this
  have hpos : (0 : ℚ) < (num_points_ : ℚ) := by exact_mod_cast h
  refine ⟨rfl, rfl, construct_center _ _ _ _ _ _ _ _, ⟨by positivity, ?_, ?_⟩, fun n d hn => ?_⟩
  · rw [Finset.sum_const, Finset.card_range, nsmul_eq_mul, hcast]
    field_simp
  · rw [construct_center, Finset.smul_sum]
  · rw [construct_center, Matrix.dotProduct_smul, dotProduct_sum_range, smul_eq_mul]
    have hsum : ∑ i in Finset.range num_points_.toNat, Matrix.dotProduct n (points_ i)
        ≤ ∑ _i in Finset.range num_points_.toNat, d :=
      Finset.sum_le_sum (fun i hi => hn i (Finset.mem_range.mp hi))
    rw [Finset.sum_const, Finset.card_range, nsmul_eq_mul, hcast] at hsum
    calc 1 / (num_points_ : ℚ) * ∑ i in Finset.range num_points_.toNat,
          Matrix.dotProduct n (points_ i)
        ≤ 1 / (num_points_ : ℚ) * ((num_points_ : ℚ) * d) :=
          mul_le_mul_of_nonneg_left hsum (by positivity)
      _ = d := by field_simp

/-- C29 on the tetrahedron: its centre is `(1, 1, 1)` and lies on the inner side of every
plane that has the four vertices on its inner side. -/
theorem convex_center_mean_witness :
    (0 : Int) < 4 ∧ tetra.center = ![1, 1, 1] ∧
    ∀ (n : Vector3d) (d : ℚ), (∀ i, i < 4 → Matrix.dotProduct n (tetraPoints i) ≤ d) →
      Matrix.dotProduct n tetra.center ≤ d :=
  ⟨by decide, tetra_center,
    (convex_center_mean zeroStorage (fun _ => (some tetraEdges, 6)) tetraNormals tetraDis 4
      tetraPoints 4 tetraPolygons (by decide)).2.2.2.2⟩

/-- C30 at a failing input.  The copy constructor assigns neither `num_points` nor `num_edges`
nor `center`: whatever it copies from, the new object keeps in these members what its storage
held, and the `memcpy` copies as many edges as the unassigned `num_edges` says.  Copying the
tetrahedron (4 points, 6 edges, centre `(1, 1, 1)`) into zeroed storage gives an object with
0 points, 0 edges, centre `(0, 0, 0)` and none of the edges copied. -/
theorem copy_leaves_members_unset :
    (∀ (raw : Convex) (fresh : Nat → Edge) (other c : Convex),
      Convex.copy raw fresh other = some c →
        c.num_points = raw.num_points ∧ c.num_edges = raw.num_edges ∧ c.center = raw.center) ∧
    tetra.num_points = 4 ∧ tetra.num_edges = 6 ∧ tetra.center = ![1, 1, 1] ∧
    (∃ e, tetra.edges = some e ∧ e 0 = ⟨0, 1⟩) ∧
    ∃ c, Convex.copy zeroStorage (fun _ => ⟨0, 0⟩) tetra = some c ∧
      c.num_points = 0 ∧ c.num_edges = 0 ∧ c.center = 0 ∧
      (∃ e, c.edges = some e ∧ e 0 = ⟨0, 0⟩) ∧
      c.plane_normals = tetra.plane_normals ∧ c.plane_dis = tetra.plane_dis ∧
      c.num_planes = tetra.num_planes ∧ c.points = tetra.points ∧
      c.polygons = tetra.polygons := by
  refine ⟨?_, rfl, rfl, tetra_center, ⟨tetraEdges, rfl, rfl⟩, ?_⟩
  · intro raw fresh other c hc
    simp only [Convex.copy] at hc
    split_ifs at hc with h1 h2 h3 <;> split at hc <;>
      first
      | (cases hc; exact ⟨rfl, rfl, rfl⟩)
      | cases hc
  · refine ⟨{ zeroStorage with
        plane_normals := tetra.plane_normals, plane_dis := tetra.plane_dis,
        num_planes := tetra.num_planes, points := tetra.points, polygons := tetra.polygons,
        edges := some (fun i => if (i : Int) < 0 then tetraEdges i else ⟨0, 0⟩) },
      ?_, rfl, rfl, rfl, ⟨_, rfl, rfl⟩, rfl, rfl, rfl, rfl, rfl⟩
    simp [Convex.copy, tetra, Convex.construct, zeroStorage]

/-! ## The claims on the support of the matrix and on the tags -/

/-- C35: the supported set of the dispatch matrix is symmetric: for every pair of node types
the entry `[i][j]` of the constructed matrix is non-null exactly when the entry `[j][i]` is. -/
theorem support_symmetric (ns : Solver) (m : FunctionMatrix) (i j : NODE_TYPE) :
    lookup ns m i j ≠ none ↔ lookup ns m j i ≠ none := by
  rw [lookup_eq, lookup_eq, ← table_swap ns i j]
  cases tableEntry ns i j <;> simp

/-- C36: the occupancy trichotomy.  For every geometry with `threshold_free <
threshold_occupied` exactly one of `isOccupied()`, `isFree()`, `isUncertain()` is true; for
every geometry at least one of the three is true, `isUncertain()` is true exactly when the
other two are false, and `isOccupied()` and `isFree()` are both true only when
`threshold_occupied <= threshold_free`.  The default-constructed geometry has
`threshold_free < threshold_occupied`. -/
theorem occupancy_trichotomy (g : CollisionGeometry) :
    (g.threshold_free < g.threshold_occupied →
      (g.isOccupied = true ∧ g.isFree = false ∧ g.isUncertain = false) ∨
      (g.isOccupied = false ∧ g.isFree = true ∧ g.isUncertain = false) ∨
      (g.isOccupied = false ∧ g.isFree = false ∧ g.isUncertain = true)) ∧
    (g.isOccupied = true ∨ g.isFree = true ∨ g.isUncertain = true) ∧
    (g.isUncertain = true ↔ g.isOccupied = false ∧ g.isFree = false) ∧
    (g.isOccupied = true → g.isFree = true → g.threshold_occupied ≤ g.threshold_free) ∧
    CollisionGeometry.new.threshold_free < CollisionGeometry.new.threshold_occupied := by
  refine ⟨fun h => ?_, ?_, ?_, fun ho hf => ?_, by norm_num [CollisionGeometry.new]⟩
  · by_cases ho : g.cost_density ≥ g.threshold_occupied
    · have hf : ¬ g.cost_density ≤ g.threshold_free := fun hf => by linarith
      left
      simp [CollisionGeometry.isUncertain, CollisionGeometry.isOccupied,
        CollisionGeometry.isFree, ho, hf]
    · right
      by_cases hf : g.cost_density ≤ g.threshold_free
      · left
        simp [CollisionGeometry.isUncertain, CollisionGeometry.isOccupied,
          CollisionGeometry.isFree, ho, hf]
      · right
        simp [CollisionGeometry.isUncertain, CollisionGeometry.isOccupied,
          CollisionGeometry.isFree, ho, hf]
  · simp only [CollisionGeometry.isUncertain]
    cases g.isOccupied <;> cases g.isFree <;> simp
  · simp only [CollisionGeometry.isUncertain]
    cases g.isOccupied <;> cases g.isFree <;> simp
  · simp only [CollisionGeometry.isOccupied, CollisionGeometry.isFree, decide_eq_true_eq] at ho hf
    linarith

/-- C37: a geometry that does not override its tags is never dispatchable.  The base
`CollisionGeometry` reports `OT_UNKNOWN` and `BV_UNKNOWN`, and every entry of the constructed
matrix in the row or in the column of `BV_UNKNOWN` is null.  A `Convex` reports `GEOM_CONVEX`,
whose entries against the eight shapes and the eight BV kinds are non-null, in either order:
they are the shape-shape, the shape-mesh and the mesh-shape handler instantiated for
`Convex`. -/
theorem untagged_not_dispatchable (ns : Solver) (m : FunctionMatrix) (c : Convex) :
    CollisionGeometry.new.getObjectType = .OT_UNKNOWN ∧
    CollisionGeometry.new.getNodeType = .BV_UNKNOWN ∧
    (∀ j : NODE_TYPE, lookup ns m CollisionGeometry.new.getNodeType j = none ∧
      lookup ns m j CollisionGeometry.new.getNodeType = none) ∧
    c.getNodeType = .GEOM_CONVEX ∧
    (∀ s : Shape,
      lookup ns m c.getNodeType s.nodeType = some (.ShapeConservativeAdvancement .Convex s ns) ∧
      lookup ns m s.nodeType c.getNodeType = some (.ShapeConservativeAdvancement s .Convex ns)) ∧
    (∀ b : BVKind,
      lookup ns m c.getNodeType b.nodeType
        = some (.ShapeBVHConservativeAdvancement .Convex b ns) ∧
      lookup ns m b.nodeType c.getNodeType
        = some (.BVHShapeConservativeAdvancement b .Convex ns)) ∧
    ∀ j : NODE_TYPE, lookup ns m c.getNodeType j ≠ none ↔
      (∃ s : Shape, s.nodeType = j) ∨ (∃ b : BVKind, b.nodeType = j) := by
  refine ⟨rfl, rfl, fun j => ?_, rfl, fun s => ?_, fun b => ?_, fun j => ?_⟩
  · rw [lookup_eq, lookup_eq]
    cases j <;> exact ⟨rfl, rfl⟩
  · rw [lookup_eq, lookup_eq]
    cases s <;> exact ⟨rfl, rfl⟩
  · rw [lookup_eq, lookup_eq]
    cases b <;> exact ⟨rfl, rfl⟩
  · rw [lookup_eq]
    cases j <;> simp [tableEntry, NODE_TYPE.toShape, NODE_TYPE.toBV, Convex.getNodeType] <;>
      decide

/-! ## Lemmas on the pass that leaves the loop -/

/-- A loop that returns does so from a pass that breaks, at an iteration the fuel covers. -/
theorem doWhile_final {S : Type} (body : S → S × Bool) :
    ∀ (n : Nat) (s0 r : S), doWhile body n s0 = some r →
      ∃ k s, k < n ∧ stateAt body k s0 = some s ∧ (body s).2 = true ∧ r = (body s).1 := by
  intro n
  induction n with
  | zero => intro s0 r h; simp [doWhile] at h
  | succ n ih =>
    intro s0 r h
    simp only [doWhile] at h
    split_ifs at h with hb
    · cases h
      exact ⟨0, s0, by omega, rfl, hb, rfl⟩
    · obtain ⟨k, s, hk, hs, hbs, hr⟩ := ih _ r h
      exact ⟨k + 1, s, by omega, by simp [stateAt, hb, hs], hbs, hr⟩

/-- Under a conservative traversal step there is no contact before the `toc` returned. -/
theorem no_contact_before_toc (v : Variant) (W : World M Tf G1 G2 Sg) (o1 : G1)
    (motion1 : MotionBase M) (o2 : G2) (motion2 : MotionBase M) (contact : ℚ → Prop)
    (hcons : ∀ k s, stateAt (loopBody v W) k (loopEntry v W o1 motion1 o2 motion2) = some s →
      ∀ τ, s.node.toc ≤ τ → τ < s.node.toc + (loopBody v W s).1.node.delta_t → ¬ contact τ)
    (fuel : Nat) (r : CAResult M)
    (h : conservativeAdvancement v W o1 motion1 o2 motion2 fuel = some r) :
    ∀ τ, 0 ≤ τ → τ < r.toc → ¬ contact τ := by
  rw [conservativeAdvancement_eq] at h
  split_ifs at h with hc
  · cases h
    intro τ h0 h1
    simp only [earlyReturn] at h1
    exact absurd h1 (not_lt.mpr h0)
  · obtain ⟨sf, hsf, rfl⟩ := Option.map_eq_some'.mp h
    have step : ∀ s, ((∃ k, stateAt (loopBody v W) k (loopEntry v W o1 motion1 o2 motion2)
          = some s) ∧ ∀ τ, 0 ≤ τ → τ < s.node.toc → ¬ contact τ) →
        ((loopBody v W s).2 = false →
          ∃ k, stateAt (loopBody v W) k (loopEntry v W o1 motion1 o2 motion2)
            = some (loopBody v W s).1) ∧
        ∀ τ, 0 ≤ τ → τ < (loopBody v W s).1.node.toc → ¬ contact τ := by
      rintro s ⟨⟨k, hk⟩, hsafe⟩
      refine ⟨fun hb => ⟨k + 1, stateAt_succ _ k _ s hk hb⟩, ?_⟩
      intro τ h0 h1
      by_cases hτ : τ < s.node.toc
      · exact hsafe τ h0 hτ
      · rcases toc_step_le v W s with hle | hle
        · exact absurd (lt_of_lt_of_le h1 hle) hτ
        · exact hcons k s hk τ (not_lt.mp hτ) (lt_of_lt_of_le h1 hle)
    refine doWhile_rule (loopBody v W)
      (fun s => (∃ k, stateAt (loopBody v W) k (loopEntry v W o1 motion1 o2 motion2)
          = some s) ∧ ∀ τ, 0 ≤ τ → τ < s.node.toc → ¬ contact τ)
      (fun s => ∀ τ, 0 ≤ τ → τ < s.node.toc → ¬ contact τ)
      (fun s hs => by
        split_ifs with hb
        · exact (step s hs).2
        · exact ⟨(step s hs).1 (by simpa using hb), (step s hs).2⟩)
      fuel _ sf ⟨⟨0, rfl⟩, ?_⟩ hsf
    intro τ h0 h1
    rw [(loopEntry_node v W o1 motion1 o2 motion2).1] at h1
    exact absurd h1 (not_lt.mpr h0)

/-- With a tolerance that is not negative, the `toc` of every iteration start is 0 or above
the tolerance: every advance is by more than the tolerance. -/
theorem toc_zero_or_past (v : Variant) (W : World M Tf G1 G2 Sg) (ht : 0 ≤ W.t_err)
    (s : CAState M Tf G1 G2 Sg)
    (hs : s.node.t_err = W.t_err ∧ (s.node.toc = 0 ∨ W.t_err < s.node.toc)) :
    (loopBody v W s).1.node.t_err = W.t_err ∧
    ((loopBody v W s).1.node.toc = 0 ∨ W.t_err < (loopBody v W s).1.node.toc ∨
      (loopBody v W s).1.node.toc = 1) ∧
    ((loopBody v W s).2 = false →
      (loopBody v W s).1.node.toc = 0 ∨ W.t_err < (loopBody v W s).1.node.toc) := by
  obtain ⟨he, h0⟩ := hs
  obtain ⟨hte, -, hcase⟩ := loopBody_spec v W s
  have hnn : 0 ≤ s.node.toc := by rcases h0 with h | h <;> linarith
  rw [he] at hcase
  split_ifs at hcase with hc hk
  · refine ⟨hte.trans he, ?_, fun hb => ?_⟩
    · rw [hcase.2.1]; rcases h0 with h | h
      · exact Or.inl h
      · exact Or.inr (Or.inl h)
    · rw [hcase.1] at hb; cases hb
  · refine ⟨hte.trans he, Or.inr (Or.inr hcase.2.1), fun hb => ?_⟩
    rw [hcase.1] at hb; cases hb
  · have : W.t_err < (loopBody v W s).1.node.toc := by rw [hcase.2.1]; linarith
    exact ⟨hte.trans he, Or.inr (Or.inl this), fun _ => Or.inr this⟩

/-- A call with a tolerance that is not negative that returns true with `toc > 0` returns a
`toc` above the tolerance. -/
theorem toc_past_tolerance (v : Variant) (W : World M Tf G1 G2 Sg) (o1 : G1)
    (motion1 : MotionBase M) (o2 : G2) (motion2 : MotionBase M) (ht : 0 ≤ W.t_err)
    (fuel : Nat) (r : CAResult M)
    (h : conservativeAdvancement v W o1 motion1 o2 motion2 fuel = some r)
    (hret : r.ret = true) (hpos : 0 < r.toc) : W.t_err < r.toc := by
  have hlt : r.toc < 1 := (ret_iff_aux v W o1 motion1 o2 motion2 fuel r h).mp hret
  rw [conservativeAdvancement_eq] at h
  split_ifs at h with hc
  · cases h
    simp only [earlyReturn] at hpos
    exact absurd hpos (lt_irrefl 0)
  · obtain ⟨sf, hsf, rfl⟩ := Option.map_eq_some'.mp h
    obtain ⟨k, s, -, hs, -, rfl⟩ := doWhile_final _ _ _ _ hsf
    have hinv := stateAt_rule (loopBody v W)
      (fun s => s.node.t_err = W.t_err ∧ (s.node.toc = 0 ∨ W.t_err < s.node.toc))
      (fun s hs hb => ⟨(toc_zero_or_past v W ht s hs).1, (toc_zero_or_past v W ht s hs).2.2 hb⟩)
      k _ s
      ⟨(loopEntry_node v W o1 motion1 o2 motion2).2.1,
        Or.inl (loopEntry_node v W o1 motion1 o2 motion2).1⟩ hs
    simp only [CAState.exit] at hpos hlt ⊢
    rcases (toc_zero_or_past v W ht s hinv).2.1 with h0 | h0 | h0
    · rw [h0] at hpos; exact absurd hpos (lt_irrefl 0)
    · exact h0
    · rw [h0] at hlt; exact absurd hlt (lt_irrefl 1)

/-! ## The claims on the returned time and on the motions on return -/

/-- C33, refuted as stated: with `t_err = 0` the head-on run in the shape loop, whose steps are
conservative for the contact from time `1/2` on, returns true with `toc = 1/2 > 0`; the time
`toc - t_err` is `toc` itself, which is not in `(0, toc)`, and the objects touch at it. -/
theorem zero_tolerance_counterexample :
    (0 : ℚ) ≤ (linearWorld 1 2 0).t_err ∧
    (∀ k s, stateAt (loopBody .shape (linearWorld 1 2 0)) k
        (loopEntry .shape (linearWorld 1 2 0) () (MotionBase.start 0) () (MotionBase.start 0))
          = some s →
      ∀ τ : ℚ, s.node.toc ≤ τ →
        τ < s.node.toc + (loopBody .shape (linearWorld 1 2 0) s).1.node.delta_t →
        ¬ (1 / 2 ≤ τ)) ∧
    conservativeAdvancement .shape (linearWorld 1 2 0) () (MotionBase.start 0) ()
        (MotionBase.start 0) 2
      = some { ret := true, toc := 1 / 2, motion1 := ⟨1 / 2, [1 / 2]⟩,
               motion2 := ⟨1 / 2, [1 / 2]⟩, traversals := 2 } ∧
    ¬ ((1 : ℚ) / 2 - (linearWorld 1 2 0).t_err < 1 / 2) ∧
    (1 : ℚ) / 2 ≤ 1 / 2 - (linearWorld 1 2 0).t_err := by
  refine ⟨le_refl _, fun k s hs τ h0 h1 => ?_, ?_, by norm_num [linearWorld],
    by norm_num [linearWorld]⟩
  · rw [linear_closing 1 2 0 (by norm_num) (by norm_num) (le_refl 0) .shape k s hs] at h1
    intro hτ
    linarith
  · norm_num [conservativeAdvancement, conservativeAdvancementShape, doWhile, shapeBody,
      plainEntry, linearWorld, MotionBase.start, MotionBase.getCurrentTransform,
      MotionBase.integrate, distanceRecurse, Node.fresh, CAState.exit, earlyReturn]

/-- C33, as the code has it: for every query with `t_err >= 0` that returns true with
`toc > 0`, the returned `toc` is strictly greater than `t_err`; when `t_err > 0`, the time
`toc - t_err` is in `(0, toc)` and, under a conservative traversal step, the objects are not
in contact at it. -/
theorem positive_past_tolerance (v : Variant) (W : World M Tf G1 G2 Sg) (o1 : G1)
    (motion1 : MotionBase M) (o2 : G2) (motion2 : MotionBase M) (contact : ℚ → Prop)
    (ht : 0 ≤ W.t_err)
    (hcons : ∀ k s, stateAt (loopBody v W) k (loopEntry v W o1 motion1 o2 motion2) = some s →
      ∀ τ, s.node.toc ≤ τ → τ < s.node.toc + (loopBody v W s).1.node.delta_t → ¬ contact τ)
    (fuel : Nat) (r : CAResult M)
    (h : conservativeAdvancement v W o1 motion1 o2 motion2 fuel = some r)
    (hret : r.ret = true) (hpos : 0 < r.toc) :
    W.t_err < r.toc ∧
    (0 < W.t_err →
      0 < r.toc - W.t_err ∧ r.toc - W.t_err < r.toc ∧ ¬ contact (r.toc - W.t_err)) := by
  have hgt := toc_past_tolerance v W o1 motion1 o2 motion2 ht fuel r h hret hpos
  refine ⟨hgt, fun hte => ⟨by linarith, by linarith, ?_⟩⟩
  exact no_contact_before_toc v W o1 motion1 o2 motion2 contact hcons fuel r h _
    (by linarith) (by linarith)

/-- C33 as amended, on the head-on run with `t_err = 1e-4`: the returned `toc = 1/2` is above
the tolerance, and at `1/2 - 1e-4` the spheres, which touch from `1/2` on, are apart. -/
theorem positive_past_tolerance_witness :
    headOnWorld.t_err < 1 / 2 ∧
    (0 < headOnWorld.t_err →
      0 < (1 : ℚ) / 2 - headOnWorld.t_err ∧ (1 : ℚ) / 2 - headOnWorld.t_err < 1 / 2 ∧
      ¬ ((1 : ℚ) / 2 ≤ 1 / 2 - headOnWorld.t_err)) :=
  positive_past_tolerance .mesh headOnWorld () (MotionBase.start 0) () (MotionBase.start 0)
    (fun τ => 1 / 2 ≤ τ) (by norm_num [headOnWorld, linearWorld])
    (fun k s hs τ h0 h1 => by
      have hd := linear_closing 1 2 (1 / 10000) (by norm_num) (by norm_num) (by norm_num)
        .mesh k s hs
      have hd' : (loopBody .mesh headOnWorld s).1.node.delta_t = (1 - 2 * s.node.toc) / 2 := hd
      rw [hd'] at h1
      intro hτ
      linarith)
    2 _ headOn_run rfl (by norm_num)

/-- At the start of iteration `k` each motion has had `k` `integrate` calls, the last of them
to the current `toc`, and the node carries the tolerance of the world. -/
theorem lastLog_reach (v : Variant) (W : World M Tf G1 G2 Sg) (o1 : G1) (motion1 : MotionBase M)
    (o2 : G2) (motion2 : MotionBase M) (k : Nat) (s : CAState M Tf G1 G2 Sg)
    (hs : stateAt (loopBody v W) k (loopEntry v W o1 motion1 o2 motion2) = some s) :
    s.node.t_err = W.t_err ∧
    ∃ l, Logged motion1 motion2 s l ∧ l.length = k ∧
      (k ≠ 0 → l.getLast? = some s.node.toc) := by
  have h := stateAt_rule_idx (loopBody v W)
    (fun k s => s.node.t_err = W.t_err ∧
      ∃ l, Logged motion1 motion2 s l ∧ l.length = k ∧ (k ≠ 0 → l.getLast? = some s.node.toc))
    (fun k s hinv hb => by
      obtain ⟨he, l, hl, hlen, -⟩ := hinv
      have hstep := logged_step v W motion1 motion2 s l hl
      rw [hb, if_neg Bool.false_ne_true] at hstep
      exact ⟨(loopBody_spec v W s).1.trans he, _, hstep, by simp [hlen], fun _ => by simp⟩)
    k 0 _ s
    ⟨(loopEntry_node v W o1 motion1 o2 motion2).2.1, [],
      ⟨by rw [(loopEntry_node v W o1 motion1 o2 motion2).2.2.1, List.append_nil],
        by rw [(loopEntry_node v W o1 motion1 o2 motion2).2.2.2.1, List.append_nil]⟩,
      rfl, fun h => absurd rfl h⟩ hs
  rw [Nat.zero_add] at h
  exact h

/-- How the pass that leaves the loop leaves the motions. -/
theorem leftAt_of_break (v : Variant) (W : World M Tf G1 G2 Sg) (o1 : G1)
    (motion1 : MotionBase M) (o2 : G2) (motion2 : MotionBase M) (k : Nat)
    (s : CAState M Tf G1 G2 Sg)
    (hs : stateAt (loopBody v W) k (loopEntry v W o1 motion1 o2 motion2) = some s)
    (hb : (loopBody v W s).2 = true) :
    LeftAt v W o1 motion1 o2 motion2 (loopBody v W s).1.exit k s := by
  obtain ⟨he, l, hl, hlen, hlast⟩ := lastLog_reach v W o1 motion1 o2 motion2 k s hs
  obtain ⟨-, -, hcase⟩ := loopBody_spec v W s
  rw [he] at hcase
  have hm : (loopBody v W s).1.node.motion1 = s.node.motion1 ∧
      (loopBody v W s).1.node.motion2 = s.node.motion2 := by
    split_ifs at hcase with hc hk
    · exact hcase.2.2
    · exact hcase.2.2
    · rw [hcase.1] at hb; cases hb
  have hc1 : calls motion1 (loopBody v W s).1.exit.motion1 = l := by
    apply calls_of_append
    simp only [CAState.exit, hm.1]
    exact hl.1
  have hc2 : calls motion2 (loopBody v W s).1.exit.motion2 = l := by
    apply calls_of_append
    simp only [CAState.exit, hm.2]
    exact hl.2
  refine ⟨hs, hb, rfl, hm.1, hm.2, by rw [hc1, hlen], by rw [hc1, hc2],
    fun hk => by rw [hc1]; exact hlast hk, fun hconv => ?_, fun hconv => ?_⟩
  · rw [if_pos hconv] at hcase
    exact hcase.2.1
  · rw [if_neg hconv] at hcase
    split_ifs at hcase with hk
    · exact ⟨hcase.2.1, hk⟩
    · rw [hcase.1] at hb; cases hb

/-- C34, refuted as stated: the run of the shape loop on two objects that do not move leaves
the loop by the clamp on its second pass, which starts at `toc = 1`; the motions, left as that
pass found them, have been integrated to the returned time 1. -/
theorem clamp_at_one_counterexample :
    (∃ s, stateAt (loopBody .shape staticWorld) 1
        (loopEntry .shape staticWorld () (MotionBase.start 0) () (MotionBase.start 0)) = some s ∧
      s.node.toc = 1 ∧ s.node.t_err < (loopBody .shape staticWorld s).1.node.delta_t ∧
      1 < s.node.toc + (loopBody .shape staticWorld s).1.node.delta_t) ∧
    conservativeAdvancement .shape staticWorld () (MotionBase.start 0) () (MotionBase.start 0) 2
      = some { ret := false, toc := 1, motion1 := ⟨1, [1]⟩, motion2 := ⟨1, [1]⟩,
               traversals := 2 } ∧
    calls (MotionBase.start 0) (⟨1, [1]⟩ : MotionBase ℚ) = [1] ∧
    (calls (MotionBase.start 0) (⟨1, [1]⟩ : MotionBase ℚ)).getLast? = some 1 := by
  refine ⟨⟨(loopBody .shape staticWorld
      (loopEntry .shape staticWorld () (MotionBase.start 0) () (MotionBase.start 0))).1,
    ?_, ?_⟩, ?_, rfl, rfl⟩
  · norm_num [stateAt, loopBody, shapeBody, loopEntry, plainEntry, staticWorld, linearWorld,
      MotionBase.start, MotionBase.getCurrentTransform, MotionBase.integrate, distanceRecurse,
      Node.fresh]
  · norm_num [loopBody, shapeBody, loopEntry, plainEntry, staticWorld, linearWorld,
      MotionBase.start, MotionBase.getCurrentTransform, MotionBase.integrate, distanceRecurse,
      Node.fresh]
  · norm_num [conservativeAdvancement, conservativeAdvancementShape, doWhile, shapeBody,
      plainEntry, staticWorld, linearWorld, MotionBase.start, MotionBase.getCurrentTransform,
      MotionBase.integrate, distanceRecurse, Node.fresh, CAState.exit, earlyReturn]

/-- C34, as the code has it: in every variant a call that returns either returned at the entry
test, with no `integrate` call at all, or left the loop on the pass of some iteration `k`
that started in a state `s`; then the motions are the ones of `s`, each has had `k`
`integrate` calls (none if the loop ended on its first iteration), the last of them to the
`toc` of `s`, the value `toc` had before the final traversal.  After the convergence exit that
is the returned `toc`; after the clamp exit the returned `toc` is 1 and the motions are left
at the `toc` of `s`, which had `toc + delta_t > 1`. -/
theorem motions_on_return (v : Variant) (W : World M Tf G1 G2 Sg) (o1 : G1)
    (motion1 : MotionBase M) (o2 : G2) (motion2 : MotionBase M) (fuel : Nat) (r : CAResult M)
    (h : conservativeAdvancement v W o1 motion1 o2 motion2 fuel = some r) :
    (W.collide o1 (motion1.getCurrentTransform W) o2 (motion2.getCurrentTransform W) = true ∧
      r = earlyReturn motion1 motion2 ∧ calls motion1 r.motion1 = [] ∧
      calls motion2 r.motion2 = []) ∨
    (W.collide o1 (motion1.getCurrentTransform W) o2 (motion2.getCurrentTransform W) = false ∧
      ∃ k s, k < fuel ∧ LeftAt v W o1 motion1 o2 motion2 r k s) := by
  rw [conservativeAdvancement_eq] at h
  split_ifs at h with hc
  · cases h
    exact Or.inl ⟨hc, rfl, by simp [calls, earlyReturn], by simp [calls, earlyReturn]⟩
  · obtain ⟨sf, hsf, rfl⟩ := Option.map_eq_some'.mp h
    obtain ⟨k, s, hk, hs, hb, rfl⟩ := doWhile_final _ _ _ _ hsf
    exact Or.inr ⟨by simpa using hc, k, s, hk, leftAt_of_break v W o1 motion1 o2 motion2 k s hs hb⟩

/-- C34 as amended, on the head-on run in the generic mesh loop. -/
theorem motions_on_return_witness :
    (headOnWorld.collide () ((MotionBase.start (0 : ℚ)).getCurrentTransform headOnWorld) ()
        ((MotionBase.start (0 : ℚ)).getCurrentTransform headOnWorld) = true ∧
      ({ ret := true, toc := 1 / 2, motion1 := ⟨1 / 2, [1 / 2]⟩, motion2 := ⟨1 / 2, [1 / 2]⟩,
         traversals := 2 } : CAResult ℚ) = earlyReturn (MotionBase.start 0) (MotionBase.start 0) ∧
      calls (MotionBase.start 0) (⟨1 / 2, [1 / 2]⟩ : MotionBase ℚ) = [] ∧
      calls (MotionBase.start 0) (⟨1 / 2, [1 / 2]⟩ : MotionBase ℚ) = []) ∨
    (headOnWorld.collide () ((MotionBase.start (0 : ℚ)).getCurrentTransform headOnWorld) ()
        ((MotionBase.start (0 : ℚ)).getCurrentTransform headOnWorld) = false ∧
      ∃ k s, k < 2 ∧ LeftAt .mesh headOnWorld () (MotionBase.start 0) () (MotionBase.start 0)
        { ret := true, toc := 1 / 2, motion1 := ⟨1 / 2, [1 / 2]⟩, motion2 := ⟨1 / 2, [1 / 2]⟩,
          traversals := 2 } k s) :=
  motions_on_return .mesh headOnWorld () (MotionBase.start 0) () (MotionBase.start 0) 2 _
    headOn_run

/-! ## Lemmas on the loops over the polygons -/

theorem foldl_add_range {α : Type} [AddCommMonoid α] (f : Nat → α) (a : α) (n : Nat) :
    (List.range n).foldl (fun a j => a + f j) a = a + ∑ j in Finset.range n, f j := by
  induction n with
  | zero => simp
  | succ n ih =>
    rw [List.range_succ, List.foldl_append, ih, Finset.sum_range_succ, ← add_assoc]
    rfl

theorem foldl_range_shift {β : Type} (g : β → β) (b : β) (n : Nat) :
    (List.range (n + 1)).foldl (fun b _ => g b) b = (List.range n).foldl (fun b _ => g b) (g b) := by
  rw [List.foldl_const, List.foldl_const, List.length_range, List.length_range,
    Function.iterate_succ_apply]

theorem foldl_add_map {α β : Type} [AddCommMonoid α] (f : β → α) (l : List β) (a : α) :
    l.foldl (fun a p => a + f p) a = a + (l.map f).sum := by
  induction l generalizing a with
  | nil => simp
  | cons p l ih => rw [List.foldl_cons, ih, List.map_cons, List.sum_cons, add_assoc]

theorem sum_range_getD {α : Type} [AddCommMonoid α] (f : Nat → α) (p : List Nat) :
    ∑ j in Finset.range p.length, f (p.getD j 0) = (p.map f).sum := by
  induction p with
  | nil => simp
  | cons a p ih =>
    rw [List.length_cons, Finset.sum_range_succ', List.map_cons, List.sum_cons, add_comm]
    congr 1

/-- What the walk over the polygons array computes, when each pass over a polygon computes
`G` of the accumulator and of the list of indices of the polygon. -/
theorem walk_fold {α : Type} (c : Convex) (F : Nat → α → α) (G : α → List Nat → α)
    (hF : ∀ pos p a, c.polygons pos = (p.length : Int) →
      (∀ j, j < p.length → c.polygons (pos + 1 + j) = ((p.getD j 0 : Nat) : Int)) →
      F pos a = G a p) :
    ∀ (ps : List (List Nat)) (pos : Nat) (a : α), c.listsFrom pos ps →
      ((List.range ps.length).foldl
        (fun (st : α × Nat) _i => (F st.2 st.1, st.2 + (c.polygons st.2 + 1).toNat))
        (a, pos)).1 = ps.foldl G a := by
  intro ps
  induction ps with
  | nil => intro pos a _; rfl
  | cons p ps ih =>
    intro pos a h
    obtain ⟨h1, h2, h3⟩ := h
    rw [List.length_cons,
      foldl_range_shift (fun (st : α × Nat) => (F st.2 st.1, st.2 + (c.polygons st.2 + 1).toNat))]
    simp only [List.foldl_cons]
    rw [hF pos p a h1 h2, h1]
    have : ((p.length : Int) + 1).toNat = p.length + 1 := by omega
    rw [this]
    exact ih _ _ h3

/-- The centre of a listed polygon. -/
theorem plane_center_eq (c : Convex) (pos : Nat) (p : List Nat)
    (h1 : c.polygons pos = (p.length : Int))
    (h2 : ∀ j, j < p.length → c.polygons (pos + 1 + j) = ((p.getD j 0 : Nat) : Int)) :
    c.plane_center pos = faceCenter c.points p := by
  simp only [Convex.plane_center, faceCenter, h1, Int.toNat_ofNat, Int.cast_natCast]
  rw [foldl_add_range, zero_add, ← sum_range_getD]
  congr 1
  refine Finset.sum_congr rfl (fun j hj => ?_)
  simp only [Convex.point, Convex.index, h2 j (Finset.mem_range.mp hj), Int.toNat_ofNat]

/-- The six-fold volume over an edge of a listed polygon. -/
theorem d_six_vol_eq (c : Convex) (pos : Nat) (p : List Nat)
    (h1 : c.polygons pos = (p.length : Int))
    (h2 : ∀ j, j < p.length → c.polygons (pos + 1 + j) = ((p.getD j 0 : Nat) : Int))
    (j : Nat) (hj : j < p.length) :
    c.d_six_vol pos j = fanSixVol c.points p j := by
  have hm : (j + 1) % p.length < p.length := Nat.mod_lt _ (by omega)
  simp only [Convex.d_six_vol, fanSixVol, plane_center_eq c pos p h1 h2, Convex.point,
    Convex.index, h1, Int.toNat_ofNat, h2 j hj, h2 _ hm]

theorem fst_sum_map {α β γ : Type} [AddCommMonoid α] [AddCommMonoid β] (f : γ → α × β)
    (l : List γ) : ((l.map f).sum).1 = (l.map (fun x => (f x).1)).sum := by
  induction l with
  | nil => rfl
  | cons x l ih => simp only [List.map_cons, List.sum_cons, Prod.fst_add, ih]

theorem snd_sum_map {α β γ : Type} [AddCommMonoid α] [AddCommMonoid β] (f : γ → α × β)
    (l : List γ) : ((l.map f).sum).2 = (l.map (fun x => (f x).2)).sum := by
  induction l with
  | nil => rfl
  | cons x l ih => simp only [List.map_cons, List.sum_cons, Prod.snd_add, ih]

/-- The volume of a well-formed polytope is a sixth of the sum over its polygons of the
six-fold volumes of their fans. -/
theorem computeVolume_eq (c : Convex) (ps : List (List Nat)) (hwf : c.WellFormed ps) :
    c.computeVolume = (ps.map (faceSixVol c.points)).sum / 6 := by
  obtain ⟨hn, hl, -⟩ := hwf
  have hw := walk_fold c
    (fun pos vol => (List.range (c.polygons pos).toNat).foldl
      (fun vol j => vol + c.d_six_vol pos j) vol)
    (fun vol p => vol + faceSixVol c.points p)
    (fun pos p a h1 h2 => by
      simp only [h1, Int.toNat_ofNat]
      rw [foldl_add_range]
      congr 1
      exact Finset.sum_congr rfl (fun j hj => d_six_vol_eq c pos p h1 h2 j (Finset.mem_range.mp hj)))
    ps 0 0 hl
  rw [foldl_add_map, zero_add] at hw
  rw [← hw]
  simp only [Convex.computeVolume, hn, Int.toNat_ofNat]

/-- The accumulators of `computeCOM` on a well-formed polytope. -/
theorem comAccumulators_eq (c : Convex) (ps : List (List Nat)) (hwf : c.WellFormed ps) :
    c.comAccumulators
      = ((ps.map (faceMoment c.points)).sum, (ps.map (faceSixVol c.points)).sum) := by
  obtain ⟨hn, hl, -⟩ := hwf
  have hw := walk_fold c
    (fun pos (acc : Vector3d × ℚ) => (List.range (c.polygons pos).toNat).foldl
      (fun (acc : Vector3d × ℚ) j =>
        acc + (c.d_six_vol pos j •
            (c.point (c.index pos j)
              + c.point (c.index pos ((j + 1) % (c.polygons pos).toNat))
              + c.plane_center pos),
          c.d_six_vol pos j)) acc)
    (fun acc p => acc + (faceMoment c.points p, faceSixVol c.points p))
    (fun pos p a h1 h2 => by
      simp only [h1, Int.toNat_ofNat]
      rw [foldl_add_range]
      congr 1
      rw [Prod.ext_iff]
      simp only [Prod.fst_sum, Prod.snd_sum, faceMoment, faceSixVol]
      refine ⟨Finset.sum_congr rfl (fun j hj => ?_), Finset.sum_congr rfl (fun j hj => ?_)⟩
      · have hj' := Finset.mem_range.mp hj
        have hm : (j + 1) % p.length < p.length := Nat.mod_lt _ (by omega)
        rw [d_six_vol_eq c pos p h1 h2 j hj', plane_center_eq c pos p h1 h2]
        simp only [Convex.point, Convex.index, h2 j hj', h2 _ hm, Int.toNat_ofNat]
      · exact d_six_vol_eq c pos p h1 h2 j (Finset.mem_range.mp hj))
    ps 0 (0 : Vector3d × ℚ) hl
  rw [foldl_add_map, zero_add] at hw
  have hc : c.comAccumulators
      = (ps.map (fun p => (faceMoment c.points p, faceSixVol c.points p))).sum := by
    rw [← hw]
    simp only [Convex.comAccumulators, hn, Int.toNat_ofNat]
    rfl
  rw [hc, Prod.ext_iff, fst_sum_map, snd_sum_map]
  exact ⟨rfl, rfl⟩

/-! ## Lemmas on the fan over a polygon -/

/-- The fan over a triangle: each of its three tetrahedra has a third of the six-fold volume
`det [p, q, r]`. -/
theorem faceSixVol_triangle (points : Nat → Vector3d) (i j k : Nat) :
    faceSixVol points [i, j, k] = Matrix.det (Matrix.of ![points i, points j, points k]) := by
  simp only [faceSixVol, fanSixVol, faceCenter, List.length_cons, List.length_nil,
    Finset.sum_range_succ, Finset.sum_range_zero, List.map_cons, List.map_nil, List.sum_cons,
    List.sum_nil, Matrix.det_fin_three, cross_apply, Matrix.dotProduct, Fin.sum_univ_three]
  norm_num [List.getD]
  ring

/-- The moment of the fan over a triangle. -/
theorem faceMoment_triangle (points : Nat → Vector3d) (i j k : Nat) :
    faceMoment points [i, j, k]
      = Matrix.det (Matrix.of ![points i, points j, points k]) •
          (points i + points j + points k) := by
  ext x
  simp only [faceMoment, fanSixVol, faceCenter, List.length_cons, List.length_nil,
    Finset.sum_range_succ, Finset.sum_range_zero, List.map_cons, List.map_nil, List.sum_cons,
    List.sum_nil, Matrix.det_fin_three, cross_apply, Matrix.dotProduct, Fin.sum_univ_three,
    Pi.add_apply, Pi.smul_apply, smul_eq_mul, Finset.sum_apply]
  norm_num [List.getD]
  ring

/-- The sum of the six-fold volumes of the four faces of a tetrahedron. -/
theorem tetra_sixVol (points : Nat → Vector3d) :
    (tetraFaces.map (faceSixVol points)).sum
      = Matrix.det (Matrix.of ![points 1 - points 0, points 2 - points 0,
          points 3 - points 0]) := by
  simp only [tetraFaces, List.map_cons, List.map_nil, List.sum_cons, List.sum_nil,
    faceSixVol_triangle, Matrix.det_fin_three]
  simp only [Matrix.of_apply, Matrix.cons_val_zero, Matrix.cons_val_one, Matrix.head_cons,
    Matrix.cons_val_two, Matrix.tail_cons, Pi.sub_apply]
  ring

/-- The sum of the moments of the four faces of a tetrahedron. -/
theorem tetra_moment (points : Nat → Vector3d) :
    (tetraFaces.map (faceMoment points)).sum
      = Matrix.det (Matrix.of ![points 1 - points 0, points 2 - points 0,
          points 3 - points 0]) • (points 0 + points 1 + points 2 + points 3) := by
  ext x
  simp only [tetraFaces, List.map_cons, List.map_nil, List.sum_cons, List.sum_nil,
    faceMoment_triangle, Matrix.det_fin_three]
  simp only [Matrix.of_apply, Matrix.cons_val_zero, Matrix.cons_val_one, Matrix.head_cons,
    Matrix.cons_val_two, Matrix.tail_cons, Pi.sub_apply, Pi.add_apply, Pi.smul_apply,
    smul_eq_mul, Pi.zero_apply, add_zero]
  fin_cases x <;> simp only [Fin.zero_eta, Fin.mk_one, Fin.reduceFinMk] <;> ring

theorem faceCenter_reverse (points : Nat → Vector3d) (p : List Nat) :
    faceCenter points p.reverse = faceCenter points p := by
  simp only [faceCenter, List.length_reverse, List.map_reverse, List.sum_reverse]

theorem faceCenter_smul (points : Nat → Vector3d) (p : List Nat) (s : ℚ) :
    faceCenter (fun i => s • points i) p = s • faceCenter points p := by
  have h : (p.map (fun i => s • points i)).sum = s • (p.map points).sum := by
    induction p with
    | nil => simp
    | cons a p ih => simp only [List.map_cons, List.sum_cons, ih, smul_add]
  simp only [faceCenter, h, smul_comm s]

theorem fanSixVol_smul (points : Nat → Vector3d) (p : List Nat) (j : Nat) (s : ℚ) :
    fanSixVol (fun i => s • points i) p j = s ^ 3 * fanSixVol points p j := by
  simp only [fanSixVol, faceCenter_smul, cross_apply, Matrix.dotProduct, Fin.sum_univ_three,
    Pi.smul_apply, smul_eq_mul, Matrix.cons_val_zero, Matrix.cons_val_one, Matrix.head_cons,
    Matrix.cons_val_two, Matrix.tail_cons]
  ring

/-- Scaling every point by `s` multiplies the six-fold volume over a polygon by `s ^ 3`. -/
theorem faceSixVol_smul (points : Nat → Vector3d) (p : List Nat) (s : ℚ) :
    faceSixVol (fun i => s • points i) p = s ^ 3 * faceSixVol points p := by
  simp only [faceSixVol, fanSixVol_smul, Finset.mul_sum]

/-- A sum over the edges of a cycle taken backwards is the sum over the edges taken forwards
with the ends of every edge exchanged. -/
theorem cyclic_sum_reflect (T : Vector3d → Vector3d → ℚ) (hT : ∀ u v, T u v = -T v u)
    (g : Nat → Vector3d) (m : Nat) :
    ∑ j in Finset.range (m + 1), T (g (m - j)) (g (m - (j + 1) % (m + 1)))
      = -∑ j in Finset.range (m + 1), T (g j) (g ((j + 1) % (m + 1))) := by
  rw [Finset.sum_range_succ, Finset.sum_range_succ, Nat.mod_self, Nat.sub_self, Nat.sub_zero]
  have h1 : ∑ j in Finset.range m, T (g (m - j)) (g (m - (j + 1) % (m + 1)))
      = ∑ j in Finset.range m, (fun i => T (g (i + 1)) (g i)) (m - 1 - j) := by
    refine Finset.sum_congr rfl (fun j hj => ?_)
    have hj' := Finset.mem_range.mp hj
    rw [Nat.mod_eq_of_lt (by omega)]
    have e1 : m - j = m - 1 - j + 1 := by omega
    have e2 : m - (j + 1) = m - 1 - j := by omega
    simp only [e2]
    rw [e1]
  have h2 : ∑ j in Finset.range m, T (g j) (g ((j + 1) % (m + 1)))
      = ∑ j in Finset.range m, T (g j) (g (j + 1)) := by
    refine Finset.sum_congr rfl (fun j hj => ?_)
    rw [Nat.mod_eq_of_lt (by have := Finset.mem_range.mp hj; omega)]
  rw [h1, h2, Finset.sum_range_reflect (fun i => T (g (i + 1)) (g i)) m, neg_add,
    ← Finset.sum_neg_distrib, hT (g 0) (g m)]
  congr 1
  exact Finset.sum_congr rfl (fun j _ => hT _ _)

/-- Reversing the order of the vertices of a polygon negates the six-fold volume over it. -/
theorem faceSixVol_reverse (points : Nat → Vector3d) (p : List Nat) :
    faceSixVol points p.reverse = -faceSixVol points p := by
  rcases Nat.eq_zero_or_pos p.length with h0 | hpos
  · have : p = [] := List.length_eq_zero.mp h0
    subst this
    simp [faceSixVol]
  · obtain ⟨m, hm⟩ : ∃ m, p.length = m + 1 := ⟨p.length - 1, by omega⟩
    have hget : ∀ j, j ≤ m → p.reverse.getD j 0 = p.getD (m - j) 0 := by
      intro j hj
      rw [List.getD_eq_getElem _ _ (by rw [List.length_reverse]; omega),
        List.getD_eq_getElem _ _ (by omega), List.getElem_reverse]
      congr 1
      omega
    have hrev : faceSixVol points p.reverse
        = ∑ j in Finset.range (m + 1),
            (fun u v => Matrix.dotProduct (crossProduct u v) (faceCenter points p))
              ((fun j => points (p.getD j 0)) (m - j))
              ((fun j => points (p.getD j 0)) (m - (j + 1) % (m + 1))) := by
      simp only [faceSixVol, fanSixVol, List.length_reverse, hm, faceCenter_reverse]
      refine Finset.sum_congr rfl (fun j hj => ?_)
      have hj' := Finset.mem_range.mp hj
      have hmod : (j + 1) % (m + 1) ≤ m := Nat.lt_succ_iff.mp (Nat.mod_lt _ (by omega))
      rw [hget j (by omega), hget _ hmod]
    have hcyc := cyclic_sum_reflect
      (fun u v => Matrix.dotProduct (crossProduct u v) (faceCenter points p))
      (fun u v => by
        show Matrix.dotProduct (crossProduct u v) _ = -Matrix.dotProduct (crossProduct v u) _
        rw [← cross_anticomm v u, Matrix.neg_dotProduct])
      (fun j => points (p.getD j 0)) m
    rw [hrev, hcyc]
    simp only [faceSixVol, fanSixVol, hm]

/-! ## The claims on the inertia, the volume and the centre of mass of a convex polytope -/

theorem foldl_invariant {α β : Type} (P : α → Prop) (f : α → β → α)
    (h : ∀ a b, P a → P (f a b)) (l : List β) (a : α) (ha : P a) : P (l.foldl f a) := by
  induction l generalizing a with
  | nil => exact ha
  | cons b l ih => exact ih _ (h a b ha)

theorem C_canonical_isSymm : C_canonical.IsSymm := by
  ext i j
  fin_cases i <;> fin_cases j <;> rfl

/-- The accumulator of `computeMomentofInertia` is a symmetric matrix. -/
theorem inertiaAccumulator_isSymm (c : Convex) : c.inertiaAccumulator.IsSymm := by
  unfold Convex.inertiaAccumulator
  refine foldl_invariant (fun st : Matrix3d × Nat => st.1.IsSymm) _ (fun st _ hst => ?_) _ _
    Matrix.isSymm_zero
  refine foldl_invariant (fun C : Matrix3d => C.IsSymm) _ (fun C j hC => ?_) _ _ hst
  refine Matrix.IsSymm.add hC (Matrix.IsSymm.smul ?_ _)
  unfold Matrix.IsSymm
  rw [Matrix.transpose_mul, Matrix.transpose_mul, Matrix.transpose_transpose,
    C_canonical_isSymm.eq, Matrix.mul_assoc]

/-- The parallel-axis shift of a symmetric matrix is symmetric. -/
theorem relatedToCOM_symm (g : CollisionGeometry)
    (h : ∀ i j, g.computeMomentofInertia i j = g.computeMomentofInertia j i) (i j : Fin 3) :
    g.computeMomentofInertiaRelatedToCOM i j = g.computeMomentofInertiaRelatedToCOM j i := by
  fin_cases i <;> fin_cases j <;>
    simp [CollisionGeometry.computeMomentofInertiaRelatedToCOM, Matrix.vecHead,
      Matrix.vecTail, -mul_eq_mul_left_iff, -sub_right_inj, h 1 0, h 2 0, h 2 1] <;>
    ring

/-- C38: the inertia matrix of a `Convex` is symmetric.  For every points array and every
polygons array the matrix `m` that `computeMomentofInertia()` returns has `m(i, j) = m(j, i)`
for all `i`, `j`, and so has the matrix `computeMomentofInertiaRelatedToCOM()` returns for a
geometry whose `computeMomentofInertia()` is the one of the `Convex`, whatever its centre of
mass and volume. -/
theorem inertia_symmetric (c : Convex) :
    (∀ i j, c.computeMomentofInertia i j = c.computeMomentofInertia j i) ∧
    ∀ g : CollisionGeometry, g.computeMomentofInertia = c.computeMomentofInertia →
      ∀ i j, g.computeMomentofInertiaRelatedToCOM i j
        = g.computeMomentofInertiaRelatedToCOM j i := by
  have hC := inertiaAccumulator_isSymm c
  have hm : ∀ i j, c.computeMomentofInertia i j = c.computeMomentofInertia j i := by
    intro i j
    fin_cases i <;> fin_cases j <;>
      simp [Convex.computeMomentofInertia, Matrix.vecHead, Matrix.vecTail, hC.apply 0 1,
        hC.apply 0 2, hC.apply 1 2]
  exact ⟨hm, fun g hg i j => relatedToCOM_symm g (fun i j => by rw [hg]; exact hm i j) i j⟩

theorem listsFrom_congr (c c' : Convex) (h : c'.polygons = c.polygons) :
    ∀ (ps : List (List Nat)) (pos : Nat), c.listsFrom pos ps → c'.listsFrom pos ps := by
  intro ps
  induction ps with
  | nil => intro _ _; trivial
  | cons p ps ih =>
    intro pos hl
    exact ⟨by rw [h]; exact hl.1, fun j hj => by rw [h]; exact hl.2.1 j hj, ih _ hl.2.2⟩

theorem sum_map_reverse (points : Nat → Vector3d) (ps : List (List Nat)) :
    ((ps.map List.reverse).map (faceSixVol points)).sum
      = -(ps.map (faceSixVol points)).sum := by
  induction ps with
  | nil => simp
  | cons p ps ih =>
    simp only [List.map_cons, List.sum_cons, ih, faceSixVol_reverse, neg_add]

theorem sum_map_smul (points : Nat → Vector3d) (ps : List (List Nat)) (s : ℚ) :
    (ps.map (faceSixVol (fun i => s • points i))).sum
      = s ^ 3 * (ps.map (faceSixVol points)).sum := by
  induction ps with
  | nil => simp
  | cons p ps ih => simp only [List.map_cons, List.sum_cons, ih, faceSixVol_smul, mul_add]

theorem tetra_wellFormed : tetra.WellFormed tetraFaces := by
  refine ⟨rfl, ⟨rfl, by decide, rfl, by decide, rfl, by decide, rfl, by decide, trivial⟩,
    by decide⟩

theorem tetra_reversed_wellFormed :
    ({ tetra with polygons := tetraPolygonsReversed } : Convex).WellFormed
      (tetraFaces.map List.reverse) := by
  refine ⟨rfl, ⟨rfl, by decide, rfl, by decide, rfl, by decide, rfl, by decide, trivial⟩,
    by decide⟩

/-- C39: winding and scale of the volume.  For every points array and every well-formed
polygons array, the polytope with the vertex order of every polygon reversed has the negated
`computeVolume()`, so at most one of the two windings gives a positive result, and the
polytope with every point scaled by `s` has `computeVolume()` multiplied by `s ^ 3`. -/
theorem volume_winding_scale (c c' : Convex) (ps : List (List Nat)) (s : ℚ)
    (hwf : c.WellFormed ps) (hrev : c'.WellFormed (ps.map List.reverse))
    (hpts : c'.points = c.points) :
    c'.computeVolume = -c.computeVolume ∧
    ¬ (0 < c.computeVolume ∧ 0 < c'.computeVolume) ∧
    ({ c with points := fun i => s • c.points i } : Convex).computeVolume
      = s ^ 3 * c.computeVolume := by
  have h1 : c'.computeVolume = -c.computeVolume := by
    rw [computeVolume_eq c' _ hrev, computeVolume_eq c ps hwf, hpts, sum_map_reverse, neg_div]
  have hs : ({ c with points := fun i => s • c.points i } : Convex).WellFormed ps :=
    ⟨hwf.1, listsFrom_congr c { c with points := fun i => s • c.points i } rfl ps 0 hwf.2.1,
      hwf.2.2⟩
  refine ⟨h1, fun h => ?_, ?_⟩
  · rw [h1] at h; linarith [h.1, h.2]
  · rw [computeVolume_eq _ ps hs, computeVolume_eq c ps hwf]
    show (ps.map (faceSixVol (fun i => s • c.points i))).sum / 6 = _
    rw [sum_map_smul, mul_div_assoc]

/-- C39 on the tetrahedron, reversed and scaled by 2. -/
theorem volume_winding_scale_witness :
    ({ tetra with polygons := tetraPolygonsReversed } : Convex).computeVolume
      = -tetra.computeVolume ∧
    ¬ (0 < tetra.computeVolume ∧
      0 < ({ tetra with polygons := tetraPolygonsReversed } : Convex).computeVolume) ∧
    ({ tetra with points := fun i => (2 : ℚ) • tetra.points i } : Convex).computeVolume
      = 2 ^ 3 * tetra.computeVolume :=
  volume_winding_scale tetra { tetra with polygons := tetraPolygonsReversed } tetraFaces 2
    tetra_wellFormed tetra_reversed_wellFormed rfl

theorem triangle_rotated (p : List Nat) (i j k : Nat) (h : p ~r [i, j, k]) :
    p = [i, j, k] ∨ p = [j, k, i] ∨ p = [k, i, j] := by
  obtain ⟨n, hn, hr⟩ := List.isRotated_iff_mod.mp h.symm
  simp only [List.length_cons, List.length_nil] at hn
  interval_cases n <;> simp [List.rotate] at hr <;> simp [← hr]

/-- The fan over a triangle does not depend on the vertex the triangle is listed from. -/
theorem triangle_fan_rotated (points : Nat → Vector3d) (p q : List Nat) (hq : q.length = 3)
    (h : p ~r q) :
    faceSixVol points p = faceSixVol points q ∧ faceMoment points p = faceMoment points q := by
  obtain ⟨i, j, k, rfl⟩ := List.length_eq_three.mp hq
  have hdet1 : Matrix.det (Matrix.of ![points j, points k, points i])
      = Matrix.det (Matrix.of ![points i, points j, points k]) := by
    simp only [Matrix.det_fin_three, Matrix.of_apply, Matrix.cons_val_zero, Matrix.cons_val_one,
      Matrix.head_cons, Matrix.cons_val_two, Matrix.tail_cons]
    ring
  have hdet2 : Matrix.det (Matrix.of ![points k, points i, points j])
      = Matrix.det (Matrix.of ![points i, points j, points k]) := by
    simp only [Matrix.det_fin_three, Matrix.of_apply, Matrix.cons_val_zero, Matrix.cons_val_one,
      Matrix.head_cons, Matrix.cons_val_two, Matrix.tail_cons]
    ring
  rcases triangle_rotated p i j k h with rfl | rfl | rfl
  · exact ⟨rfl, rfl⟩
  · rw [faceSixVol_triangle, faceSixVol_triangle, faceMoment_triangle, faceMoment_triangle,
      hdet1]
    exact ⟨rfl, by congr 1; abel⟩
  · rw [faceSixVol_triangle, faceSixVol_triangle, faceMoment_triangle, faceMoment_triangle,
      hdet2]
    exact ⟨rfl, by congr 1; abel⟩

/-- A sum over the faces of a description of the tetrahedron, for a summand that does not
depend on the vertex a triangle is listed from, is the sum over the four faces as `tetraFaces`
lists them. -/
theorem sum_over_description {α : Type} [AddCommMonoid α] (f : List Nat → α)
    (hf : ∀ p q, q.length = 3 → p ~r q → f p = f q) (ps qs : List (List Nat))
    (hrot : List.Forall₂ List.IsRotated ps qs) (hperm : qs.Perm tetraFaces) :
    (ps.map f).sum = (tetraFaces.map f).sum := by
  have hlen : ∀ q ∈ qs, q.length = 3 := by
    intro q hq
    have hmem := hperm.mem_iff.mp hq
    simp only [tetraFaces, List.mem_cons, List.mem_singleton, List.not_mem_nil, or_false] at hmem
    rcases hmem with rfl | rfl | rfl | rfl <;> rfl
  have hmap : ps.map f = qs.map f := by
    clear hperm
    induction hrot with
    | nil => rfl
    | cons h _ ih =>
      rw [List.map_cons, List.map_cons, hf _ _ (hlen _ (List.mem_cons_self _ _)) h,
        ih (fun q hq => hlen q (List.mem_cons_of_mem _ hq))]
  rw [hmap, (hperm.map f).sum_eq]

/-- The volume of a tetrahedron described by four triangles. -/
theorem tetra_volume_aux (c : Convex) (ps qs : List (List Nat)) (hwf : c.WellFormed ps)
    (hrot : List.Forall₂ List.IsRotated ps qs) (hperm : qs.Perm tetraFaces) :
    c.computeVolume
      = Matrix.det (Matrix.of ![c.points 1 - c.points 0, c.points 2 - c.points 0,
          c.points 3 - c.points 0]) / 6 := by
  rw [computeVolume_eq c ps hwf,
    sum_over_description (faceSixVol c.points)
      (fun p q hq h => (triangle_fan_rotated c.points p q hq h).1) ps qs hrot hperm,
    tetra_sixVol]

theorem tetra_det :
    Matrix.det (Matrix.of ![tetra.points 1 - tetra.points 0,
      tetra.points 2 - tetra.points 0, tetra.points 3 - tetra.points 0]) = 64 := by
  simp only [Matrix.det_fin_three, Matrix.of_apply, Matrix.cons_val_zero,
    Matrix.cons_val_one, Matrix.head_cons, Matrix.cons_val_two, Matrix.tail_cons]
  norm_num [tetra, Convex.construct, tetraPoints]

/-- C31: the volume of a tetrahedron.  For every tetrahedron with the vertices `a`, `b`, `c`,
`d` (the points 0, 1, 2, 3) described by its four triangular faces wound alike, `(a, c, b)`,
`(a, b, d)`, `(a, d, c)`, `(b, c, d)`, listed in any order and each from any of its vertices,
`computeVolume()` returns `det [b - a, c - a, d - a] / 6`: each face `(p, q, r)` contributes
exactly `det [p, q, r]` to the six-fold volume.  When the winding is outward that is the
volume; with every face reversed the result is the negative.  The result does not change when
the tetrahedron is moved. -/
theorem tetrahedron_volume (c : Convex) (ps qs : List (List Nat)) (hwf : c.WellFormed ps)
    (hrot : List.Forall₂ List.IsRotated ps qs) (hperm : qs.Perm tetraFaces) :
    c.computeVolume
      = Matrix.det (Matrix.of ![c.points 1 - c.points 0, c.points 2 - c.points 0,
          c.points 3 - c.points 0]) / 6 ∧
    c.computeVolume = (ps.map (faceSixVol c.points)).sum / 6 ∧
    (∀ i j k, faceSixVol c.points [i, j, k]
      = Matrix.det (Matrix.of ![c.points i, c.points j, c.points k])) ∧
    (0 < Matrix.det (Matrix.of ![c.points 1 - c.points 0, c.points 2 - c.points 0,
        c.points 3 - c.points 0]) →
      c.computeVolume
        = |Matrix.det (Matrix.of ![c.points 1 - c.points 0, c.points 2 - c.points 0,
            c.points 3 - c.points 0])| / 6) ∧
    (∀ c' : Convex, c'.WellFormed (ps.map List.reverse) → c'.points = c.points →
      c'.computeVolume
        = -(Matrix.det (Matrix.of ![c.points 1 - c.points 0, c.points 2 - c.points 0,
            c.points 3 - c.points 0]) / 6)) ∧
    ∀ t : Vector3d,
      ({ c with points := fun i => c.points i + t } : Convex).computeVolume = c.computeVolume := by
  have hv := tetra_volume_aux c ps qs hwf hrot hperm
  refine ⟨hv, computeVolume_eq c ps hwf, faceSixVol_triangle c.points,
    fun hpos => by rw [hv, abs_of_pos hpos], fun c' hrev hpts => ?_, fun t => ?_⟩
  · rw [computeVolume_eq c' _ hrev, hpts, sum_map_reverse, neg_div, ← computeVolume_eq c ps hwf,
      hv]
  · have ht : ({ c with points := fun i => c.points i + t } : Convex).WellFormed ps :=
      ⟨hwf.1, listsFrom_congr c { c with points := fun i => c.points i + t } rfl ps 0 hwf.2.1,
        hwf.2.2⟩
    rw [tetra_volume_aux _ ps qs ht hrot hperm, hv]
    simp only [add_sub_add_right_eq_sub]

/-- C31 on the tetrahedron with corners at the origin and on the axes at distance 4: the
volume is `4 ^ 3 / 6`. -/
theorem tetrahedron_volume_witness :
    tetra.computeVolume
      = Matrix.det (Matrix.of ![tetra.points 1 - tetra.points 0,
          tetra.points 2 - tetra.points 0, tetra.points 3 - tetra.points 0]) / 6 ∧
    Matrix.det (Matrix.of ![tetra.points 1 - tetra.points 0,
      tetra.points 2 - tetra.points 0, tetra.points 3 - tetra.points 0]) = 64 :=
  ⟨(tetrahedron_volume tetra tetraFaces tetraFaces tetra_wellFormed
      (List.forall₂_same.mpr (fun _ _ => List.IsRotated.refl _)) (List.Perm.refl _)).1,
    tetra_det⟩

/-- C32: the centre of mass.  For every well-formed polytope with a volume that is not zero,
`computeCOM()` returns a vector that, times `24 * computeVolume()`, is the sum over all
face-fan tetrahedra of `(v1 + v2 + face_center) * six_fold_volume`; the division is by zero
exactly when `computeVolume()` is zero.  For every non-degenerate tetrahedron with the
vertices `a`, `b`, `c`, `d` described by its four triangular faces wound alike, listed in any
order and each from any of its vertices, `computeCOM()` returns `(a + b + c + d) / 4`. -/
theorem tetrahedron_com (c : Convex) (ps : List (List Nat)) (hwf : c.WellFormed ps) :
    (c.computeVolume ≠ 0 →
      ∃ com, c.computeCOM = some com ∧
        (24 * c.computeVolume) • com = (ps.map (faceMoment c.points)).sum) ∧
    (c.computeVolume = 0 ↔ c.computeCOM = none) ∧
    ∀ qs : List (List Nat), List.Forall₂ List.IsRotated ps qs → qs.Perm tetraFaces →
      Matrix.det (Matrix.of ![c.points 1 - c.points 0, c.points 2 - c.points 0,
        c.points 3 - c.points 0]) ≠ 0 →
      c.computeCOM
        = some ((1 / 4 : ℚ) • (c.points 0 + c.points 1 + c.points 2 + c.points 3)) := by
  have hacc := comAccumulators_eq c ps hwf
  have hvol := computeVolume_eq c ps hwf
  have hzero : c.computeVolume = 0 ↔ (ps.map (faceSixVol c.points)).sum * 4 = 0 := by
    rw [hvol]
    constructor
    · intro h
      have : (ps.map (faceSixVol c.points)).sum = 0 := by
        rcases div_eq_zero_iff.mp h with h | h
        · exact h
        · norm_num at h
      rw [this, zero_mul]
    · intro h
      have : (ps.map (faceSixVol c.points)).sum = 0 := by
        rcases mul_eq_zero.mp h with h | h
        · exact h
        · norm_num at h
      rw [this, zero_div]
  have hcom : ∀ hne : (ps.map (faceSixVol c.points)).sum * 4 ≠ 0,
      c.computeCOM = some ((1 / ((ps.map (faceSixVol c.points)).sum * 4)) •
        (ps.map (faceMoment c.points)).sum) := by
    intro hne
    simp only [Convex.computeCOM, hacc, if_neg hne]
  refine ⟨fun hv => ?_, ?_, fun qs hrot hperm hdet => ?_⟩
  · have hne : (ps.map (faceSixVol c.points)).sum * 4 ≠ 0 := fun h => hv (hzero.mpr h)
    refine ⟨_, hcom hne, ?_⟩
    rw [smul_smul, hvol]
    have h6 : (ps.map (faceSixVol c.points)).sum ≠ 0 := fun h => hne (by rw [h, zero_mul])
    have : 24 * ((ps.map (faceSixVol c.points)).sum / 6)
        * (1 / ((ps.map (faceSixVol c.points)).sum * 4)) = 1 := by
      field_simp
      ring
    rw [this, one_smul]
  · rw [hzero]
    constructor
    · intro h
      simp only [Convex.computeCOM, hacc, if_pos h]
    · intro h
      by_contra hne
      rw [hcom hne] at h
      cases h
  · have hsix : (ps.map (faceSixVol c.points)).sum
        = Matrix.det (Matrix.of ![c.points 1 - c.points 0, c.points 2 - c.points 0,
            c.points 3 - c.points 0]) := by
      rw [sum_over_description (faceSixVol c.points)
        (fun p q hq h => (triangle_fan_rotated c.points p q hq h).1) ps qs hrot hperm,
        tetra_sixVol]
    have hmom : (ps.map (faceMoment c.points)).sum
        = Matrix.det (Matrix.of ![c.points 1 - c.points 0, c.points 2 - c.points 0,
            c.points 3 - c.points 0]) • (c.points 0 + c.points 1 + c.points 2 + c.points 3) := by
      rw [sum_over_description (faceMoment c.points)
        (fun p q hq h => (triangle_fan_rotated c.points p q hq h).2) ps qs hrot hperm,
        tetra_moment]
    have hne : (ps.map (faceSixVol c.points)).sum * 4 ≠ 0 := by
      rw [hsix]
      exact mul_ne_zero hdet (by norm_num)
    rw [hcom hne, hmom, hsix, smul_smul]
    congr 2
    field_simp

/-- C32 on the tetrahedron with corners at the origin and on the axes at distance 4. -/
theorem tetrahedron_com_witness :
    tetra.computeCOM
      = some ((1 / 4 : ℚ) • (tetra.points 0 + tetra.points 1 + tetra.points 2
          + tetra.points 3)) :=
  (tetrahedron_com tetra tetraFaces tetra_wellFormed).2.2 tetraFaces
    (List.forall₂_same.mpr (fun _ _ => List.IsRotated.refl _)) (List.Perm.refl _)
    (by rw [tetra_det]; norm_num)

end fcl
